import Mathlib

/-!
Langoflow: AI-response normalisation and corpus ingest

A shallow embedding of the JavaScript sources

* `src/utils/aianalysis.js` (`validateAnalysisResult`, `analyzeTextWithAI`,
  `validateThemes`),
* `src/controllers/corpusController.js` (`formatThemes`, `exports.create`,
  `exports.list`, `exports.getOne`, `exports.update`, `exports.delete`,
  `exports.getStats`),
* `src/controllers/opinionController.js` (`exports.list`, `exports.getOne`,
  `exports.update`, `exports.delete`),
* `src/routes/corpus.js` and `src/routes/opinion.js` (the schema paths written by
  the updates, the `pre('save')` hooks),
* `src/middleware/auth.js` (`auth`) and the corpus routes of `src/server.js`,
* `src/models/user.js` (`updateStatistics`),

together with the fragment of JavaScript value semantics those functions rely on
(truthiness, `typeof`, `Array.isArray`, property reads and writes, `||`,
template-literal string conversion).

Conventions of the embedding:

* a JavaScript value reachable from `JSON.parse` output is a `JsVal`; `undefined`
  (the result of reading an absent property, or an absent request field) is
  `none : Option JsVal`;
* a raised exception is `Except.error`; every exception raised by the embedded
  code paths of `validateAnalysisResult` is a `TypeError`; an error made by
  `new Error(message)` in `analyzeTextWithAI` is its message;
* the provider called by `analyzeTextWithAI`, the builtin `JSON.parse` and the
  clock `Date.now()` are parameters of the functions that use them;
* strings are sequences of Unicode code points (`String`); `substring(0, n)` is the
  first `n` code points, which is what JavaScript computes when the first `n`
  UTF-16 code units hold no surrogate pair;
* numbers are integers, printed in plain decimal as JavaScript prints every
  integer of magnitude below `10^21`; the numbers computed from the query of a list
  request are the doubles whose value is an integer, or an infinity (`Num`);
* the storage layer is explicit state (`Store`, `Database`); what it may refuse is
  given to a handler as the message of the rejection; reads are taken to fulfil;
* the casting and the validation done by the schemas on a new document belong to
  the storage layer; in the updates, the casts of the assigned paths and the
  `required` validators are those of the schema declarations, the construction of a
  vocabulary sub-document being a parameter (`SchemaEnv`);
* the token library and the user collection read by `auth` are parameters
  (`AuthEnv`).
-/

set_option autoImplicit false

namespace Langoflow

/-! ## JavaScript values -/

/-- Exceptions raised by the embedded code. -/
inductive JsError where
  | typeError
deriving DecidableEq, Repr

/-- JavaScript values built by `JSON.parse` and by the embedded functions.  An array
carries, besides its elements, the named (non-index) properties assigned to it;
`JSON.parse` only produces arrays whose `props` is empty. -/
inductive JsVal where
  | null
  | bool (b : Bool)
  | num (n : Int)
  | str (s : String)
  | arr (elems : List JsVal) (props : List (String × JsVal))
  | obj (props : List (String × JsVal))
deriving Repr

/-- Own named properties of an object, in insertion order. -/
abbrev Props := List (String × JsVal)

/-- The empty array literal. -/
def emptyArray : JsVal := .arr [] []

/-- Read of an own property from a property list (first binding of the key). -/
def lookupProp : Props → String → Option JsVal
  | [], _ => none
  | (key, v) :: rest, k => if key = k then some v else lookupProp rest k

/-- Assignment `o[k] = v` on a property list: an existing key keeps its position,
a new key is appended. -/
def assignProp : Props → String → JsVal → Props
  | [], k, v => [(k, v)]
  | (key, old) :: rest, k, v =>
      if key = k then (k, v) :: rest else (key, old) :: assignProp rest k v

/-- Truthiness (`ToBoolean`) of a value. -/
def truthy : JsVal → Bool
  | .null => false
  | .bool b => b
  | .num n => n != 0
  | .str s => s != ""
  | .arr _ _ => true
  | .obj _ => true

/-- Truthiness of a possibly-`undefined` value. -/
def truthyOpt : Option JsVal → Bool
  | none => false
  | some v => truthy v

/-- The test `typeof v === 'object'`. -/
def typeofObject : JsVal → Bool
  | .null => true
  | .arr _ _ => true
  | .obj _ => true
  | _ => false

/-- The test `typeof v === 'string'`. -/
def typeofString : JsVal → Bool
  | .str _ => true
  | _ => false

/-- The builtin `Array.isArray`. -/
def isArray : JsVal → Bool
  | .arr _ _ => true
  | _ => false

/-- `Array.isArray` on a possibly-`undefined` value. -/
def isArrayOpt : Option JsVal → Bool
  | none => false
  | some v => isArray v

/-- Property read `v.k`, for keys that are neither array indices, `length`, nor
names defined on the builtin prototypes (every key read by the embedded functions is
of that kind).  Reading a property of `null` raises; a primitive has none of these
properties. -/
def getProp : JsVal → String → Except JsError (Option JsVal)
  | .null, _ => .error .typeError
  | .obj ps, k => .ok (lookupProp ps k)
  | .arr _ ps, k => .ok (lookupProp ps k)
  | _, _ => .ok none

/-- Property write `v.k = x` in sloppy mode (the modules carry no `'use strict'`):
raises on `null`, is silently ignored on a primitive. -/
def setProp : JsVal → String → JsVal → Except JsError JsVal
  | .null, _, _ => .error .typeError
  | .obj ps, k, x => .ok (.obj (assignProp ps k x))
  | .arr es ps, k, x => .ok (.arr es (assignProp ps k x))
  | v, _, _ => .ok v

/-- Property read `v.k` on a value known not to be `null` (and on `null`, where the
embedded code never reads, `undefined`). -/
def field (v : JsVal) (k : String) : Option JsVal :=
  match v with
  | .obj ps => lookupProp ps k
  | .arr _ ps => lookupProp ps k
  | _ => none

/-- The expression `a || b` when `b` is a value. -/
def jsOr (a : Option JsVal) (b : JsVal) : JsVal :=
  match a with
  | some v => if truthy v then v else b
  | none => b

/-- The expression `a || b` when `b` may be `undefined`. -/
def jsOrOpt (a b : Option JsVal) : Option JsVal :=
  if truthyOpt a then a else b

/-- Whether a property list has an own property `k`. -/
def hasOwn (ps : Props) (k : String) : Bool :=
  (lookupProp ps k).isSome

mutual
/-- The abstract operation `ToString`, as applied by a template literal.  A plain
object prints as `[object Object]` through `Object.prototype.toString`, unless it
has an own (never callable) `toString` property, in which case `ToPrimitive` finds
no usable method and raises.  An array prints through `Array.prototype.join`. -/
def jsToString : JsVal → Except JsError String
  | .null => .ok "null"
  | .bool b => .ok (if b then "true" else "false")
  | .num n => .ok (toString n)
  | .str s => .ok s
  | .arr elems props =>
      if hasOwn props "toString" then .error .typeError
      else if hasOwn props "join" then .ok "[object Array]"
      else (joinParts elems).map (String.intercalate ",")
  | .obj props =>
      if hasOwn props "toString" then .error .typeError else .ok "[object Object]"
termination_by structural v => v
/-- The strings joined by `Array.prototype.join`: `null` elements print as the
empty string, the others through `ToString`. -/
def joinParts : List JsVal → Except JsError (List String)
  | [] => .ok []
  | x :: xs =>
      match (match x with | JsVal.null => Except.ok "" | v => jsToString v), joinParts xs with
      | .ok a, .ok b => .ok (a :: b)
      | .error e, _ => .error e
      | _, .error e => .error e
termination_by structural xs => xs
end

/-- Conversion `${x}` of a possibly-`undefined` value inside a template literal. -/
def templateString : Option JsVal → Except JsError String
  | none => .ok "undefined"
  | some v => jsToString v

/-- The method call `s.substring(0, n)`. -/
def substring0 (s : String) (n : Nat) : String :=
  String.mk (s.data.take n)

/-- The builtin `Array.prototype.map` with a callback that may raise. -/
def jsMap {α β : Type} (f : α → Except JsError β) : List α → Except JsError (List β)
  | [] => .ok []
  | x :: xs =>
      match f x with
      | .error e => .error e
      | .ok y =>
          match jsMap f xs with
          | .error e => .error e
          | .ok ys => .ok (y :: ys)

/-! ## `src/utils/aianalysis.js` -/

/-- The literal `{ primary: 'General', secondary: [], custom: [] }`. -/
def defaultThemes : JsVal :=
  .obj [("primary", .str "General"), ("secondary", emptyArray), ("custom", emptyArray)]

/-- The literal assigned to `parsed.opinion` at lines 152-157. -/
def defaultOpinion : JsVal :=
  .obj [("coreViewpoint", .str ""), ("supportingEvidence", emptyArray),
        ("criticalQuestion", .str ""), ("counterargument", .str "")]

/-- The default of `originalSentence`: `originalText.substring(0, 200) + '...'`. -/
def defaultSentence (originalText : String) : String :=
  substring0 originalText 200 ++ "..."

/-- The callback of `parsed.vocabulary.map` (lines 161-172); `none` is its `null`
result. -/
def repairItem (originalText : String) (v : JsVal) : Except JsError (Option JsVal) :=
  if !truthy v || !typeofObject v then .ok none
  else do
    let word ← getProp v "word"
    let meaning ← getProp v "meaning"
    let originalSentence ← getProp v "originalSentence"
    let collocation ← getProp v "collocation"
    let reason ← getProp v "reason"
    let usageScenario ← getProp v "usageScenario"
    let usage ←
      if truthyOpt usageScenario then pure (jsOr usageScenario (.str ""))
      else do
        let s ← templateString (jsOrOpt collocation word)
        pure (.str ("Example: " ++ s))
    pure (some (.obj [
      ("word", jsOr word (.str "")),
      ("meaning", jsOr meaning (.str "")),
      ("originalSentence", jsOr originalSentence (.str (defaultSentence originalText))),
      ("collocation", jsOr collocation (.str "")),
      ("reason", jsOr reason (.str "Important vocabulary")),
      ("usageScenario", usage)]))

/-- The callback of `.filter(v => v && v.word)` (line 172), applied to a result of
`repairItem`. -/
def keepItem : Option JsVal → Option JsVal
  | none => none
  | some v =>
      match getProp v "word" with
      | .ok w => if truthy v && truthyOpt w then some v else none
      | .error _ => none

/-- The expression `parsed.vocabulary.map(...).filter(...)` of lines 161-172:
calling `map` on anything but an array raises. -/
def mapVocabulary (originalText : String) : Option JsVal → Except JsError JsVal
  | some (.arr elems _) => do
      let mapped ← jsMap (repairItem originalText) elems
      pure (.arr (mapped.filterMap keepItem) [])
  | _ => .error .typeError

/-- The `else` branch of lines 133-136, on the object `parsed.themes`. -/
def validateThemesInPlace (themes : JsVal) : Except JsError JsVal := do
  let primary ← getProp themes "primary"
  let themes ← if !truthyOpt primary then setProp themes "primary" (.str "General")
               else pure themes
  let secondary ← getProp themes "secondary"
  let themes ← if !isArrayOpt secondary then setProp themes "secondary" emptyArray
               else pure themes
  let custom ← getProp themes "custom"
  if !isArrayOpt custom then setProp themes "custom" emptyArray else pure themes

/-- Lines 126-128: `if (!parsed.vocabulary || !Array.isArray(parsed.vocabulary))
parsed.vocabulary = []`. -/
def ensureVocabulary (parsed : JsVal) : Except JsError JsVal := do
  let vocabulary ← getProp parsed "vocabulary"
  if !truthyOpt vocabulary || !isArrayOpt vocabulary then
    setProp parsed "vocabulary" emptyArray
  else pure parsed

/-- Lines 130-137.  The in-place edit of the object `parsed.themes` is written back
under the same key, which keeps its position. -/
def ensureThemes (parsed : JsVal) : Except JsError JsVal := do
  let themes ← getProp parsed "themes"
  match themes with
  | none => setProp parsed "themes" defaultThemes
  | some t =>
      if !truthy t || !typeofObject t then setProp parsed "themes" defaultThemes
      else do
        let t ← validateThemesInPlace t
        setProp parsed "themes" t

/-- Lines 139-141. -/
def ensureTags (parsed : JsVal) : Except JsError JsVal := do
  let tags ← getProp parsed "tags"
  if !truthyOpt tags || !isArrayOpt tags then setProp parsed "tags" emptyArray
  else pure parsed

/-- Lines 143-145. -/
def ensureSummary (parsed : JsVal) : Except JsError JsVal := do
  let summary ← getProp parsed "summary"
  if !truthyOpt summary then setProp parsed "summary" (.str "文本摘要生成失败")
  else pure parsed

/-- Lines 147-149. -/
def ensureTranslation (parsed : JsVal) (originalText : String) : Except JsError JsVal := do
  let translation ← getProp parsed "translation"
  if !truthyOpt translation then setProp parsed "translation" (.str originalText)
  else pure parsed

/-- Lines 151-158. -/
def ensureOpinion (parsed : JsVal) : Except JsError JsVal := do
  let opinion ← getProp parsed "opinion"
  match opinion with
  | none => setProp parsed "opinion" defaultOpinion
  | some o =>
      if !truthy o || !typeofObject o then setProp parsed "opinion" defaultOpinion
      else pure parsed

/-- Lines 161-172: `parsed.vocabulary = parsed.vocabulary.map(...).filter(...)`. -/
def repairVocabulary (parsed : JsVal) (originalText : String) : Except JsError JsVal := do
  let vocabulary ← getProp parsed "vocabulary"
  let repaired ← mapVocabulary originalText vocabulary
  setProp parsed "vocabulary" repaired

/-- The function `validateAnalysisResult(parsed, originalText)` (lines 124-175).  The
JavaScript mutates `parsed` statement by statement and returns it; here each
statement yields the updated value. -/
def validateAnalysisResult (parsed : JsVal) (originalText : String) :
    Except JsError JsVal := do
  let parsed ← ensureVocabulary parsed
  let parsed ← ensureThemes parsed
  let parsed ← ensureTags parsed
  let parsed ← ensureSummary parsed
  let parsed ← ensureTranslation parsed originalText
  let parsed ← ensureOpinion parsed
  let parsed ← repairVocabulary parsed originalText
  pure parsed

/-! ## `src/controllers/corpusController.js` -/


/-- The helper `formatThemes(themes)` (lines 8-32); `none` is an absent `themes`. -/
def formatThemes (themes : Option JsVal) : JsVal :=
  match themes with
  | none => defaultThemes
  | some t =>
      if !truthy t then defaultThemes
      else
        match t with
        | .arr elems _ =>
            .obj [("primary", jsOr elems.head? (.str "General")),
                  ("secondary", jsOr (some (.arr (elems.drop 1) [])) emptyArray),
                  ("custom", emptyArray)]
        | .obj ps =>
            .obj [("primary", jsOr (lookupProp ps "primary") (.str "General")),
                  ("secondary",
                    match lookupProp ps "secondary" with
                    | some (.arr es sp) => .arr es sp
                    | _ => emptyArray),
                  ("custom",
                    match lookupProp ps "custom" with
                    | some (.arr es cp) => .arr es cp
                    | _ => emptyArray)]
        | _ => defaultThemes

/-- The white space and line terminator characters removed by
`String.prototype.trim`. -/
def jsIsWhitespace (c : Char) : Bool :=
  let n := c.toNat
  n = 0x9 || n = 0xA || n = 0xB || n = 0xC || n = 0xD || n = 0x20 || n = 0xA0 ||
  n = 0x1680 || (0x2000 ≤ n && n ≤ 0x200A) || n = 0x2028 || n = 0x2029 || n = 0x202F ||
  n = 0x205F || n = 0x3000 || n = 0xFEFF

/-- The method `String.prototype.trim`. -/
def jsTrim (s : String) : String :=
  String.mk ((s.data.dropWhile jsIsWhitespace).reverse.dropWhile jsIsWhitespace).reverse

/-- Optional chaining `o?.k`. -/
def optChain (o : Option JsVal) (k : String) : Option JsVal :=
  match o with
  | none => none
  | some .null => none
  | some v => field v k

/-- The expression `Array.isArray(x) ? x : []`. -/
def arrayOrEmpty : Option JsVal → JsVal
  | some (.arr es ps) => .arr es ps
  | _ => emptyArray

/-- The object `corpusData` built at lines 70-84. -/
structure CorpusData where
  userId : Nat
  title : JsVal
  content : JsVal
  translation : JsVal
  summary : JsVal
  themes : JsVal
  tags : JsVal
  vocabulary : JsVal
  filename : JsVal
  fileType : JsVal
  fileSize : JsVal

/-- The object `opinionData` built at lines 95-106. -/
structure OpinionData where
  userId : Nat
  sourceId : Nat
  content : Option JsVal
  theme : JsVal
  subThemes : JsVal
  tags : JsVal
  supportingFacts : JsVal
  criticalQuestion : JsVal
  counterargument : JsVal
  personalReflection : JsVal

/-- A corpus document: the data handed to `new Corpus(...)` under its generated
`_id`.  The casting and defaults applied by the schema to a new document are left to
the storage layer; the casts of the assignments of `update` are `updateCorpusData`. -/
structure CorpusDoc where
  _id : Nat
  data : CorpusData

/-- An opinion document: the data handed to `new Opinion(...)` under its generated
`_id`. -/
structure OpinionDoc where
  _id : Nat
  data : OpinionData

/-- The two collections. -/
structure Store where
  corpora : List CorpusDoc
  opinions : List OpinionDoc

/-- A call of `save` on a new document. -/
inductive Write where
  | corpus (doc : CorpusDoc)
  | opinion (doc : OpinionDoc)

/-- What the storage layer does during one `create`: the identifiers it generates,
and for each of `newCorpus.save`, `newOpinion.save` and `commitTransaction` the
message of the error it rejects with (`none` when it fulfils). -/
structure StorageEnv where
  corpusId : Nat
  opinionId : Nat
  corpusSave : Option String
  opinionSave : Option String
  commit : Option String

/-- The JSON body of a response. -/
inductive Body where
  | error (message : String)
  | corpus (doc : CorpusDoc)

/-- The observable outcome of a controller call: the response, the store after the
call, and the `save` calls made, in order. -/
structure Outcome where
  status : Nat
  body : Body
  store : Store
  writes : List Write

/-- The `catch` block of `create` (lines 128-131): the transaction is aborted, so the
store is the one before the call. -/
def createFailed (store : Store) (writes : List Write) (message : String) : Outcome :=
  { status := 500, body := .error ("保存失败: " ++ message), store := store, writes := writes }

/-- The value `textContent` of line 63: `content || rawText || ''`. -/
def textContent (body : Props) : JsVal :=
  jsOr (jsOrOpt (lookupProp body "content") (lookupProp body "rawText")) (.str "")

/-- The object `corpusData` of lines 70-84. -/
def buildCorpusData (userId : Nat) (body : Props) : CorpusData :=
  let fileInfo := lookupProp body "fileInfo"
  { userId := userId
    title := jsOr (jsOrOpt (lookupProp body "title") (optChain fileInfo "name"))
      (.str "无标题文档")
    content := textContent body
    translation := jsOr (lookupProp body "translation") (.str "")
    summary := jsOr (lookupProp body "summary") (.str "")
    themes := formatThemes (lookupProp body "themes")
    tags := arrayOrEmpty (lookupProp body "tags")
    vocabulary := arrayOrEmpty (lookupProp body "vocabulary")
    filename := jsOr (optChain fileInfo "name") (.str "unknown")
    fileType := jsOr (optChain fileInfo "type") (.str "text")
    fileSize := jsOr (optChain fileInfo "size") (.num 0) }

/-- The value `opinion.coreViewpoint || opinion.core_viewpoint` of lines 90 and 92. -/
def coreContent (opinion : JsVal) : Option JsVal :=
  jsOrOpt (field opinion "coreViewpoint") (field opinion "core_viewpoint")

/-- The object `opinionData` of lines 95-106. -/
def buildOpinionData (userId sourceId : Nat) (corpusData : CorpusData) (body : Props)
    (opinion : JsVal) : OpinionData :=
  { userId := userId
    sourceId := sourceId
    content := coreContent opinion
    theme := jsOr (field corpusData.themes "primary") (.str "General")
    subThemes := jsOr (field corpusData.themes "secondary") emptyArray
    tags := jsOr (some corpusData.tags) emptyArray
    supportingFacts := jsOr (jsOrOpt (field opinion "supportingEvidence")
      (field opinion "supporting_evidence")) emptyArray
    criticalQuestion := jsOr (jsOrOpt (field opinion "criticalQuestion")
      (field opinion "critical_question")) (.str "")
    counterargument := jsOr (field opinion "counterargument") (.str "")
    personalReflection := jsOr (lookupProp body "personalReflection") (.str "") }

/-- The handler `exports.create` (lines 38-135).  `user` is `req.user._id`, `none`
when `req.user` or its `_id` is missing; `body` is the object `req.body`.  Calling
`trim` on a `textContent` that is not a string raises inside the `try`.  A rejected
`newOpinion.save` is swallowed by the inner `catch` (lines 110-113).  Writes made
in the transaction reach the store when `commitTransaction` fulfils; an aborted
transaction leaves the store as it was. -/
def create (env : StorageEnv) (store : Store) (user : Option Nat) (body : Props) :
    Outcome :=
  match user with
  | none => createFailed store [] "User not authenticated"
  | some userId =>
      match textContent body with
      | .str s =>
          if jsTrim s = "" then
            { status := 400, body := .error "文本内容不能为空", store := store, writes := [] }
          else
            let corpusData := buildCorpusData userId body
            let newCorpus : CorpusDoc := { _id := env.corpusId, data := corpusData }
            match env.corpusSave with
            | some message => createFailed store [.corpus newCorpus] message
            | none =>
                let newOpinion : Option OpinionDoc :=
                  match lookupProp body "opinion" with
                  | none => none
                  | some opinion =>
                      if truthy opinion && truthyOpt (coreContent opinion) then
                        some { _id := env.opinionId
                               data := buildOpinionData userId newCorpus._id corpusData body
                                 opinion }
                      else none
                let writes : List Write :=
                  match newOpinion with
                  | none => [.corpus newCorpus]
                  | some o => [.corpus newCorpus, .opinion o]
                let savedOpinions : List OpinionDoc :=
                  match newOpinion, env.opinionSave with
                  | some o, none => [o]
                  | _, _ => []
                match env.commit with
                | some message => createFailed store writes message
                | none =>
                    { status := 201, body := .corpus newCorpus,
                      store := { corpora := store.corpora ++ [newCorpus],
                                 opinions := store.opinions ++ savedOpinions },
                      writes := writes }
      | _ => createFailed store [] "textContent.trim is not a function"

/-- The text of a create request as the claim words it: `content`, or `rawText` when
`content` is absent. -/
def claimedText (body : Props) : Option JsVal :=
  match lookupProp body "content" with
  | some c => some c
  | none => lookupProp body "rawText"

/-- The request body of the concrete scenario: a content and an opinion carrying a
core viewpoint. -/
def gigBody : Props :=
  [("content", .str "The gig economy has grown."),
   ("opinion", .obj [("coreViewpoint", .str "Flexibility trades off against stability.")])]

/-- A storage layer that accepts every write and the commit. -/
def acceptingEnv : StorageEnv :=
  { corpusId := 101, opinionId := 202, corpusSave := none, opinionSave := none,
    commit := none }

/-- The store with no corpus and no opinion. -/
def emptyStore : Store := { corpora := [], opinions := [] }

/-! ## Pure forms used to state and prove the results -/


/-- The named properties of an object or array; `none` for `null` and primitives. -/
def heapProps : JsVal → Option Props
  | .obj ps => some ps
  | .arr _ ps => some ps
  | _ => none

/-- The same object or array with its named properties replaced. -/
def withProps : JsVal → Props → JsVal
  | .obj _, ps => .obj ps
  | .arr es _, ps => .arr es ps
  | v, _ => v

/-- Effect of `validateThemesInPlace` on the properties of `parsed.themes`. -/
def fixThemesProps (ps : Props) : Props :=
  let ps1 := if truthyOpt (lookupProp ps "primary") then ps
             else assignProp ps "primary" (.str "General")
  let ps2 := if isArrayOpt (lookupProp ps1 "secondary") then ps1
             else assignProp ps1 "secondary" emptyArray
  if isArrayOpt (lookupProp ps2 "custom") then ps2 else assignProp ps2 "custom" emptyArray

/-- Effect of `ensureVocabulary` on the properties of `parsed`. -/
def vocabularyProps (ps : Props) : Props :=
  if isArrayOpt (lookupProp ps "vocabulary") then ps
  else assignProp ps "vocabulary" emptyArray

/-- Effect of `ensureThemes` on the properties of `parsed`. -/
def themesProps (ps : Props) : Props :=
  match lookupProp ps "themes" with
  | some (.obj tp) => assignProp ps "themes" (.obj (fixThemesProps tp))
  | some (.arr es tp) => assignProp ps "themes" (.arr es (fixThemesProps tp))
  | _ => assignProp ps "themes" defaultThemes

/-- Effect of `ensureTags` on the properties of `parsed`. -/
def tagsProps (ps : Props) : Props :=
  if isArrayOpt (lookupProp ps "tags") then ps else assignProp ps "tags" emptyArray

/-- Effect of `ensureSummary` on the properties of `parsed`. -/
def summaryProps (ps : Props) : Props :=
  if truthyOpt (lookupProp ps "summary") then ps
  else assignProp ps "summary" (.str "文本摘要生成失败")

/-- Effect of `ensureTranslation` on the properties of `parsed`. -/
def translationProps (ps : Props) (originalText : String) : Props :=
  if truthyOpt (lookupProp ps "translation") then ps
  else assignProp ps "translation" (.str originalText)

/-- Effect of `ensureOpinion` on the properties of `parsed`. -/
def opinionProps (ps : Props) : Props :=
  match lookupProp ps "opinion" with
  | some (.obj _) => ps
  | some (.arr _ _) => ps
  | _ => assignProp ps "opinion" defaultOpinion

/-- Effect of lines 126-158 on the properties of `parsed`. -/
def normalizeProps (ps : Props) (originalText : String) : Props :=
  opinionProps (translationProps (summaryProps (tagsProps (themesProps
    (vocabularyProps ps)))) originalText)

/-- Whether `${x}` evaluates without raising. -/
def renders (x : Option JsVal) : Bool :=
  match templateString x with
  | .ok _ => true
  | .error _ => false

/-- The text of `${x}` (the empty string where the conversion raises). -/
def renderText (x : Option JsVal) : String :=
  match templateString x with
  | .ok s => s
  | .error _ => ""

/-- Whether the `map` callback returns on the entry `v`: the only expression of the
callback that can raise is the template literal of the `usageScenario` default, which
is evaluated when `v` is an object or array without a truthy `usageScenario`. -/
def itemRenders (v : JsVal) : Bool :=
  match heapProps v with
  | none => true
  | some ps =>
      truthyOpt (lookupProp ps "usageScenario") ||
        renders (jsOrOpt (lookupProp ps "collocation") (lookupProp ps "word"))

/-- Whether every entry of the input `vocabulary` array (if it is one) lets the
`map` callback return. -/
def vocabularyRenders (parsed : JsVal) : Bool :=
  match field parsed "vocabulary" with
  | some (.arr elems _) => elems.all itemRenders
  | _ => true

/-- An entry kept by lines 161-172: an object (or array) with a truthy `word`. -/
def keptEntry (v : JsVal) : Bool :=
  truthy v && typeofObject v && truthyOpt (field v "word")

/-- The repaired form of a kept entry: each field is the entry's value when that
value is truthy, and the default otherwise (absent, `null`, `''`, `0`, `false`). -/
def repairedEntry (originalText : String) (v : JsVal) : JsVal :=
  .obj [
    ("word", jsOr (field v "word") (.str "")),
    ("meaning", jsOr (field v "meaning") (.str "")),
    ("originalSentence", jsOr (field v "originalSentence") (.str (defaultSentence originalText))),
    ("collocation", jsOr (field v "collocation") (.str "")),
    ("reason", jsOr (field v "reason") (.str "Important vocabulary")),
    ("usageScenario", jsOr (field v "usageScenario")
      (.str ("Example: " ++ renderText (jsOrOpt (field v "collocation") (field v "word")))))]

/-- The vocabulary list computed by lines 161-172 from the input field `vocabulary`:
the kept entries, repaired, in input order; empty when the field is not an array. -/
def repairedVocabulary (originalText : String) : Option JsVal → List JsVal
  | some (.arr elems _) => (elems.filter keptEntry).map (repairedEntry originalText)
  | _ => []

/-- The value of `themes.k` in the input properties: `undefined` when `themes` is
absent or is not an object. -/
def inputThemesField (ps : Props) (k : String) : Option JsVal :=
  (lookupProp ps "themes").bind fun th => field th k

/-- The `themes` of the result as lines 130-137 compute it from the input field: an
object or array has its three fields repaired in place, anything else is replaced by
the default. -/
def resultThemes : Option JsVal → JsVal
  | some (.obj tp) => .obj (fixThemesProps tp)
  | some (.arr es tp) => .arr es (fixThemesProps tp)
  | _ => defaultThemes

/-- The `opinion` of the result as lines 151-158 compute it from the input field: an
object or array is kept as it is, anything else is replaced by the default. -/
def resultOpinion : Option JsVal → JsVal
  | some (.obj op) => .obj op
  | some (.arr es op) => .arr es op
  | _ => defaultOpinion

/-- A field repaired as the claim words it: a present value is kept, an absent one
is replaced by the default. -/
def presentOr (a : Option JsVal) (d : JsVal) : JsVal :=
  match a with
  | some v => v
  | none => d

/-- The repaired entry as the claim words it ("a present value is kept,
otherwise ..."). -/
def claimedEntry (originalText : String) (v : JsVal) : JsVal :=
  .obj [
    ("word", presentOr (field v "word") (.str "")),
    ("meaning", presentOr (field v "meaning") (.str "")),
    ("originalSentence",
      presentOr (field v "originalSentence") (.str (defaultSentence originalText))),
    ("collocation", presentOr (field v "collocation") (.str "")),
    ("reason", presentOr (field v "reason") (.str "Important vocabulary")),
    ("usageScenario", presentOr (field v "usageScenario")
      (.str ("Example: " ++ renderText (jsOrOpt (field v "collocation") (field v "word")))))]

/-- The vocabulary as the claim words it: the entries with a non-empty `word`, in
input order, each repaired by `claimedEntry`. -/
def claimedVocabulary (originalText : String) (elems : List JsVal) : List JsVal :=
  (elems.filter keptEntry).map (claimedEntry originalText)

/-! ## Query parameters and paging (`corpusController.js` lines 147-149,
`opinionController.js` lines 14-16) -/

/-- The value of a character as a digit of the given radix. -/
def digitValue (radix : Nat) (c : Char) : Option Nat :=
  let n := c.toNat
  let v :=
    if 48 ≤ n ∧ n ≤ 57 then some (n - 48)
    else if 97 ≤ n ∧ n ≤ 122 then some (n - 97 + 10)
    else if 65 ≤ n ∧ n ≤ 90 then some (n - 65 + 10)
    else none
  match v with
  | some d => if d < radix then some d else none
  | none => none

/-- The longest prefix of digits of the given radix, read as a number; `none` when
the prefix is empty. -/
def readDigits (radix : Nat) : List Char → Option Nat → Option Nat
  | [], acc => acc
  | c :: cs, acc =>
      match digitValue radix c with
      | some d => readDigits radix cs (some (acc.getD 0 * radix + d))
      | none => acc

/-- The digits of `parseInt` after the sign: a `0x` or `0X` prefix selects radix 16,
otherwise the radix is 10. -/
def readUnsigned : List Char → Option Nat
  | '0' :: 'x' :: cs => readDigits 16 cs none
  | '0' :: 'X' :: cs => readDigits 16 cs none
  | cs => readDigits 10 cs none

/-- A JavaScript number other than `NaN` whose value is an integer or an infinity;
every number computed by the list handlers is one.  A numeral denotes the integer. -/
inductive Num where
  | negInf
  | int (n : Int)
  | posInf
deriving DecidableEq

instance (n : Nat) : OfNat Num n := ⟨.int n⟩

/-- The multiple of `2 ^ e` nearest to `n`, a tie going to the even multiple. -/
def roundTo (e n : Nat) : Nat :=
  if 2 ^ (e - 1) < n % 2 ^ e ∨ (2 ^ (e - 1) = n % 2 ^ e ∧ n / 2 ^ e % 2 = 1) then
    (n / 2 ^ e + 1) * 2 ^ e
  else n / 2 ^ e * 2 ^ e

/-- The number value of a natural number: the nearest double, a tie going to the
even significand; `none` is `Infinity`.  The numbers below `2 ^ 53` are doubles; from
`2 ^ 1024 - 2 ^ 970` on the nearest double is `Infinity`; in between the number is
rounded to 53 significant bits. -/
def roundNat (n : Nat) : Option Nat :=
  if n < 2 ^ 53 then some n
  else if 2 ^ 1024 - 2 ^ 970 ≤ n then none
  else some (roundTo (Nat.log2 n - 52) n)

/-- The number value of an integer. -/
def Num.ofInt : Int → Num
  | .ofNat n =>
      match roundNat n with
      | some m => .int m
      | none => .posInf
  | .negSucc n =>
      match roundNat (n + 1) with
      | some m => .int (- (m : Int))
      | none => .negInf

/-- The builtin `parseInt(s)` on a query parameter that is a string or absent;
`none` is `NaN`.  Leading white space is skipped, an optional sign is read, then the
longest prefix of digits, and the integer read is converted to a number; an absent
parameter is converted to the string `undefined`, which has no digit.  (For more
than 20 decimal digits the language lets an implementation read the digits after the
20th as zeros; the embedding reads them all.) -/
def parseInt (q : Option String) : Option Num :=
  match q with
  | none => none
  | some s =>
      match s.data.dropWhile jsIsWhitespace with
      | '-' :: cs => (readUnsigned cs).map fun n => Num.ofInt (- (n : Int))
      | '+' :: cs => (readUnsigned cs).map fun n => Num.ofInt (n : Int)
      | cs => (readUnsigned cs).map fun n => Num.ofInt (n : Int)

/-- The expression `n || d` on numbers: `NaN` and `0` are falsy. -/
def numOr (n : Option Num) (d : Int) : Num :=
  match n with
  | none => .int d
  | some (.int v) => if v = 0 then .int d else .int v
  | some v => v

/-- The function `Math.max(1, x)`. -/
def maxOne : Num → Num
  | .negInf => .int 1
  | .int n => .int (max 1 n)
  | .posInf => .posInf

/-- The function `Math.min(100, Math.max(1, x))`, whose value is an integer for
every `x`. -/
def clampLimit : Num → Int
  | .negInf => 1
  | .int n => min 100 (max 1 n)
  | .posInf => 100

/-- The constant `page`: `Math.max(1, parseInt(req.query.page) || 1)`. -/
def listPage (page : Option String) : Num :=
  maxOne (numOr (parseInt page) 1)

/-- The constant `limit`: `Math.min(100, Math.max(1, parseInt(req.query.limit) ||
20))`. -/
def listLimit (limit : Option String) : Int :=
  clampLimit (numOr (parseInt limit) 20)

/-- The difference `x - 1` of numbers. -/
def Num.pred : Num → Num
  | .negInf => .negInf
  | .int n => Num.ofInt (n - 1)
  | .posInf => .posInf

/-- The product `x * k` of a number and an integer; `none` is `NaN`, the product of
an infinity and zero. -/
def Num.mulInt : Num → Int → Option Num
  | .int n, k => some (Num.ofInt (n * k))
  | .posInf, k => if 0 < k then some .posInf else if k < 0 then some .negInf else none
  | .negInf, k => if 0 < k then some .negInf else if k < 0 then some .posInf else none

/-- The constant `skip`: `(page - 1) * limit`. -/
def listSkip (page limit : Option String) : Option Num :=
  (listPage page).pred.mulInt (listLimit limit)

/-- The call `.skip(skip)` on the entries found.  A skip that is an integer from 0
to `2 ^ 63 - 1` is taken as it is.  What the store does with any other number
(`Infinity`, for instance) is given by `bigSkip`: the message it rejects the query
with, or `none` when it accepts the number and skips every entry. -/
def storeSkip {α : Type} (bigSkip : Option String) (skip : Option Num) (l : List α) :
    Except String (List α) :=
  match skip with
  | some (.int k) =>
      if 0 ≤ k ∧ k < 2 ^ 63 then .ok (l.drop k.toNat)
      else
        match bigSkip with
        | some message => .error message
        | none => .ok []
  | _ =>
      match bigSkip with
      | some message => .error message
      | none => .ok []

/-! ## The stored documents (`src/routes/corpus.js`, `src/routes/opinion.js`) -/

/-- The method `String.prototype.split(/\s+/)` on the characters of a non-empty
string: `cur` is the token being read, `inRun` tells that the previous character
was white space.  A run of white space at the start or at the end of the string
delimits an empty token. -/
def splitWhitespace : List Char → List Char → Bool → List String
  | [], cur, _ => [String.mk cur]
  | c :: cs, cur, inRun =>
      if jsIsWhitespace c then
        if inRun then splitWhitespace cs cur true
        else String.mk cur :: splitWhitespace cs [] true
      else splitWhitespace cs (cur ++ [c]) false

/-- The value `this.content.split(/\s+/).length` of the `pre('save')` hook
(`src/routes/corpus.js` line 71). -/
def wordCount (content : String) : Nat :=
  (splitWhitespace content.data [] false).length

/-- A stored corpus entry: the document together with the fields the schema
manages (`archived`, `createdAt`, `updatedAt`, `metadata.wordCount`). -/
structure CorpusRecord where
  doc : CorpusDoc
  archived : Bool
  createdAt : Nat
  updatedAt : Nat
  wordCount : Option Nat

/-- A stored opinion entry with the fields the schema manages. -/
structure OpinionRecord where
  doc : OpinionDoc
  archived : Bool
  createdAt : Nat
  updatedAt : Nat

/-- The two collections with their schema-managed fields. -/
structure Database where
  corpora : List CorpusRecord
  opinions : List OpinionRecord

/-- The documents of a database, without the schema-managed fields. -/
def Database.store (db : Database) : Store :=
  { corpora := db.corpora.map fun r => r.doc
    opinions := db.opinions.map fun r => r.doc }

/-- The hook `corpusSchema.pre('save')` (`src/routes/corpus.js` lines 67-74):
`updatedAt` is refreshed, and `metadata.wordCount` is recomputed when `content` is
truthy.  The value of the path `content` is a string or `null`, the schema type being
`String`: an assignment puts the cast value there (see `castString`), so that an
assigned `5` is read here as the string `5`. -/
def corpusPreSave (now : Nat) (r : CorpusRecord) : CorpusRecord :=
  { r with
    updatedAt := now
    wordCount :=
      match r.doc.data.content with
      | .str s => if s = "" then r.wordCount else some (wordCount s)
      | _ => r.wordCount }

/-- The hook `opinionSchema.pre('save')` (`src/routes/opinion.js` lines 45-48). -/
def opinionPreSave (now : Nat) (r : OpinionRecord) : OpinionRecord :=
  { r with updatedAt := now }

/-! ## Responses of the read, update and delete handlers -/

/-- The fields kept by `.select('title content themes vocabulary tags createdAt
summary')`, with the `_id`. -/
structure CorpusSummary where
  _id : Nat
  title : JsVal
  content : JsVal
  themes : JsVal
  vocabulary : JsVal
  tags : JsVal
  createdAt : Nat
  summary : JsVal

/-- The object `pagination` of a list response (`res.json` writes an infinite `page`
as `null`). -/
structure Pagination where
  page : Num
  limit : Int
  total : Nat
  totalPages : Nat

/-- The `title` and `content` of the corpus entry referenced by `sourceId`, as
loaded by `.populate('sourceId', 'title content')`. -/
structure PopulatedSource where
  _id : Nat
  title : JsVal
  content : JsVal

/-- The JSON payload of a response.  The `source` of an opinion is the populated
`sourceId`: `none` when the handler does not populate it or no corpus entry has
that `_id`. -/
inductive Payload where
  | error (message : String)
  | message (text : String)
  | corpus (record : CorpusRecord)
  | opinion (record : OpinionRecord) (source : Option PopulatedSource)
  | corpusPage (list : List CorpusSummary) (pagination : Pagination)
  | opinionPage (list : List (OpinionRecord × Option PopulatedSource))
      (pagination : Pagination)

/-- A response: status code and payload (`res.json` answers 200). -/
structure Reply where
  status : Nat
  payload : Payload

/-- The response `res.status(401).json({ error: 'User not authenticated' })`. -/
def notAuthenticated : Reply :=
  { status := 401, payload := .error "User not authenticated" }

/-- The response to a `CastError`: `res.status(400).json({ error: '无效的ID格式' })`. -/
def invalidId : Reply :=
  { status := 400, payload := .error "无效的ID格式" }

/-! ## `src/controllers/corpusController.js`: `list`, `getOne`, `update`, `delete` -/

/-- The function `Math.ceil(total / limit)` for a positive `limit`. -/
def ceilDiv (total limit : Nat) : Nat :=
  (total + limit - 1) / limit

/-- The parameters `req.query` of a list request, each a string or absent. -/
structure ListQuery where
  page : Option String
  limit : Option String
  theme : Option String
  search : Option String

/-- Truthiness of a query parameter: present and not the empty string. -/
def queryGiven : Option String → Bool
  | some s => s != ""
  | none => false

/-- Equality of a stored value with a string of the query. -/
def jsEqString (v : Option JsVal) (s : String) : Bool :=
  match v with
  | some (.str t) => t == s
  | _ => false

/-- The operator `{ $regex: pattern, $options: 'i' }` on a stored value: only a
string can match. -/
def regexField (test : String → Bool) (v : JsVal) : Bool :=
  match v with
  | .str s => test s
  | _ => false

/-- The query `.sort({ createdAt: -1 })`: newest first, entries of equal
`createdAt` in stored order. -/
def sortNewestFirst (rs : List CorpusRecord) : List CorpusRecord :=
  rs.insertionSort fun a b => a.createdAt ≥ b.createdAt

/-- The projection of `.select(...)` on an entry. -/
def CorpusRecord.summary (r : CorpusRecord) : CorpusSummary :=
  { _id := r.doc._id
    title := r.doc.data.title
    content := r.doc.data.content
    themes := r.doc.data.themes
    vocabulary := r.doc.data.vocabulary
    tags := r.doc.data.tags
    createdAt := r.createdAt
    summary := r.doc.data.summary }

/-- The object `filter` built at lines 152-168 of `corpusController.js`, as a
predicate on entries; `test` is the compiled `$regex` of the search term, present
when a search term is given. -/
def corpusFilter (userId : Nat) (query : ListQuery) (test : Option (String → Bool))
    (r : CorpusRecord) : Bool :=
  r.doc.data.userId == userId && !r.archived &&
  (match query.theme with
   | some t => if t != "" then jsEqString (field r.doc.data.themes "primary") t else true
   | none => true) &&
  (match test with
   | some f => regexField f r.doc.data.title || regexField f r.doc.data.content
   | none => true)

/-- The search filter of lines 163-168: when `req.query.search` is given, its value
is handed as the pattern to `$regex`.  `regex` is the regular-expression engine of
the store with the option `i`: it compiles a pattern to a test on strings, or
rejects it with a message. -/
def compileSearch (regex : String → Except String (String → Bool))
    (query : ListQuery) : Except String (Option (String → Bool)) :=
  match query.search with
  | some s =>
      if s != "" then
        match regex s with
        | .ok test => .ok (some test)
        | .error message => .error message
      else .ok none
  | none => .ok none

/-- The handler `exports.list` of `corpusController.js` (lines 141-192).  A pattern
rejected by the engine, or a skip rejected by the store (see `storeSkip`), makes the
query raise.  A list request does not change the database. -/
def corpusController.list (regex : String → Except String (String → Bool))
    (bigSkip : Option String) (db : Database) (user : Option Nat) (query : ListQuery) :
    Reply :=
  match user with
  | none => notAuthenticated
  | some userId =>
      let page := listPage query.page
      let limit := listLimit query.limit
      let skip := listSkip query.page query.limit
      match compileSearch regex query with
      | .error message =>
          { status := 500, payload := .error ("获取列表失败: " ++ message) }
      | .ok test =>
          let found := (db.corpora.filter (corpusFilter userId query test))
          match storeSkip bigSkip skip (sortNewestFirst found) with
          | .error message =>
              { status := 500, payload := .error ("获取列表失败: " ++ message) }
          | .ok rest =>
              let list := rest.take limit.toNat
              let total := found.length
              { status := 200
                payload := .corpusPage (list.map CorpusRecord.summary)
                  { page := page, limit := limit, total := total
                    totalPages := ceilDiv total limit.toNat } }

/-- The query `Corpus.findOne({ _id: id, userId: userId })`. -/
def findCorpus (db : Database) (id userId : Nat) : Option CorpusRecord :=
  db.corpora.find? fun r => r.doc._id == id && r.doc.data.userId == userId

/-- The query `Opinion.findOne({ _id: id, userId: userId })`. -/
def findOpinion (db : Database) (id userId : Nat) : Option OpinionRecord :=
  db.opinions.find? fun r => r.doc._id == id && r.doc.data.userId == userId

/-- The call `.populate('sourceId', 'title content')` on an opinion. -/
def populateSource (db : Database) (r : OpinionRecord) : Option PopulatedSource :=
  (db.corpora.find? fun c => c.doc._id == r.doc.data.sourceId).map fun c =>
    { _id := c.doc._id, title := c.doc.data.title, content := c.doc.data.content }

/-- Replacement of the first element satisfying `p`, the write of a saved
document. -/
def replaceFirst {α : Type} (p : α → Bool) (new : α) : List α → List α
  | [] => []
  | x :: xs => if p x then new :: xs else x :: replaceFirst p new xs

/-- Removal of the first element satisfying `p`, the effect of `deleteOne`. -/
def removeFirst {α : Type} (p : α → Bool) : List α → List α
  | [] => []
  | x :: xs => if p x then xs else x :: removeFirst p xs

/-- The handler `exports.getOne` of `corpusController.js` (lines 198-223).  `id` is
`req.params.id`, `none` when it is not a well-formed identifier, which makes the
query raise a `CastError`. -/
def corpusController.getOne (db : Database) (user : Option Nat) (id : Option Nat) :
    Reply :=
  match user with
  | none => notAuthenticated
  | some userId =>
      match id with
      | none => invalidId
      | some id =>
          match findCorpus db id userId with
          | none => { status := 404, payload := .error "未找到该语料" }
          | some corpus => { status := 200, payload := .corpus corpus }

/-- The string a `String` path takes from a document handed to it: its `_id`, when
that is a non-empty string. -/
def documentId (ps : Props) : Option JsVal :=
  match lookupProp ps "_id" with
  | some (.str s) => if s = "" then none else some (.str s)
  | _ => none

/-- The cast of a value assigned to a schema path of type `String`: `null` stays
`null`, a string is kept, a number or a boolean is converted by its `toString`, an
object or an array is refused with a `CastError` (`none`) unless it has a string
`_id`. -/
def castString : JsVal → Option JsVal
  | .null => some .null
  | .bool b => some (.str (if b then "true" else "false"))
  | .num n => some (.str (toString n))
  | .str s => some (.str s)
  | .arr _ ps => documentId ps
  | .obj ps => documentId ps

/-- The cast of a path declared `{ type: String, trim: true }`: the setter trims the
string the cast gives. -/
def castTrimmed (v : JsVal) : Option JsVal :=
  match castString v with
  | some (.str s) => some (.str (jsTrim s))
  | other => other

/-- The casts of the elements of an array, refused when one of them is. -/
def castAll (cast : JsVal → Option JsVal) : List JsVal → Option (List JsVal)
  | [] => some []
  | x :: xs =>
      match cast x, castAll cast xs with
      | some y, some ys => some (y :: ys)
      | _, _ => none

/-- The cast of a value assigned to an array path whose elements are cast by `cast`:
`null` stays `null`, an array is cast element by element, any other value is cast as
the array holding it. -/
def castArray (cast : JsVal → Option JsVal) : JsVal → Option JsVal
  | .null => some .null
  | .arr es _ => (castAll cast es).map fun l => .arr l []
  | v => (castAll cast [v]).map fun l => .arr l []

/-- The cast of the object returned by `formatThemes`, assigned to the nested path
`themes` (`primary: String`, `secondary: [String]`, `custom: [String]`). -/
def castThemes (themes : JsVal) : Option JsVal :=
  match (field themes "primary").bind castString,
      (field themes "secondary").bind (castArray castString),
      (field themes "custom").bind (castArray castString) with
  | some primary, some secondary, some custom =>
      some (.obj [("primary", primary), ("secondary", secondary), ("custom", custom)])
  | _, _, _ => none

/-- The validator `required: true` of a `String` path: the value is a string that is
not empty. -/
def requiredString : JsVal → Bool
  | .str s => s != ""
  | _ => false

/-- What the schema library contributes to one `update`: `castItem` gives the
sub-document that the path `vocabulary: [vocabularySchema]` makes of an element of
the array assigned to it, `none` when the element is refused (it cannot be cast or
fails the validation of `vocabularySchema`); `invalid` is the message of the
`ValidationError` that `save()` rejects with when a path has been refused. -/
structure SchemaEnv where
  castItem : JsVal → Option JsVal
  invalid : String

/-- The assignment `if (value !== undefined) target = value` of a field read from
the body to a schema path: a present value, `null` included, is assigned through the
cast of the path; `none` when the cast refuses it. -/
def assignCast (cast : JsVal → Option JsVal) (value : Option JsVal) (target : JsVal) :
    Option JsVal :=
  match value with
  | some v => cast v
  | none => some target

/-- The assignments of lines 247-253 on the data of the entry found, each through
the cast of its path in `corpusSchema` (`src/routes/corpus.js` lines 22-46); `none`
when a cast refuses a value. -/
def updateCorpusData (castItem : JsVal → Option JsVal) (body : Props) (data : CorpusData) :
    Option CorpusData := do
  let title ← assignCast castTrimmed (lookupProp body "title") data.title
  let content ← assignCast castString (lookupProp body "content") data.content
  let translation ← assignCast castString (lookupProp body "translation") data.translation
  let summary ← assignCast castString (lookupProp body "summary") data.summary
  let vocabulary ←
    assignCast (castArray castItem) (lookupProp body "vocabulary") data.vocabulary
  let themes ←
    assignCast (fun t => castThemes (formatThemes (some t))) (lookupProp body "themes")
      data.themes
  let tags ← assignCast (castArray castTrimmed) (lookupProp body "tags") data.tags
  pure { data with
         title := title, content := content, translation := translation
         summary := summary, vocabulary := vocabulary, themes := themes, tags := tags }

/-- The handler `exports.update` of `corpusController.js` (lines 229-273).  `schema`
is what the schema library does (see `SchemaEnv`), `save` the message the write of
`corpus.save()` rejects with (`none` when it fulfils), `now` the value of
`Date.now()` in the save hook.  `save()` validates before it runs the hook and
writes: a refused cast, or a `title` or `content` that fails `required`, rejects it.
The response and the database after the call are returned. -/
def corpusController.update (schema : SchemaEnv) (save : Option String) (now : Nat)
    (db : Database) (user : Option Nat) (id : Option Nat) (body : Props) :
    Reply × Database :=
  match user with
  | none => (notAuthenticated, db)
  | some userId =>
      match id with
      | none => (invalidId, db)
      | some id =>
          match findCorpus db id userId with
          | none => ({ status := 404, payload := .error "未找到该语料" }, db)
          | some corpus =>
              match updateCorpusData schema.castItem body corpus.doc.data with
              | none =>
                  ({ status := 500, payload := .error ("更新失败: " ++ schema.invalid) }, db)
              | some data =>
                  if requiredString data.title && requiredString data.content then
                    match save with
                    | some message =>
                        ({ status := 500, payload := .error ("更新失败: " ++ message) }, db)
                    | none =>
                        let saved := corpusPreSave now
                          { corpus with doc := { corpus.doc with data := data } }
                        ({ status := 200, payload := .corpus saved },
                         { db with
                           corpora := replaceFirst
                             (fun r => r.doc._id == id && r.doc.data.userId == userId) saved
                             db.corpora })
                  else
                    ({ status := 500, payload := .error ("更新失败: " ++ schema.invalid) },
                     db)

/-- What the storage layer does during one corpus `delete`: for each of `deleteOne`,
`deleteMany` and `commitTransaction` the message it rejects with (`none` when it
fulfils). -/
structure DeleteEnv where
  deleteOne : Option String
  deleteMany : Option String
  commit : Option String

/-- The `catch` block of a `delete` handler for an error that is not a `CastError`
(`corpusController.js` line 322, `opinionController.js` line 172). -/
def deleteFailed (message : String) : Reply :=
  { status := 500, payload := .error ("删除失败: " ++ message) }

/-- The handler `exports.delete` of `corpusController.js` (lines 279-326).  The two
deletions run in one transaction: they reach the database when `commitTransaction`
fulfils, and an aborted transaction leaves the database as it was. -/
def corpusController.delete (env : DeleteEnv) (db : Database) (user : Option Nat)
    (id : Option Nat) : Reply × Database :=
  match user with
  | none => (notAuthenticated, db)
  | some userId =>
      match id with
      | none => (invalidId, db)
      | some id =>
          match env.deleteOne with
          | some message => (deleteFailed message, db)
          | none =>
              match findCorpus db id userId with
              | none => ({ status := 404, payload := .error "未找到该语料" }, db)
              | some _ =>
                  match env.deleteMany with
                  | some message => (deleteFailed message, db)
                  | none =>
                      match env.commit with
                      | some message => (deleteFailed message, db)
                      | none =>
                          ({ status := 200, payload := .message "删除成功" },
                           { corpora := removeFirst
                               (fun r => r.doc._id == id && r.doc.data.userId == userId)
                               db.corpora
                             opinions := db.opinions.filter
                               fun o => !(o.doc.data.sourceId == id) })

/-! ## `src/controllers/opinionController.js` -/

/-- The object `filter` built at lines 19-27 of `opinionController.js`. -/
def opinionFilter (userId : Nat) (query : ListQuery) (r : OpinionRecord) : Bool :=
  r.doc.data.userId == userId && !r.archived &&
  (match query.theme with
   | some t => if t != "" then jsEqString (some r.doc.data.theme) t else true
   | none => true)

/-- The query `.sort({ createdAt: -1 })` on opinions. -/
def sortOpinionsNewestFirst (rs : List OpinionRecord) : List OpinionRecord :=
  rs.insertionSort fun a b => a.createdAt ≥ b.createdAt

/-- The handler `exports.list` of `opinionController.js` (lines 8-49). -/
def opinionController.list (bigSkip : Option String) (db : Database) (user : Option Nat)
    (query : ListQuery) : Reply :=
  match user with
  | none => notAuthenticated
  | some userId =>
      let page := listPage query.page
      let limit := listLimit query.limit
      let skip := listSkip query.page query.limit
      let found := db.opinions.filter (opinionFilter userId query)
      match storeSkip bigSkip skip (sortOpinionsNewestFirst found) with
      | .error message =>
          { status := 500, payload := .error ("获取观点列表失败: " ++ message) }
      | .ok rest =>
          let list := rest.take limit.toNat
          let total := found.length
          { status := 200
            payload := .opinionPage (list.map fun r => (r, populateSource db r))
              { page := page, limit := limit, total := total
                totalPages := ceilDiv total limit.toNat } }

/-- The handler `exports.getOne` of `opinionController.js` (lines 57-82). -/
def opinionController.getOne (db : Database) (user : Option Nat) (id : Option Nat) :
    Reply :=
  match user with
  | none => notAuthenticated
  | some userId =>
      match id with
      | none => invalidId
      | some id =>
          match findOpinion db id userId with
          | none => { status := 404, payload := .error "未找到该观点" }
          | some opinion =>
              { status := 200, payload := .opinion opinion (populateSource db opinion) }

/-- The assignments of lines 114-121 of `opinionController.js` on the data of the
opinion found, each through the cast of its path in `opinionSchema`
(`src/routes/opinion.js` lines 16-29); `none` when a cast refuses a value. -/
def updateOpinionData (body : Props) (data : OpinionData) : Option OpinionData := do
  let content ←
    match lookupProp body "content" with
    | some v => (castString v).map some
    | none => some data.content
  let theme ← assignCast castString (lookupProp body "theme") data.theme
  let subThemes ←
    assignCast (castArray castString) (lookupProp body "subThemes") data.subThemes
  let tags ← assignCast (castArray castString) (lookupProp body "tags") data.tags
  let supportingFacts ←
    assignCast (castArray castString) (lookupProp body "supportingFacts")
      data.supportingFacts
  let criticalQuestion ←
    assignCast castString (lookupProp body "criticalQuestion") data.criticalQuestion
  let counterargument ←
    assignCast castString (lookupProp body "counterargument") data.counterargument
  let personalReflection ←
    assignCast castString (lookupProp body "personalReflection") data.personalReflection
  pure { data with
         content := content, theme := theme, subThemes := subThemes, tags := tags
         supportingFacts := supportingFacts, criticalQuestion := criticalQuestion
         counterargument := counterargument, personalReflection := personalReflection }

/-- The handler `exports.update` of `opinionController.js` (lines 88-137); `invalid`
is the message of the `ValidationError` that `save()` rejects with when a cast has
refused a value or `content` or `theme` fails `required`, `save` the message the
write rejects with. -/
def opinionController.update (invalid : String) (save : Option String) (now : Nat)
    (db : Database) (user : Option Nat) (id : Option Nat) (body : Props) :
    Reply × Database :=
  match user with
  | none => (notAuthenticated, db)
  | some userId =>
      match id with
      | none => (invalidId, db)
      | some id =>
          match findOpinion db id userId with
          | none => ({ status := 404, payload := .error "未找到该观点" }, db)
          | some opinion =>
              match updateOpinionData body opinion.doc.data with
              | none => ({ status := 500, payload := .error ("更新失败: " ++ invalid) }, db)
              | some data =>
                  if (match data.content with
                      | some c => requiredString c
                      | none => false) && requiredString data.theme then
                    match save with
                    | some message =>
                        ({ status := 500, payload := .error ("更新失败: " ++ message) }, db)
                    | none =>
                        let saved := opinionPreSave now
                          { opinion with doc := { opinion.doc with data := data } }
                        ({ status := 200, payload := .opinion saved none },
                         { db with
                           opinions := replaceFirst
                             (fun r => r.doc._id == id && r.doc.data.userId == userId) saved
                             db.opinions })
                  else ({ status := 500, payload := .error ("更新失败: " ++ invalid) }, db)

/-- The handler `exports.delete` of `opinionController.js` (lines 143-174);
`deleteOne` is the message the deletion rejects with (`none` when it fulfils). -/
def opinionController.delete (deleteOne : Option String) (db : Database)
    (user : Option Nat) (id : Option Nat) : Reply × Database :=
  match user with
  | none => (notAuthenticated, db)
  | some userId =>
      match id with
      | none => (invalidId, db)
      | some id =>
          match deleteOne with
          | some message => (deleteFailed message, db)
          | none =>
              match findOpinion db id userId with
              | none => ({ status := 404, payload := .error "未找到该观点" }, db)
              | some _ =>
                  ({ status := 200, payload := .message "删除成功" },
                   { db with
                     opinions := removeFirst
                       (fun r => r.doc._id == id && r.doc.data.userId == userId)
                       db.opinions })

/-! ## `src/middleware/auth.js` and the corpus routes of `src/server.js` -/

/-- The `name` of an error thrown by `jwt.verify`. -/
inductive TokenError where
  | jsonWebTokenError
  | tokenExpiredError
  | other

/-- What the token library and the user collection do during one request:
`verify token` is `jwt.verify(token, JWT_SECRET)`, the decoded payload or the error
thrown; `findUser id` is `User.findOne({ _id: id })`, the `_id` of the user
document found, `none` when the query gives `null`, or the message of a rejection. -/
structure AuthEnv where
  verify : String → Except TokenError JsVal
  findUser : JsVal → Except String (Option Nat)

/-- The call `s.replace(lit, '')` with a string pattern: the first occurrence of
`lit` is removed. -/
def replaceOnce (lit : List Char) : List Char → List Char
  | [] => []
  | c :: cs =>
      if lit.isPrefixOf (c :: cs) then (c :: cs).drop lit.length
      else c :: replaceOnce lit cs

/-- The token of line 21: `authHeader.replace('Bearer ', '')`. -/
def bearerToken (authHeader : String) : String :=
  String.mk (replaceOnce "Bearer ".data authHeader.data)

/-- The middleware `auth` (`src/middleware/auth.js` lines 12-57) on the value of the
`Authorization` header: the `_id` of the user document it attaches as `req.user`
before it calls `next()`, or the message of the 401 response it sends instead. -/
def auth (env : AuthEnv) (authorization : Option String) : Except String Nat :=
  match authorization with
  | none => .error "未提供认证令牌"
  | some authHeader =>
      if authHeader = "" then .error "未提供认证令牌"
      else
        match env.verify (bearerToken authHeader) with
        | .error .jsonWebTokenError => .error "Token无效，请重新登录"
        | .error .tokenExpiredError => .error "Token已过期，请重新登录"
        | .error .other => .error "认证失败，请重新登录"
        | .ok decoded =>
            match jsOrOpt (jsOrOpt (field decoded "_id") (field decoded "userId"))
                (field decoded "id") with
            | none => .error "认证失败，请重新登录"
            | some userId =>
                if truthy userId then
                  match env.findUser userId with
                  | .ok (some user) => .ok user
                  | _ => .error "认证失败，请重新登录"
                else .error "认证失败，请重新登录"

/-- A route `app.METHOD(path, auth, handler)` of `src/server.js`: the handler runs
when `auth` calls `next()`, with `req.user` the user document found; otherwise the
response is the 401 of `auth`, given by `rejected`. -/
def behindAuth {α : Type} (env : AuthEnv) (authorization : Option String)
    (rejected : String → α) (handler : Option Nat → α) : α :=
  match auth env authorization with
  | .error message => rejected message
  | .ok user => handler (some user)

/-- The route `app.post('/api/corpus', auth, corpusController.create)` (`src/server.js`
line 103). -/
def postCorpus (aenv : AuthEnv) (env : StorageEnv) (store : Store)
    (authorization : Option String) (body : Props) : Outcome :=
  behindAuth aenv authorization
    (fun message => { status := 401, body := .error message, store := store, writes := [] })
    (fun user => create env store user body)

/-- The route `app.get('/api/corpus', auth, corpusController.list)` (line 104). -/
def getCorpusList (aenv : AuthEnv) (regex : String → Except String (String → Bool))
    (bigSkip : Option String) (db : Database) (authorization : Option String)
    (query : ListQuery) : Reply :=
  behindAuth aenv authorization (fun message => { status := 401, payload := .error message })
    (fun user => corpusController.list regex bigSkip db user query)

/-- The route `app.get('/api/corpus/:id', auth, corpusController.getOne)` (line 106). -/
def getCorpus (aenv : AuthEnv) (db : Database) (authorization : Option String)
    (id : Option Nat) : Reply :=
  behindAuth aenv authorization (fun message => { status := 401, payload := .error message })
    (fun user => corpusController.getOne db user id)

/-- The route `app.put('/api/corpus/:id', auth, corpusController.update)` (line 107). -/
def putCorpus (aenv : AuthEnv) (schema : SchemaEnv) (save : Option String) (now : Nat)
    (db : Database) (authorization : Option String) (id : Option Nat) (body : Props) :
    Reply × Database :=
  behindAuth aenv authorization
    (fun message => ({ status := 401, payload := .error message }, db))
    (fun user => corpusController.update schema save now db user id body)

/-- The route `app.delete('/api/corpus/:id', auth, corpusController.delete)`
(line 108). -/
def deleteCorpus (aenv : AuthEnv) (env : DeleteEnv) (db : Database)
    (authorization : Option String) (id : Option Nat) : Reply × Database :=
  behindAuth aenv authorization
    (fun message => ({ status := 401, payload := .error message }, db))
    (fun user => corpusController.delete env db user id)

/-! ## Wordings of the results and concrete scenarios -/

/-- A storage layer that accepts the corpus and the commit and rejects the opinion
save. -/
def opinionRejectingEnv : StorageEnv :=
  { corpusId := 101, opinionId := 202, corpusSave := none,
    opinionSave := some "Opinion validation failed", commit := none }

/-- A storage layer that rejects the corpus save. -/
def corpusRejectingEnv : StorageEnv :=
  { corpusId := 101, opinionId := 202, corpusSave := some "Corpus validation failed",
    opinionSave := none, commit := none }

/-- The database with no entry. -/
def emptyDatabase : Database := { corpora := [], opinions := [] }

/-- The entries at positions `(page - 1) * limit` through `page * limit - 1` of a
list, as the paging is worded. -/
def pageSlice {α : Type} (sorted : List α) (page limit : Nat) : List α :=
  (List.range limit).filterMap fun i => sorted[(page - 1) * limit + i]?

/-- The number of non-empty tokens obtained by splitting on runs of white space, as
the word count is worded. -/
def nonEmptyTokens (content : String) : Nat :=
  ((splitWhitespace content.data [] false).filter fun t => t != "").length

/-- Whether `term` occurs in `text` as a literal substring, letter case ignored, as
the search is worded. -/
def containsIgnoreCase (term text : String) : Bool :=
  (text.data.map Char.toLower).tails.any fun suffix =>
    (term.data.map Char.toLower).isPrefixOf suffix

/-- Whether a pattern of literal characters and `.` matches at the start of a
text, letter case ignored; `.` stands for any character but a line feed. -/
def wildcardPrefix : List Char → List Char → Bool
  | [], _ => true
  | _ :: _, [] => false
  | p :: ps, c :: cs =>
      ((p == '.' && c != '\n') || p.toLower == c.toLower) && wildcardPrefix ps cs

/-- A regular-expression engine for the patterns made of literal characters and
`.`: such a pattern is searched anywhere in the text; a pattern holding another
operator character is rejected. -/
def wildcardRegex (pattern : String) : Except String (String → Bool) :=
  if pattern.data.any fun c => "\\^$*+?()[]{}|".data.contains c then
    .error "Regular expression is invalid"
  else .ok fun text => text.data.tails.any (wildcardPrefix pattern.data)

/-- One entry of owner 1 titled `Notes` whose content is `abc`. -/
def abcEntry : CorpusRecord :=
  { doc := { _id := 7
             data := { userId := 1, title := .str "Notes", content := .str "abc"
                       translation := .str "", summary := .str ""
                       themes := defaultThemes, tags := emptyArray
                       vocabulary := emptyArray, filename := .str "unknown"
                       fileType := .str "text", fileSize := .num 0 } }
    archived := false, createdAt := 10, updatedAt := 10, wordCount := some 1 }

/-- An entry of owner 1 created at time 20, newer than `abcEntry`. -/
def newerEntry : CorpusRecord :=
  { abcEntry with
    doc := { _id := 8, data := { abcEntry.doc.data with title := .str "Later" } }
    createdAt := 20, updatedAt := 20 }

/-- A field of an updated entry as the partial update is worded, the value read
through the cast of the schema path: the cast of the payload value when the field is
present there (`null` included), the old value when it is absent. -/
def AssignedThrough (cast : JsVal → Option JsVal) (present : Option JsVal)
    (old new : JsVal) : Prop :=
  (∀ v, present = some v → cast v = some new) ∧ (present = none → new = old)

/-- An opinion of owner 2 derived from `abcEntry`. -/
def abcOpinion : OpinionRecord :=
  { doc := { _id := 9
             data := { userId := 2, sourceId := 7, content := some (.str "A view")
                       theme := .str "General", subThemes := emptyArray
                       tags := emptyArray, supportingFacts := emptyArray
                       criticalQuestion := .str "", counterargument := .str ""
                       personalReflection := .str "" } }
    archived := false, createdAt := 11, updatedAt := 11 }

/-- The entry `abcEntry` under owner 2. -/
def otherOwnerEntry : CorpusRecord :=
  { abcEntry with
    doc := { abcEntry.doc with data := { abcEntry.doc.data with userId := 2 } } }

/-- A storage layer that accepts the deletions and the commit. -/
def acceptingDeleteEnv : DeleteEnv :=
  { deleteOne := none, deleteMany := none, commit := none }

/-! ## `src/utils/aianalysis.js`: `validateThemes` -/

/-- The constant `PREDEFINED_THEMES` (lines 15-31). -/
def PREDEFINED_THEMES : List String :=
  ["Art & Entertainment", "Globalisation", "Crime", "Transport", "Population",
   "Government", "Science", "Media Communication", "Work & Economy", "Culture",
   "Society", "Health", "Environment", "Technology", "Education"]

/-- The test `PREDEFINED_THEMES.includes(v)`: the members are strings and `includes`
compares without conversion, so only a string can be found. -/
def includesTheme : JsVal → Bool
  | .str s => PREDEFINED_THEMES.contains s
  | _ => false

/-- The function `validateThemes` (lines 288-302).  The method `filter` returns a new
array, which carries no named property. -/
def validateThemes (themes : Option JsVal) : JsVal :=
  match themes with
  | none => .obj [("primary", .str "General"), ("secondary", emptyArray), ("custom", emptyArray)]
  | some v =>
      if !truthy v || !typeofObject v then
        .obj [("primary", .str "General"), ("secondary", emptyArray), ("custom", emptyArray)]
      else
        .obj [
          ("primary",
            match field v "primary" with
            | some p => if truthy p && includesTheme p then p else .str "General"
            | none => .str "General"),
          ("secondary",
            match field v "secondary" with
            | some (.arr elems _) => .arr (elems.filter includesTheme) []
            | _ => emptyArray),
          ("custom", arrayOrEmpty (field v "custom"))]

/-! ## The invariant of the stored corpus entries -/

/-- The invariant of a stored corpus entry as the data model words it: `content` is a
string that is non-empty after trimming, `themes.primary` is non-empty, and
`vocabulary` is an array. -/
def corpusInvariant (d : CorpusData) : Bool :=
  (match d.content with
   | .str s => jsTrim s != ""
   | _ => false) &&
  truthyOpt (field d.themes "primary") && isArray d.vocabulary

/-- A second opinion derived from `abcEntry`, of owner 1. -/
def secondOpinion : OpinionRecord :=
  { abcOpinion with
    doc := { _id := 12, data := { abcOpinion.doc.data with userId := 1 } } }

/-- An opinion of owner 1 derived from the entry 8. -/
def unrelatedOpinion : OpinionRecord :=
  { abcOpinion with
    doc := { _id := 13, data := { abcOpinion.doc.data with userId := 1, sourceId := 8 } } }

/-- A storage layer that accepts `deleteOne` and rejects `deleteMany`. -/
def cascadeRejectingEnv : DeleteEnv :=
  { deleteOne := none, deleteMany := some "cascade failed", commit := none }

/-- The `primary` computed by `validateThemes` from the input field. -/
def validPrimary : Option JsVal → JsVal
  | some p => if truthy p && includesTheme p then p else .str "General"
  | none => .str "General"

/-- The elements of the `secondary` computed by `validateThemes` from the input
field. -/
def validSecondary : Option JsVal → List JsVal
  | some (.arr elems _) => elems.filter includesTheme
  | _ => []

/-! ## `src/utils/aianalysis.js`: `analyzeTextWithAI` -/

/-- The constant `MAX_RETRIES` (line 10). -/
def MAX_RETRIES : Nat := 2

/-- The constant `TIMEOUT` (line 9), in milliseconds. -/
def TIMEOUT : Nat := 300000

/-- The call `s.replace(/lit\s*/g, '')` on the characters of `s`, for a literal `lit`
that does not begin with white space: every occurrence of `lit`, found from left to
right, is dropped together with the run of white space that follows it.  `skip` is
the number of characters of the current occurrence still to drop, and `afterMatch`
tells that the characters read so far end with an occurrence and white space. -/
def removeAll (lit : List Char) : List Char → Nat → Bool → List Char
  | [], _, _ => []
  | _ :: cs, skip + 1, _ => removeAll lit cs skip true
  | c :: cs, 0, afterMatch =>
      if lit.isPrefixOf (c :: cs) then removeAll lit cs (lit.length - 1) true
      else if afterMatch && jsIsWhitespace c then removeAll lit cs 0 true
      else c :: removeAll lit cs 0 false

/-- The value `cleanedContent` of line 226:
``content.replace(/```json\s*/g, '').replace(/```\s*/g, '').trim()``. -/
def cleanContent (content : String) : String :=
  jsTrim (String.mk
    (removeAll "```".data (removeAll "```json".data content.data 0 false) 0 false))

/-- The fields of a caught error that the `catch` block of lines 249-277 reads:
`error.code`, `error.response?.status`, `error.response?.data?.error?.message` and
`error.message`; `none` is a field that is not there. -/
structure ServiceError where
  code : Option String
  status : Option Nat
  providerMessage : Option String
  message : String

/-- An error made by `new Error(message)`: it has no `code` and no `response`. -/
def plainError (message : String) : ServiceError :=
  { code := none, status := none, providerMessage := none, message := message }

/-- What one call of `axios.post` ends with: the request is fulfilled and
`response.data.choices?.[0]?.message?.content` is the given string (`none` when it is
`undefined` or `null`), or the request is rejected with an error. -/
inductive ProviderAnswer where
  | content (text : Option String)
  | rejected (error : ServiceError)

/-- The outcome of a call of `analyzeTextWithAI`: the value returned or the message of
the error thrown, and the number of requests issued. -/
structure Analysis where
  result : Except String JsVal
  requests : Nat

/-- One request was issued and the call throws `new Error(message)`. -/
def failsWith (message : String) : Analysis :=
  { result := .error message, requests := 1 }

/-- The outcome of a call that issued one request and then returned the outcome of
the recursive call. -/
def afterRequest (a : Analysis) : Analysis :=
  { a with requests := a.requests + 1 }

/-- The message of line 276:
`error.response?.data?.error?.message || error.message || 'AI分析失败'`. -/
def errorMessage (e : ServiceError) : String :=
  match e.providerMessage with
  | some m =>
      if m != "" then m else if e.message != "" then e.message else "AI分析失败"
  | none => if e.message != "" then e.message else "AI分析失败"

/-- The `catch` block of lines 249-277 on the error `e`; `retry` is the recursive call
`analyzeTextWithAI(text, retryCount + 1)` of line 273. -/
def catchBlock (retryCount : Nat) (e : ServiceError)
    (retry : retryCount < MAX_RETRIES → Analysis) : Analysis :=
  if e.code = some "ECONNABORTED" then
    failsWith ("AI分析超时（超过" ++ toString (TIMEOUT / 1000) ++ "秒），请尝试减少内容后重试")
  else if e.status = some 401 then failsWith "AI API认证失败，请检查API密钥配置"
  else if e.status = some 429 then failsWith "AI API请求频率过高，请稍后重试"
  else if e.status = some 500 ∨ e.status = some 503 then
    failsWith "AI服务暂时不可用，请稍后重试"
  else if h : retryCount < MAX_RETRIES ∧
      (e.code = some "ECONNRESET" ∨ e.code = some "ETIMEDOUT") then
    afterRequest (retry h.1)
  else failsWith (errorMessage e)

/-- The inner `try` of lines 224-234: the cleaned content is parsed and the value is
validated; `none` when `JSON.parse` or `validateAnalysisResult` raises.  `parse` is
the builtin `JSON.parse`, `none` where it raises a `SyntaxError`. -/
def parseAndValidate (parse : String → Option JsVal) (text content : String) :
    Option JsVal :=
  match parse (cleanContent content) with
  | none => none
  | some parsed =>
      match validateAnalysisResult parsed text with
      | .ok validated => some validated
      | .error _ => none

/-- The function `analyzeTextWithAI` (lines 183-278).  `apiKey` tells whether
`API_KEY` is set, `provider k` is what the request issued with `retryCount = k` ends
with, `text` is a string.  An error thrown inside the outer `try` (lines 219 and 246)
is handled by the `catch` block like a rejected request; the outcome of a recursive
call is returned as it is. -/
def analyzeTextWithAI (apiKey : Bool) (parse : String → Option JsVal)
    (provider : Nat → ProviderAnswer) (text : String) (retryCount : Nat) : Analysis :=
  if jsTrim text = "" then
    { result := .error "Invalid input: text cannot be empty", requests := 0 }
  else if !apiKey then
    { result := .error "AI_API_KEY is not configured in environment variables",
      requests := 0 }
  else
    match provider retryCount with
    | .rejected e =>
        catchBlock retryCount e fun _ =>
          analyzeTextWithAI apiKey parse provider text (retryCount + 1)
    | .content none =>
        catchBlock retryCount (plainError "AI response is empty") fun _ =>
          analyzeTextWithAI apiKey parse provider text (retryCount + 1)
    | .content (some content) =>
        if content = "" then
          catchBlock retryCount (plainError "AI response is empty") fun _ =>
            analyzeTextWithAI apiKey parse provider text (retryCount + 1)
        else
          match parseAndValidate parse text content with
          | some validated => { result := .ok validated, requests := 1 }
          | none =>
              if _h : retryCount < MAX_RETRIES then
                afterRequest (analyzeTextWithAI apiKey parse provider text (retryCount + 1))
              else
                catchBlock retryCount (plainError "AI返回格式异常，请重试") fun _ =>
                  analyzeTextWithAI apiKey parse provider text (retryCount + 1)
termination_by MAX_RETRIES - retryCount

/-- Whether a text contains three consecutive backticks. -/
def containsFence : List Char → Bool
  | [] => false
  | c :: cs => "```".data.isPrefixOf (c :: cs) || containsFence cs

/-- A provider whose every answer is the text `not json`. -/
def garbledProvider : Nat → ProviderAnswer :=
  fun _ => .content (some "not json")

/-- A stand-in for `JSON.parse` that accepts the text of the empty object only. -/
def emptyObjectParse (s : String) : Option JsVal :=
  if s = "\x7b\x7d" then some (.obj []) else none

/-- A provider that answers 401 to every request. -/
def unauthorizedProvider : Nat → ProviderAnswer :=
  fun _ => .rejected { code := some "ERR_BAD_REQUEST", status := some 401,
                       providerMessage := some "Incorrect API key", message := "Request failed" }

/-- A provider whose connection is reset on the first request and that answers the empty
object in a fence afterwards. -/
def flakyProvider : Nat → ProviderAnswer
  | 0 => .rejected { code := some "ECONNRESET", status := none, providerMessage := none,
                     message := "socket hang up" }
  | _ => .content (some "```json\n\x7b\x7d\n```")

/-! ## `src/controllers/corpusController.js`: `getStats` -/

/-- One document produced by the `$group` stage: `_id` (the value of `themes.primary`
shared by the group, `none` when it is `null` or missing), `count` and `totalVocab`.
The schema type of `themes.primary` is `String`. -/
structure ThemeRow where
  _id : Option String
  count : Nat
  totalVocab : Nat

/-- The value of `'$themes.primary'` on a stored entry. -/
def themeKey (r : CorpusRecord) : Option String :=
  match field r.doc.data.themes "primary" with
  | some (.str s) => some s
  | _ => none

/-- The value of `{ $size: '$vocabulary' }` on a stored entry; the operator rejects a
value that is not an array (`none`), which makes the whole pipeline fail. -/
def vocabularySize (r : CorpusRecord) : Option Nat :=
  match r.doc.data.vocabulary with
  | .arr elems _ => some elems.length
  | _ => none

/-- The entries selected by `{ userId: userId, archived: false }`. -/
def ownedActive (db : Database) (userId : Nat) : List CorpusRecord :=
  db.corpora.filter fun r => r.doc.data.userId == userId && !r.archived

/-- The accumulators `count: { $sum: 1 }` and `totalVocab: { $sum: size }` of the
`$group` stage, updated with one entry of key `key`. -/
def accumulate (key : Option String) (size : Nat) : List ThemeRow → List ThemeRow
  | [] => [{ _id := key, count := 1, totalVocab := size }]
  | row :: rows =>
      if row._id = key then
        { row with count := row.count + 1, totalVocab := row.totalVocab + size } :: rows
      else row :: accumulate key size rows

/-- The `$group` stage of lines 339-345 over the selected entries, `rows` being the
groups formed so far. -/
def groupByTheme : List CorpusRecord → List ThemeRow → Option (List ThemeRow)
  | [], rows => some rows
  | r :: rest, rows =>
      match vocabularySize r with
      | none => none
      | some size => groupByTheme rest (accumulate (themeKey r) size rows)

/-- The stage `{ $sort: { count: -1 } }`. -/
def sortByCount (rows : List ThemeRow) : List ThemeRow :=
  rows.insertionSort fun a b => a.count ≥ b.count

/-- The body of a response of `getStats`. -/
inductive StatsBody where
  | error (message : String)
  | stats (total : Nat) (byTheme : List ThemeRow) (totalVocabulary : Nat)

/-- A response of `getStats`: status code and body. -/
structure StatsReply where
  status : Nat
  body : StatsBody

/-- The handler `exports.getStats` of `corpusController.js` (lines 332-364).
`sizeError` is the message the store rejects the pipeline with when `$size` meets a
value that is not an array. -/
def corpusController.getStats (sizeError : String) (db : Database) (user : Option Nat) :
    StatsReply :=
  match user with
  | none => { status := 401, body := .error "User not authenticated" }
  | some userId =>
      match groupByTheme (ownedActive db userId) [] with
      | none => { status := 500, body := .error ("获取统计失败: " ++ sizeError) }
      | some groups =>
          let stats := sortByCount groups
          let total := (ownedActive db userId).length
          { status := 200
            body := .stats total stats (stats.foldl (fun sum s => sum + s.totalVocab) 0) }

/-- The number of items of the vocabulary of a stored entry (0 when it is not an
array). -/
def vocabularyLength (r : CorpusRecord) : Nat :=
  match r.doc.data.vocabulary with
  | .arr elems _ => elems.length
  | _ => 0

/-- The sum of the `count` of the rows of key `key`. -/
def countOf (rows : List ThemeRow) (key : Option String) : Nat :=
  ((rows.filter fun row => row._id = key).map fun row => row.count).sum

/-- The sum of the `totalVocab` of the rows of key `key`. -/
def vocabOf (rows : List ThemeRow) (key : Option String) : Nat :=
  ((rows.filter fun row => row._id = key).map fun row => row.totalVocab).sum

/-- The entry `abcEntry` with a vocabulary of two items. -/
def twoWordEntry : CorpusRecord :=
  { abcEntry with
    doc := { _id := 21
             data := { abcEntry.doc.data with
                       vocabulary := .arr [.obj [("word", .str "gig")],
                                           .obj [("word", .str "economy")]] [] } } }

/-- An entry of owner 1 whose primary theme is `Science`, with one vocabulary item. -/
def scienceEntry : CorpusRecord :=
  { abcEntry with
    doc := { _id := 22
             data := { abcEntry.doc.data with
                       themes := .obj [("primary", .str "Science"), ("secondary", emptyArray),
                                       ("custom", emptyArray)]
                       vocabulary := .arr [.obj [("word", .str "atom")]] [] } } }

/-! ## `src/models/user.js`: `updateStatistics` -/

/-- The sub-document `statistics` of a user. -/
structure UserStatistics where
  totalCorpus : Nat
  totalVocabulary : Nat
  totalOpinions : Nat
  lastActive : Nat

/-- The values of `{ $size: '$vocabulary' }` on a list of entries, `none` when one of
them is not an array. -/
def vocabularySizes : List CorpusRecord → Option (List Nat)
  | [] => some []
  | r :: rest =>
      match vocabularySize r, vocabularySizes rest with
      | some size, some sizes => some (size :: sizes)
      | _, _ => none

/-- The pipeline of lines 60-72: the documents `{ _id: null, total }` it yields (none
when no entry is selected, one otherwise), or `none` when the pipeline fails. -/
def vocabResult (db : Database) (userId : Nat) : Option (List Nat) :=
  match vocabularySizes (ownedActive db userId) with
  | none => none
  | some [] => some []
  | some (size :: sizes) => some [(size :: sizes).sum]

/-- The method `updateStatistics` of a user document (`src/models/user.js` lines
51-85): the value of `this.statistics` after the call.  `now` is the value of
`Date.now()`.  When the pipeline is rejected the `catch` block only logs, and nothing
is assigned; a rejected `this.save()` is logged in the same way, after the
assignments. -/
def updateStatistics (now : Nat) (db : Database) (userId : Nat)
    (statistics : UserStatistics) : UserStatistics :=
  let corpusCount := (ownedActive db userId).length
  let opinionCount :=
    (db.opinions.filter fun o => o.doc.data.userId == userId && !o.archived).length
  match vocabResult db userId with
  | none => statistics
  | some result =>
      { totalCorpus := corpusCount
        totalOpinions := opinionCount
        totalVocabulary :=
          match result.head? with
          | some total => total
          | none => 0
        lastActive := now }

/-- The statistics of a new user, last active at time 5. -/
def newStatistics : UserStatistics :=
  { totalCorpus := 0, totalVocabulary := 0, totalOpinions := 0, lastActive := 5 }

/-- A page parameter of 401 digits: a one followed by 400 zeros. -/
def hugePage : String := String.mk ('1' :: List.replicate 400 '0')

/-- An entry of owner 1 titled `Draft` whose content is `xyz`, created at time 30. -/
def draftEntry : CorpusRecord :=
  { abcEntry with
    doc := { _id := 23
             data := { abcEntry.doc.data with title := .str "Draft", content := .str "xyz" } }
    createdAt := 30, updatedAt := 30 }

/-- An archived entry of owner 1 whose content is `abc`, created at time 40. -/
def archivedEntry : CorpusRecord :=
  { abcEntry with
    doc := { abcEntry.doc with _id := 24 }
    archived := true, createdAt := 40, updatedAt := 40 }

/-- Six stored entries: two of owner 1 with the theme `General` and the content `abc`,
one of another theme, one of another content, one of another owner, one archived. -/
def mixedDatabase : Database :=
  { corpora := [abcEntry, scienceEntry, draftEntry, newerEntry, otherOwnerEntry,
      archivedEntry]
    opinions := [] }

/-- A schema environment whose vocabulary sub-documents are the objects handed to
the array, anything else being refused. -/
def plainSchema : SchemaEnv :=
  { castItem := fun v =>
      match v with
      | .obj ps => some (.obj ps)
      | _ => none
    invalid := "Corpus validation failed" }

/-- A request environment in which every token is refused as malformed. -/
def refusingAuth : AuthEnv :=
  { verify := fun _ => .error .jsonWebTokenError
    findUser := fun _ => .ok none }

/-- A request environment in which the token `t1` decodes to the payload
`{ userId: 'u1' }` and the user `u1` is the user document 1. -/
def knownUserAuth : AuthEnv :=
  { verify := fun token =>
      if token = "t1" then .ok (.obj [("userId", .str "u1")]) else .error .jsonWebTokenError
    findUser := fun id =>
      match id with
      | .str "u1" => .ok (some 1)
      | _ => .ok none }

/-! ## Theorems -/

/-! ## Property lists -/

theorem lookupProp_assignProp (ps : Props) (k k' : String) (v : JsVal) :
    lookupProp (assignProp ps k v) k' = if k = k' then some v else lookupProp ps k' := by
  induction ps with
  | nil =>
      by_cases h : k = k' <;> simp [assignProp, lookupProp, h]
  | cons p rest ih =>
      obtain ⟨key, old⟩ := p
      by_cases h : key = k
      · subst h
        by_cases h2 : key = k' <;> simp [assignProp, lookupProp, h2]
      · by_cases h2 : key = k'
        · subst h2
          simp [assignProp, lookupProp, h, Ne.symm h]
        · simp [assignProp, lookupProp, h, h2, ih]

theorem isArray_truthy (v : Option JsVal) (h : isArrayOpt v = true) : truthyOpt v = true := by
  cases v with
  | none => simp [isArrayOpt] at h
  | some x => cases x <;> simp_all [isArrayOpt, isArray, truthyOpt, truthy]

/-! ## The statements of `validateAnalysisResult` on an object or array -/

theorem heapProps_cases {v : JsVal} {ps : Props} (h : heapProps v = some ps) :
    v = .obj ps ∨ ∃ es, v = .arr es ps := by
  cases v <;> simp_all [heapProps]

theorem validateThemesInPlace_heap (v : JsVal) (ps : Props) (h : heapProps v = some ps) :
    validateThemesInPlace v = .ok (withProps v (fixThemesProps ps)) := by
  rcases heapProps_cases h with rfl | ⟨es, rfl⟩ <;>
    simp only [validateThemesInPlace, fixThemesProps, getProp, setProp, bind, Except.bind, pure,
      Except.pure, withProps] <;>
    split <;> split <;> split <;> simp_all [getProp, setProp]

theorem ensureVocabulary_heap (v : JsVal) (ps : Props) (h : heapProps v = some ps) :
    ensureVocabulary v = .ok (withProps v (vocabularyProps ps)) := by
  have key : (!truthyOpt (lookupProp ps "vocabulary") || !isArrayOpt (lookupProp ps "vocabulary"))
      = !isArrayOpt (lookupProp ps "vocabulary") := by
    cases hh : isArrayOpt (lookupProp ps "vocabulary")
    · simp
    · simp [isArray_truthy _ hh]
  rcases heapProps_cases h with rfl | ⟨es, rfl⟩ <;>
    simp only [ensureVocabulary, vocabularyProps, getProp, setProp, bind, Except.bind, pure,
      Except.pure, withProps, key] <;>
    split <;> simp_all

theorem ensureTags_heap (v : JsVal) (ps : Props) (h : heapProps v = some ps) :
    ensureTags v = .ok (withProps v (tagsProps ps)) := by
  have key : (!truthyOpt (lookupProp ps "tags") || !isArrayOpt (lookupProp ps "tags"))
      = !isArrayOpt (lookupProp ps "tags") := by
    cases hh : isArrayOpt (lookupProp ps "tags")
    · simp
    · simp [isArray_truthy _ hh]
  rcases heapProps_cases h with rfl | ⟨es, rfl⟩ <;>
    simp only [ensureTags, tagsProps, getProp, setProp, bind, Except.bind, pure,
      Except.pure, withProps, key] <;>
    split <;> simp_all

theorem ensureSummary_heap (v : JsVal) (ps : Props) (h : heapProps v = some ps) :
    ensureSummary v = .ok (withProps v (summaryProps ps)) := by
  rcases heapProps_cases h with rfl | ⟨es, rfl⟩ <;>
    simp only [ensureSummary, summaryProps, getProp, setProp, bind, Except.bind, pure,
      Except.pure, withProps] <;>
    split <;> simp_all

theorem ensureTranslation_heap (v : JsVal) (ps : Props) (t : String)
    (h : heapProps v = some ps) :
    ensureTranslation v t = .ok (withProps v (translationProps ps t)) := by
  rcases heapProps_cases h with rfl | ⟨es, rfl⟩ <;>
    simp only [ensureTranslation, translationProps, getProp, setProp, bind, Except.bind, pure,
      Except.pure, withProps] <;>
    split <;> simp_all

theorem ensureOpinion_heap (v : JsVal) (ps : Props) (h : heapProps v = some ps) :
    ensureOpinion v = .ok (withProps v (opinionProps ps)) := by
  rcases heapProps_cases h with rfl | ⟨es, rfl⟩ <;>
    simp only [ensureOpinion, opinionProps, getProp, setProp, bind, Except.bind, pure,
      Except.pure, withProps] <;>
    (cases hl : lookupProp ps "opinion" with
     | none => simp
     | some o => cases o <;> simp [truthy, typeofObject])

theorem ensureThemes_heap (v : JsVal) (ps : Props) (h : heapProps v = some ps) :
    ensureThemes v = .ok (withProps v (themesProps ps)) := by
  rcases heapProps_cases h with rfl | ⟨es, rfl⟩ <;>
    simp only [ensureThemes, themesProps, getProp, setProp, bind, Except.bind, pure,
      Except.pure, withProps] <;>
    (cases hl : lookupProp ps "themes" with
     | none => simp
     | some o =>
        cases o <;>
          simp [truthy, typeofObject, validateThemesInPlace_heap _ _ (rfl : heapProps (JsVal.obj _) = _), validateThemesInPlace_heap _ _ (rfl : heapProps (JsVal.arr _ _) = _), withProps, setProp])

theorem heapProps_withProps (v : JsVal) (ps qs : Props) (h : heapProps v = some ps) :
    heapProps (withProps v qs) = some qs := by
  cases v <;> simp_all [heapProps, withProps]

theorem withProps_withProps (v : JsVal) (ps qs : Props) :
    withProps (withProps v ps) qs = withProps v qs := by
  cases v <;> simp [withProps]

theorem repairVocabulary_heap (v : JsVal) (ps : Props) (t : String)
    (h : heapProps v = some ps) :
    repairVocabulary v t =
      match mapVocabulary t (lookupProp ps "vocabulary") with
      | .ok rep => .ok (withProps v (assignProp ps "vocabulary" rep))
      | .error e => .error e := by
  rcases heapProps_cases h with rfl | ⟨es, rfl⟩ <;>
    simp only [repairVocabulary, getProp, setProp, bind, Except.bind, pure,
      Except.pure, withProps] <;>
    split <;> simp_all

/-- Closed form of `validateAnalysisResult` on an object or array. -/
theorem validateAnalysisResult_heap (v : JsVal) (ps : Props) (t : String)
    (h : heapProps v = some ps) :
    validateAnalysisResult v t =
      match mapVocabulary t (lookupProp (normalizeProps ps t) "vocabulary") with
      | .ok rep => .ok (withProps v (assignProp (normalizeProps ps t) "vocabulary" rep))
      | .error e => .error e := by
  have h1 := heapProps_withProps v ps (vocabularyProps ps) h
  have h2 := heapProps_withProps _ _ (themesProps (vocabularyProps ps)) h1
  have h3 := heapProps_withProps _ _ (tagsProps (themesProps (vocabularyProps ps))) h2
  have h4 := heapProps_withProps _ _
    (summaryProps (tagsProps (themesProps (vocabularyProps ps)))) h3
  have h5 := heapProps_withProps _ _
    (translationProps (summaryProps (tagsProps (themesProps (vocabularyProps ps)))) t) h4
  have h6 := heapProps_withProps _ _ (opinionProps
    (translationProps (summaryProps (tagsProps (themesProps (vocabularyProps ps)))) t)) h5
  simp only [normalizeProps, validateAnalysisResult, bind, Except.bind, pure, Except.pure,
    ensureVocabulary_heap v ps h, ensureThemes_heap _ _ h1, ensureTags_heap _ _ h2,
    ensureSummary_heap _ _ h3, ensureTranslation_heap _ _ t h4, ensureOpinion_heap _ _ h5]
  rw [repairVocabulary_heap _ _ t h6]
  simp only [withProps_withProps, normalizeProps]
  split <;> simp_all

/-! ## Reads of the normalised property list -/

theorem lookup_vocabularyProps_ne (ps : Props) (k : String) (h : "vocabulary" ≠ k) :
    lookupProp (vocabularyProps ps) k = lookupProp ps k := by
  unfold vocabularyProps
  split <;> simp [lookupProp_assignProp, h]

theorem lookup_themesProps_ne (ps : Props) (k : String) (h : "themes" ≠ k) :
    lookupProp (themesProps ps) k = lookupProp ps k := by
  unfold themesProps
  split <;> simp [lookupProp_assignProp, h]

theorem lookup_tagsProps_ne (ps : Props) (k : String) (h : "tags" ≠ k) :
    lookupProp (tagsProps ps) k = lookupProp ps k := by
  unfold tagsProps
  split <;> simp [lookupProp_assignProp, h]

theorem lookup_summaryProps_ne (ps : Props) (k : String) (h : "summary" ≠ k) :
    lookupProp (summaryProps ps) k = lookupProp ps k := by
  unfold summaryProps
  split <;> simp [lookupProp_assignProp, h]

theorem lookup_translationProps_ne (ps : Props) (t k : String) (h : "translation" ≠ k) :
    lookupProp (translationProps ps t) k = lookupProp ps k := by
  unfold translationProps
  split <;> simp [lookupProp_assignProp, h]

theorem lookup_opinionProps_ne (ps : Props) (k : String) (h : "opinion" ≠ k) :
    lookupProp (opinionProps ps) k = lookupProp ps k := by
  unfold opinionProps
  split <;> simp [lookupProp_assignProp, h]

theorem lookup_vocabularyProps (ps : Props) :
    lookupProp (vocabularyProps ps) "vocabulary" =
      if isArrayOpt (lookupProp ps "vocabulary") then lookupProp ps "vocabulary"
      else some emptyArray := by
  unfold vocabularyProps
  split <;> simp_all [lookupProp_assignProp]

theorem lookup_tagsProps (ps : Props) :
    lookupProp (tagsProps ps) "tags" =
      if isArrayOpt (lookupProp ps "tags") then lookupProp ps "tags" else some emptyArray := by
  unfold tagsProps
  split <;> simp_all [lookupProp_assignProp]

theorem lookup_summaryProps (ps : Props) :
    lookupProp (summaryProps ps) "summary" =
      some (jsOr (lookupProp ps "summary") (.str "文本摘要生成失败")) := by
  unfold summaryProps
  cases h : lookupProp ps "summary" with
  | none => simp [truthyOpt, jsOr, lookupProp_assignProp]
  | some x => cases hx : truthy x <;> simp [truthyOpt, jsOr, hx, h, lookupProp_assignProp]

theorem lookup_translationProps (ps : Props) (t : String) :
    lookupProp (translationProps ps t) "translation" =
      some (jsOr (lookupProp ps "translation") (.str t)) := by
  unfold translationProps
  cases h : lookupProp ps "translation" with
  | none => simp [truthyOpt, jsOr, lookupProp_assignProp]
  | some x => cases hx : truthy x <;> simp [truthyOpt, jsOr, hx, h, lookupProp_assignProp]

theorem lookup_opinionProps (ps : Props) :
    lookupProp (opinionProps ps) "opinion" = some (resultOpinion (lookupProp ps "opinion")) := by
  unfold opinionProps resultOpinion
  split <;> simp_all [lookupProp_assignProp]

theorem lookup_themesProps (ps : Props) :
    lookupProp (themesProps ps) "themes" = some (resultThemes (lookupProp ps "themes")) := by
  unfold themesProps resultThemes
  split <;> simp_all [lookupProp_assignProp]

theorem lookup_normalizeProps_vocabulary (ps : Props) (t : String) :
    lookupProp (normalizeProps ps t) "vocabulary" =
      if isArrayOpt (lookupProp ps "vocabulary") then lookupProp ps "vocabulary"
      else some emptyArray := by
  simp only [normalizeProps]
  rw [lookup_opinionProps_ne _ _ (by decide), lookup_translationProps_ne _ _ _ (by decide),
    lookup_summaryProps_ne _ _ (by decide), lookup_tagsProps_ne _ _ (by decide),
    lookup_themesProps_ne _ _ (by decide), lookup_vocabularyProps]

theorem lookup_normalizeProps_themes (ps : Props) (t : String) :
    lookupProp (normalizeProps ps t) "themes" =
      some (resultThemes (lookupProp ps "themes")) := by
  simp only [normalizeProps]
  rw [lookup_opinionProps_ne _ _ (by decide), lookup_translationProps_ne _ _ _ (by decide),
    lookup_summaryProps_ne _ _ (by decide), lookup_tagsProps_ne _ _ (by decide),
    lookup_themesProps, lookup_vocabularyProps_ne _ _ (by decide)]

theorem lookup_normalizeProps_tags (ps : Props) (t : String) :
    lookupProp (normalizeProps ps t) "tags" =
      if isArrayOpt (lookupProp ps "tags") then lookupProp ps "tags" else some emptyArray := by
  simp only [normalizeProps]
  rw [lookup_opinionProps_ne _ _ (by decide), lookup_translationProps_ne _ _ _ (by decide),
    lookup_summaryProps_ne _ _ (by decide), lookup_tagsProps,
    lookup_themesProps_ne _ _ (by decide), lookup_vocabularyProps_ne _ _ (by decide)]

theorem lookup_normalizeProps_summary (ps : Props) (t : String) :
    lookupProp (normalizeProps ps t) "summary" =
      some (jsOr (lookupProp ps "summary") (.str "文本摘要生成失败")) := by
  simp only [normalizeProps]
  rw [lookup_opinionProps_ne _ _ (by decide), lookup_translationProps_ne _ _ _ (by decide),
    lookup_summaryProps, lookup_tagsProps_ne _ _ (by decide),
    lookup_themesProps_ne _ _ (by decide), lookup_vocabularyProps_ne _ _ (by decide)]

theorem lookup_normalizeProps_translation (ps : Props) (t : String) :
    lookupProp (normalizeProps ps t) "translation" =
      some (jsOr (lookupProp ps "translation") (.str t)) := by
  simp only [normalizeProps]
  rw [lookup_opinionProps_ne _ _ (by decide), lookup_translationProps,
    lookup_summaryProps_ne _ _ (by decide), lookup_tagsProps_ne _ _ (by decide),
    lookup_themesProps_ne _ _ (by decide), lookup_vocabularyProps_ne _ _ (by decide)]

theorem lookup_normalizeProps_opinion (ps : Props) (t : String) :
    lookupProp (normalizeProps ps t) "opinion" =
      some (resultOpinion (lookupProp ps "opinion")) := by
  simp only [normalizeProps]
  rw [lookup_opinionProps, lookup_translationProps_ne _ _ _ (by decide),
    lookup_summaryProps_ne _ _ (by decide), lookup_tagsProps_ne _ _ (by decide),
    lookup_themesProps_ne _ _ (by decide), lookup_vocabularyProps_ne _ _ (by decide)]

/-! ## The vocabulary repair -/

theorem truthy_heap (v : JsVal) :
    (truthy v && typeofObject v) = (heapProps v).isSome := by
  cases v <;> simp [truthy, typeofObject, heapProps]

theorem field_eq (v : JsVal) (k : String) :
    field v k = (heapProps v).bind (fun ps => lookupProp ps k) := by
  cases v <;> simp [field, heapProps]

theorem truthy_jsOr (a : Option JsVal) (b : JsVal) :
    truthy (jsOr a b) = (truthyOpt a || truthy b) := by
  cases a with
  | none => simp [jsOr, truthyOpt]
  | some v =>
      cases h : truthy v <;> simp [jsOr, truthyOpt, h]

theorem repairItem_eq (t : String) (v : JsVal) :
    repairItem t v =
      if itemRenders v then
        .ok (if truthy v && typeofObject v then some (repairedEntry t v) else none)
      else .error .typeError := by
  cases v with
  | null => simp [repairItem, itemRenders, heapProps, truthy]
  | bool b => cases b <;> simp [repairItem, itemRenders, heapProps, truthy, typeofObject]
  | num n => simp [repairItem, itemRenders, heapProps, typeofObject]
  | str s => simp [repairItem, itemRenders, heapProps, typeofObject]
  | arr es ps =>
      simp only [repairItem, itemRenders, heapProps, truthy, typeofObject, getProp, bind,
        Except.bind, pure, Except.pure, repairedEntry, field, renders, renderText]
      cases hu : truthyOpt (lookupProp ps "usageScenario")
      · cases hr : templateString (jsOrOpt (lookupProp ps "collocation") (lookupProp ps "word")) <;>
          simp [hu, hr, jsOr]
        cases hl : lookupProp ps "usageScenario" with
        | none => rfl
        | some x => simp [hl, truthyOpt] at hu; simp [hu]
      · cases hl : lookupProp ps "usageScenario" with
        | none => simp [hl, truthyOpt] at hu
        | some x => simp [hl, truthyOpt] at hu; simp [hu, jsOr, truthyOpt, hl]
  | obj ps =>
      simp only [repairItem, itemRenders, heapProps, truthy, typeofObject, getProp, bind,
        Except.bind, pure, Except.pure, repairedEntry, field, renders, renderText]
      cases hu : truthyOpt (lookupProp ps "usageScenario")
      · cases hr : templateString (jsOrOpt (lookupProp ps "collocation") (lookupProp ps "word")) <;>
          simp [hu, hr, jsOr]
        cases hl : lookupProp ps "usageScenario" with
        | none => rfl
        | some x => simp [hl, truthyOpt] at hu; simp [hu]
      · cases hl : lookupProp ps "usageScenario" with
        | none => simp [hl, truthyOpt] at hu
        | some x => simp [hl, truthyOpt] at hu; simp [hu, jsOr, truthyOpt, hl]

theorem keepItem_repairedEntry (t : String) (v : JsVal) :
    keepItem (some (repairedEntry t v)) =
      if truthyOpt (field v "word") then some (repairedEntry t v) else none := by
  have hobj : ∀ ps : Props, truthy (.obj ps) = true := fun _ => rfl
  have hstr : truthy (.str "") = false := rfl
  simp only [keepItem, repairedEntry, getProp, lookupProp, if_true, truthyOpt, truthy_jsOr,
    hobj, hstr, Bool.true_and, Bool.or_false]

theorem jsMap_repairItem (t : String) (elems : List JsVal)
    (h : elems.all itemRenders = true) :
    jsMap (repairItem t) elems =
      .ok (elems.map fun v =>
        if truthy v && typeofObject v then some (repairedEntry t v) else none) := by
  induction elems with
  | nil => rfl
  | cons v rest ih =>
      simp only [List.all_cons, Bool.and_eq_true] at h
      simp [jsMap, repairItem_eq, h.1, ih h.2]

theorem jsMap_repairItem_error (t : String) (elems : List JsVal)
    (h : elems.all itemRenders = false) :
    jsMap (repairItem t) elems = .error .typeError := by
  induction elems with
  | nil => simp at h
  | cons v rest ih =>
      cases hv : itemRenders v
      · simp [jsMap, repairItem_eq, hv]
      · have hr : rest.all itemRenders = false := by
          simpa [List.all_cons, hv] using h
        simp only [jsMap, repairItem_eq, hv, if_true, ih hr]

theorem filterMap_keepItem (t : String) (elems : List JsVal) :
    (elems.map fun v =>
        if truthy v && typeofObject v then some (repairedEntry t v) else none).filterMap keepItem
      = (elems.filter keptEntry).map (repairedEntry t) := by
  induction elems with
  | nil => rfl
  | cons v rest ih =>
      simp only [List.map_cons, List.filterMap_cons, List.filter_cons, keptEntry]
      by_cases hh : (truthy v && typeofObject v) = true
      · by_cases hw : truthyOpt (field v "word") = true
        · simp only [hh, hw, if_true, keepItem_repairedEntry, Bool.and_self, ih, List.map_cons]
        · simp only [hh, hw, if_true, keepItem_repairedEntry, Bool.true_and, if_false, ih,
            Bool.false_eq_true]
      · simp only [hh, if_false, keepItem, Bool.false_eq_true, ih]
        simp only [Bool.not_eq_true] at hh
        simp only [hh, Bool.false_and, Bool.false_eq_true, if_false]

theorem mapVocabulary_arr (t : String) (elems : List JsVal) (vp : Props) :
    mapVocabulary t (some (.arr elems vp)) =
      if elems.all itemRenders then
        .ok (.arr ((elems.filter keptEntry).map (repairedEntry t)) [])
      else .error .typeError := by
  cases h : elems.all itemRenders
  · simp [mapVocabulary, jsMap_repairItem_error t elems h, bind, Except.bind]
  · simp only [mapVocabulary, jsMap_repairItem t elems h, bind, Except.bind, pure, Except.pure,
      filterMap_keepItem, if_true]

theorem vocabularyRenders_heap (v : JsVal) (ps : Props) (h : heapProps v = some ps) :
    vocabularyRenders v =
      match lookupProp ps "vocabulary" with
      | some (.arr elems _) => elems.all itemRenders
      | _ => true := by
  rcases heapProps_cases h with rfl | ⟨es, rfl⟩ <;> simp [vocabularyRenders, field]

theorem mapVocabulary_normalizeProps (ps : Props) (t : String) :
    mapVocabulary t (lookupProp (normalizeProps ps t) "vocabulary") =
      if (match lookupProp ps "vocabulary" with
          | some (.arr elems _) => elems.all itemRenders
          | _ => true) then
        .ok (.arr (repairedVocabulary t (lookupProp ps "vocabulary")) [])
      else .error .typeError := by
  rw [lookup_normalizeProps_vocabulary]
  cases hl : lookupProp ps "vocabulary" with
  | none => simp [isArrayOpt, emptyArray, mapVocabulary_arr, repairedVocabulary]
  | some x =>
      cases x <;>
        simp [isArrayOpt, isArray, emptyArray, mapVocabulary_arr, repairedVocabulary]

/-- On an object or array whose vocabulary entries render, the call returns the
input with its properties normalised and its vocabulary repaired. -/
theorem validateAnalysisResult_heap_ok (v : JsVal) (ps : Props) (t : String)
    (h : heapProps v = some ps) (hr : vocabularyRenders v = true) :
    validateAnalysisResult v t =
      .ok (withProps v (assignProp (normalizeProps ps t) "vocabulary"
        (.arr (repairedVocabulary t (lookupProp ps "vocabulary")) []))) := by
  rw [vocabularyRenders_heap v ps h] at hr
  rw [validateAnalysisResult_heap v ps t h, mapVocabulary_normalizeProps, if_pos hr]

/-- On an object or array with a vocabulary entry that does not render, the call
raises. -/
theorem validateAnalysisResult_heap_error (v : JsVal) (ps : Props) (t : String)
    (h : heapProps v = some ps) (hr : vocabularyRenders v = false) :
    validateAnalysisResult v t = .error .typeError := by
  rw [vocabularyRenders_heap v ps h] at hr
  rw [validateAnalysisResult_heap v ps t h, mapVocabulary_normalizeProps, hr]
  simp

/-- On `null` and on primitives the call raises. -/
theorem validateAnalysisResult_not_heap (v : JsVal) (t : String) (h : heapProps v = none) :
    validateAnalysisResult v t = .error .typeError := by
  cases v <;> first | rfl | simp [heapProps] at h

theorem field_withProps (v : JsVal) (ps qs : Props) (k : String) (h : heapProps v = some ps) :
    field (withProps v qs) k = lookupProp qs k := by
  rcases heapProps_cases h with rfl | ⟨es, rfl⟩ <;> rfl

theorem lookup_fixThemesProps_primary (tp : Props) :
    lookupProp (fixThemesProps tp) "primary" =
      some (jsOr (lookupProp tp "primary") (.str "General")) := by
  have h1 : ∀ qs : Props, lookupProp
      (if isArrayOpt (lookupProp (if isArrayOpt (lookupProp qs "secondary") then qs
          else assignProp qs "secondary" emptyArray) "custom") then
        (if isArrayOpt (lookupProp qs "secondary") then qs
          else assignProp qs "secondary" emptyArray)
       else assignProp (if isArrayOpt (lookupProp qs "secondary") then qs
          else assignProp qs "secondary" emptyArray) "custom" emptyArray) "primary"
      = lookupProp qs "primary" := by
    intro qs
    split <;> split <;> simp_all [lookupProp_assignProp]
  simp only [fixThemesProps, h1]
  cases h : lookupProp tp "primary" with
  | none => simp [truthyOpt, jsOr, lookupProp_assignProp]
  | some x => cases hx : truthy x <;> simp [truthyOpt, jsOr, hx, h, lookupProp_assignProp]

theorem lookup_fixThemesProps_secondary (tp : Props) :
    lookupProp (fixThemesProps tp) "secondary" =
      if isArrayOpt (lookupProp tp "secondary") then lookupProp tp "secondary"
      else some emptyArray := by
  simp only [fixThemesProps]
  split <;> split <;> split <;> simp_all [lookupProp_assignProp]

theorem lookup_fixThemesProps_custom (tp : Props) :
    lookupProp (fixThemesProps tp) "custom" =
      if isArrayOpt (lookupProp tp "custom") then lookupProp tp "custom"
      else some emptyArray := by
  simp only [fixThemesProps]
  split <;> split <;> split <;> simp_all [lookupProp_assignProp]

theorem field_resultThemes_primary (x : Option JsVal) :
    field (resultThemes x) "primary" =
      some (jsOr (x.bind fun th => field th "primary") (.str "General")) := by
  cases x with
  | none => rfl
  | some v =>
      cases v <;>
        first
        | rfl
        | simp [resultThemes, field, lookup_fixThemesProps_primary]

theorem field_resultThemes_secondary (x : Option JsVal) :
    field (resultThemes x) "secondary" =
      if isArrayOpt (x.bind fun th => field th "secondary") then
        x.bind fun th => field th "secondary"
      else some emptyArray := by
  cases x with
  | none => rfl
  | some v =>
      cases v <;>
        first
        | rfl
        | simp [resultThemes, field, lookup_fixThemesProps_secondary]

theorem field_resultThemes_custom (x : Option JsVal) :
    field (resultThemes x) "custom" =
      if isArrayOpt (x.bind fun th => field th "custom") then
        x.bind fun th => field th "custom"
      else some emptyArray := by
  cases x with
  | none => rfl
  | some v =>
      cases v <;>
        first
        | rfl
        | simp [resultThemes, field, lookup_fixThemesProps_custom]

/-- The fields of the result read off the normalised properties. -/
theorem field_result (v : JsVal) (ps : Props) (t : String) (rep : JsVal)
    (h : heapProps v = some ps) :
    field (withProps v (assignProp (normalizeProps ps t) "vocabulary" rep)) "vocabulary"
        = some rep ∧
    field (withProps v (assignProp (normalizeProps ps t) "vocabulary" rep)) "themes"
        = some (resultThemes (lookupProp ps "themes")) ∧
    field (withProps v (assignProp (normalizeProps ps t) "vocabulary" rep)) "tags"
        = (if isArrayOpt (lookupProp ps "tags") then lookupProp ps "tags"
           else some emptyArray) ∧
    field (withProps v (assignProp (normalizeProps ps t) "vocabulary" rep)) "summary"
        = some (jsOr (lookupProp ps "summary") (.str "文本摘要生成失败")) ∧
    field (withProps v (assignProp (normalizeProps ps t) "vocabulary" rep)) "translation"
        = some (jsOr (lookupProp ps "translation") (.str t)) ∧
    field (withProps v (assignProp (normalizeProps ps t) "vocabulary" rep)) "opinion"
        = some (resultOpinion (lookupProp ps "opinion")) := by
  simp only [field_withProps v ps _ _ h, lookupProp_assignProp]
  refine ⟨by simp, ?_, ?_, ?_, ?_, ?_⟩
  · rw [if_neg (by decide), lookup_normalizeProps_themes]
  · rw [if_neg (by decide), lookup_normalizeProps_tags]
  · rw [if_neg (by decide), lookup_normalizeProps_summary]
  · rw [if_neg (by decide), lookup_normalizeProps_translation]
  · rw [if_neg (by decide), lookup_normalizeProps_opinion]

/-! ## Claims on `validateAnalysisResult` -/

/-- C1 (counterexample): on the JSON value `null` the call raises instead of
returning a result. -/
theorem validateAnalysisResult_null_raises :
    ¬ ∃ r, validateAnalysisResult JsVal.null "The gig economy has grown." = Except.ok r := by
  rintro ⟨r, h⟩
  cases h

/-- C1 (amended): `validateAnalysisResult(parsed, originalText)` returns a result
exactly when `parsed` is an object or an array and every entry of its `vocabulary`
array lets the `map` callback return; on `null`, on primitives and on the remaining
inputs it raises a `TypeError`. -/
theorem validateAnalysisResult_returns_iff (parsed : JsVal) (originalText : String) :
    ((∃ r, validateAnalysisResult parsed originalText = .ok r) ↔
      ((heapProps parsed).isSome = true ∧ vocabularyRenders parsed = true)) ∧
    ((∃ r, validateAnalysisResult parsed originalText = .ok r) ∨
      validateAnalysisResult parsed originalText = .error .typeError) := by
  cases hh : heapProps parsed with
  | none =>
      have he := validateAnalysisResult_not_heap parsed originalText hh
      simp [he]
  | some ps =>
      cases hr : vocabularyRenders parsed
      · have he := validateAnalysisResult_heap_error parsed ps originalText hh hr
        simp [he]
      · have ho := validateAnalysisResult_heap_ok parsed ps originalText hh hr
        simp [ho]

/-- C2 (counterexample): a numeric `summary`, a numeric `translation` and a numeric
`themes.primary` are returned as numbers, not as strings. -/
theorem validateAnalysisResult_keeps_numeric_fields :
    ∃ r th,
      validateAnalysisResult
        (.obj [("summary", .num 5), ("translation", .num 7),
               ("themes", .obj [("primary", .num 9)])]) "The gig economy has grown." = .ok r ∧
      field r "summary" = some (.num 5) ∧
      field r "translation" = some (.num 7) ∧
      field r "themes" = some th ∧ field th "primary" = some (.num 9) ∧
      typeofString (.num 5) = false ∧ typeofString (.num 7) = false ∧
      typeofString (.num 9) = false :=
  ⟨_, _, rfl, rfl, rfl, rfl, rfl, rfl, rfl, rfl⟩

/-- C2 (amended): on every object input on which the call returns, `summary`,
`translation` and `themes.primary` of the result are the input values when these are
truthy (whatever their type), and `'文本摘要生成失败'`, `originalText` and `'General'`
respectively when the input field is absent or falsy. -/
theorem validateAnalysisResult_text_fields (ps : Props) (originalText : String)
    (hr : vocabularyRenders (.obj ps) = true) :
    ∃ r th,
      validateAnalysisResult (.obj ps) originalText = .ok r ∧
      field r "summary" = some (jsOr (lookupProp ps "summary") (.str "文本摘要生成失败")) ∧
      field r "translation" = some (jsOr (lookupProp ps "translation") (.str originalText)) ∧
      field r "themes" = some th ∧
      field th "primary" = some (jsOr (inputThemesField ps "primary") (.str "General")) := by
  have ho := validateAnalysisResult_heap_ok (.obj ps) ps originalText rfl hr
  obtain ⟨-, hth, -, hs, htr, -⟩ := field_result (.obj ps) ps originalText
    (.arr (repairedVocabulary originalText (lookupProp ps "vocabulary")) []) rfl
  exact ⟨_, _, ho, hs, htr, hth, field_resultThemes_primary _⟩

/-- C2 (witness): an input without `summary`, `translation` and `themes`. -/
theorem validateAnalysisResult_text_fields_witness :
    vocabularyRenders (.obj [("tags", .arr [.str "work"] [])]) = true ∧
    ∃ r th,
      validateAnalysisResult (.obj [("tags", .arr [.str "work"] [])])
        "The gig economy has grown." = .ok r ∧
      field r "summary" = some (jsOr (lookupProp [("tags", .arr [.str "work"] [])] "summary")
        (.str "文本摘要生成失败")) ∧
      field r "translation" = some (jsOr
        (lookupProp [("tags", .arr [.str "work"] [])] "translation")
        (.str "The gig economy has grown.")) ∧
      field r "themes" = some th ∧
      field th "primary" = some (jsOr
        (inputThemesField [("tags", .arr [.str "work"] [])] "primary") (.str "General")) :=
  ⟨rfl, validateAnalysisResult_text_fields [("tags", .arr [.str "work"] [])]
    "The gig economy has grown." rfl⟩

/-- C3 (counterexample): an input opinion carrying only `coreViewpoint` is returned
as it is, without the three other fields. -/
theorem validateAnalysisResult_keeps_bare_opinion :
    ∃ r o,
      validateAnalysisResult (.obj [("opinion", .obj [("coreViewpoint", .str "x")])])
        "The gig economy has grown." = .ok r ∧
      field r "opinion" = some o ∧
      o = .obj [("coreViewpoint", .str "x")] ∧
      field o "supportingEvidence" = none ∧
      field o "criticalQuestion" = none ∧
      field o "counterargument" = none :=
  ⟨_, _, rfl, rfl, rfl, rfl, rfl, rfl⟩

/-- C3 (amended): on every object input on which the call returns, the `opinion` of
the result is the input `opinion` unchanged when that is an object (or array), and
the four-field default `{coreViewpoint: '', supportingEvidence: [], criticalQuestion:
'', counterargument: ''}` when it is absent or is not an object. -/
theorem validateAnalysisResult_opinion (ps : Props) (originalText : String)
    (hr : vocabularyRenders (.obj ps) = true) :
    ∃ r,
      validateAnalysisResult (.obj ps) originalText = .ok r ∧
      field r "opinion" = some (resultOpinion (lookupProp ps "opinion")) ∧
      (∀ o, lookupProp ps "opinion" = some o → truthy o = true → typeofObject o = true →
        field r "opinion" = some o) ∧
      ((∀ o, lookupProp ps "opinion" = some o → (truthy o && typeofObject o) = false) →
        field r "opinion" = some (.obj [("coreViewpoint", .str ""),
          ("supportingEvidence", .arr [] []), ("criticalQuestion", .str ""),
          ("counterargument", .str "")])) := by
  have ho := validateAnalysisResult_heap_ok (.obj ps) ps originalText rfl hr
  obtain ⟨-, -, -, -, -, hop⟩ := field_result (.obj ps) ps originalText
    (.arr (repairedVocabulary originalText (lookupProp ps "vocabulary")) []) rfl
  refine ⟨_, ho, hop, ?_, ?_⟩
  · intro o hl ht hty
    rw [hop, hl]
    cases o <;> simp_all [resultOpinion, truthy, typeofObject]
  · intro hall
    rw [hop]
    cases hl : lookupProp ps "opinion" with
    | none => rfl
    | some o =>
        have := hall o hl
        cases o <;> simp_all [resultOpinion, truthy, typeofObject] <;> rfl

/-- C3 (witness): an input whose `opinion` is a string. -/
theorem validateAnalysisResult_opinion_witness :
    vocabularyRenders (.obj [("opinion", .str "none")]) = true ∧
    ∃ r,
      validateAnalysisResult (.obj [("opinion", .str "none")]) "The gig economy." = .ok r ∧
      field r "opinion" = some (resultOpinion (lookupProp [("opinion", .str "none")] "opinion")) ∧
      (∀ o, lookupProp [("opinion", .str "none")] "opinion" = some o → truthy o = true →
        typeofObject o = true → field r "opinion" = some o) ∧
      ((∀ o, lookupProp [("opinion", .str "none")] "opinion" = some o →
          (truthy o && typeofObject o) = false) →
        field r "opinion" = some (.obj [("coreViewpoint", .str ""),
          ("supportingEvidence", .arr [] []), ("criticalQuestion", .str ""),
          ("counterargument", .str "")])) :=
  ⟨rfl, validateAnalysisResult_opinion [("opinion", .str "none")] "The gig economy." rfl⟩

/-- C4 (counterexample): a fully populated entry whose `reason` is the empty string
comes back with `reason` replaced by `'Important vocabulary'`, whereas keeping every
present value would keep the empty string. -/
theorem validateAnalysisResult_replaces_empty_reason :
    ∃ r items,
      validateAnalysisResult
        (.obj [("vocabulary", .arr [.obj [("word", .str "run"), ("meaning", .str "跑"),
            ("originalSentence", .str "I run."), ("collocation", .str "run fast"),
            ("reason", .str ""), ("usageScenario", .str "I run daily.")]] [])])
        "I run." = .ok r ∧
      field r "vocabulary" = some (.arr items []) ∧
      items.map (fun v => field v "reason") = [some (.str "Important vocabulary")] ∧
      (claimedVocabulary "I run." [.obj [("word", .str "run"), ("meaning", .str "跑"),
            ("originalSentence", .str "I run."), ("collocation", .str "run fast"),
            ("reason", .str ""), ("usageScenario", .str "I run daily.")]]).map
          (fun v => field v "reason") = [some (.str "")] :=
  ⟨_, _, rfl, rfl, rfl, rfl⟩

/-- C4 (amended): when the input `vocabulary` is an array whose entries let the `map`
callback return, the vocabulary of the result is exactly the list of the entries
that are objects with a truthy `word`, in input order, each repaired field by field:
a truthy value is kept, a value that is absent or falsy is replaced by the default
of `repairedEntry`. -/
theorem validateAnalysisResult_vocabulary (ps : Props) (originalText : String)
    (elems : List JsVal) (vp : Props)
    (hv : lookupProp ps "vocabulary" = some (.arr elems vp))
    (hr : elems.all itemRenders = true) :
    ∃ r,
      validateAnalysisResult (.obj ps) originalText = .ok r ∧
      field r "vocabulary" =
        some (.arr ((elems.filter keptEntry).map (repairedEntry originalText)) []) := by
  have hren : vocabularyRenders (.obj ps) = true := by
    rw [vocabularyRenders_heap (.obj ps) ps rfl, hv]
    exact hr
  have ho := validateAnalysisResult_heap_ok (.obj ps) ps originalText rfl hren
  obtain ⟨hvoc, -⟩ := field_result (.obj ps) ps originalText
    (.arr (repairedVocabulary originalText (lookupProp ps "vocabulary")) []) rfl
  refine ⟨_, ho, ?_⟩
  rw [hvoc, hv]
  rfl

/-- C4 (witness): a vocabulary mixing repairable entries with malformed ones. -/
theorem validateAnalysisResult_vocabulary_witness :
    lookupProp [("vocabulary", .arr [.null, .num 3, .obj [("word", .str "run")],
        .obj [("word", .str "")], .arr [] [], .obj [("meaning", .str "x")]] [])] "vocabulary"
      = some (.arr [.null, .num 3, .obj [("word", .str "run")],
        .obj [("word", .str "")], .arr [] [], .obj [("meaning", .str "x")]] []) ∧
    List.all [.null, .num 3, .obj [("word", .str "run")],
        .obj [("word", .str "")], .arr [] [], .obj [("meaning", .str "x")]] itemRenders = true ∧
    ∃ r,
      validateAnalysisResult (.obj [("vocabulary", .arr [.null, .num 3,
        .obj [("word", .str "run")], .obj [("word", .str "")], .arr [] [],
        .obj [("meaning", .str "x")]] [])]) "I run." = .ok r ∧
      field r "vocabulary" =
        some (.arr ((List.filter keptEntry [.null, .num 3, .obj [("word", .str "run")],
          .obj [("word", .str "")], .arr [] [], .obj [("meaning", .str "x")]]).map
            (repairedEntry "I run.")) []) :=
  ⟨rfl, rfl, validateAnalysisResult_vocabulary _ "I run." _ [] rfl rfl⟩

/-- C5 (counterexample): an entry without `meaning` is kept with the empty string as
its `meaning`. -/
theorem validateAnalysisResult_empty_meaning :
    ∃ r items,
      validateAnalysisResult (.obj [("vocabulary", .arr [.obj [("word", .str "run")]] [])])
        "I run." = .ok r ∧
      field r "vocabulary" = some (.arr items []) ∧
      items.map (fun v => field v "meaning") = [some (.str "")] :=
  ⟨_, _, rfl, rfl, rfl⟩

theorem truthy_defaultSentence (t : String) : truthy (.str (defaultSentence t)) = true := by
  have hne : defaultSentence t ≠ "" := by
    intro h
    have hd := congrArg String.length h
    simp only [defaultSentence, String.length_append] at hd
    have h3 : "...".length = 3 := rfl
    have h0 : "".length = 0 := rfl
    omega
  simp [truthy, hne]

/-- C5 (amended): whenever the call returns, every vocabulary item of the result has
a truthy `word` and a truthy `originalSentence`; its `meaning` is present and is
either truthy or the empty string. -/
theorem validateAnalysisResult_item_fields (parsed : JsVal) (originalText : String)
    (r : JsVal) (h : validateAnalysisResult parsed originalText = .ok r) :
    ∃ items,
      field r "vocabulary" = some (.arr items []) ∧
      ∀ v ∈ items,
        truthyOpt (field v "word") = true ∧
        truthyOpt (field v "originalSentence") = true ∧
        ∃ m, field v "meaning" = some m ∧ (truthy m = true ∨ m = .str "") := by
  cases hh : heapProps parsed with
  | none =>
      rw [validateAnalysisResult_not_heap parsed originalText hh] at h
      cases h
  | some ps =>
      cases hr : vocabularyRenders parsed with
      | false =>
          rw [validateAnalysisResult_heap_error parsed ps originalText hh hr] at h
          cases h
      | true =>
          rw [validateAnalysisResult_heap_ok parsed ps originalText hh hr] at h
          injection h with h
          subst h
          obtain ⟨hvoc, -⟩ := field_result parsed ps originalText
            (.arr (repairedVocabulary originalText (lookupProp ps "vocabulary")) []) hh
          refine ⟨_, hvoc, ?_⟩
          intro v hv
          have hmem : ∃ e, keptEntry e = true ∧ repairedEntry originalText e = v := by
            unfold repairedVocabulary at hv
            split at hv
            · simp only [List.mem_map, List.mem_filter] at hv
              obtain ⟨a, ⟨-, hka⟩, ha⟩ := hv
              exact ⟨a, hka, ha⟩
            · simp at hv
          obtain ⟨e, hk, rfl⟩ := hmem
          have hw : truthyOpt (field e "word") = true := by
            simp only [keptEntry, Bool.and_eq_true] at hk
            exact hk.2
          refine ⟨?_, ?_, jsOr (field e "meaning") (.str ""), rfl, ?_⟩
          · show truthy (jsOr (field e "word") (.str "")) = true
            rw [truthy_jsOr, hw]
            rfl
          · show truthy (jsOr (field e "originalSentence")
              (.str (defaultSentence originalText))) = true
            rw [truthy_jsOr, truthy_defaultSentence, Bool.or_true]
          · cases hm : field e "meaning" with
            | none => simp [jsOr]
            | some m => cases hmt : truthy m <;> simp [jsOr, hmt]

/-- C5 (witness): a vocabulary with a complete entry, a number and an entry that has
only a `word`. -/
theorem validateAnalysisResult_item_fields_witness :
    validateAnalysisResult
      (.obj [("vocabulary", .arr [.obj [("word", .str "run"), ("meaning", .str "跑"),
        ("originalSentence", .str "I run.")], .num 1, .obj [("word", .str "gig")]] [])])
      "I run." =
      .ok (.obj [("vocabulary", .arr [
          .obj [("word", .str "run"), ("meaning", .str "跑"),
            ("originalSentence", .str "I run."), ("collocation", .str ""),
            ("reason", .str "Important vocabulary"), ("usageScenario", .str "Example: run")],
          .obj [("word", .str "gig"), ("meaning", .str ""),
            ("originalSentence", .str "I run...."), ("collocation", .str ""),
            ("reason", .str "Important vocabulary"), ("usageScenario", .str "Example: gig")]] []),
        ("themes", defaultThemes), ("tags", emptyArray), ("summary", .str "文本摘要生成失败"),
        ("translation", .str "I run."), ("opinion", defaultOpinion)]) ∧
    ∃ items,
      field (.obj [("vocabulary", .arr [
          .obj [("word", .str "run"), ("meaning", .str "跑"),
            ("originalSentence", .str "I run."), ("collocation", .str ""),
            ("reason", .str "Important vocabulary"), ("usageScenario", .str "Example: run")],
          .obj [("word", .str "gig"), ("meaning", .str ""),
            ("originalSentence", .str "I run...."), ("collocation", .str ""),
            ("reason", .str "Important vocabulary"), ("usageScenario", .str "Example: gig")]] []),
        ("themes", defaultThemes), ("tags", emptyArray), ("summary", .str "文本摘要生成失败"),
        ("translation", .str "I run."), ("opinion", defaultOpinion)]) "vocabulary"
        = some (.arr items []) ∧
      ∀ v ∈ items,
        truthyOpt (field v "word") = true ∧
        truthyOpt (field v "originalSentence") = true ∧
        ∃ m, field v "meaning" = some m ∧ (truthy m = true ∨ m = .str "") :=
  ⟨rfl, validateAnalysisResult_item_fields
    (.obj [("vocabulary", .arr [.obj [("word", .str "run"), ("meaning", .str "跑"),
      ("originalSentence", .str "I run.")], .num 1, .obj [("word", .str "gig")]] [])])
    "I run." _ rfl⟩

theorem isArrayOpt_ite (x : Option JsVal) :
    isArrayOpt (if isArrayOpt x then x else some emptyArray) = true := by
  cases h : isArrayOpt x
  · simp [emptyArray, isArrayOpt, isArray]
  · simp [h]

/-- C6: for every object input, the call either returns a result whose
`vocabulary`, `tags`, `themes.secondary` and `themes.custom` are arrays, each of
them the empty array when the corresponding input field is missing or is not an
array, or it raises, which happens only when a vocabulary entry does not let the
`map` callback return. -/
theorem validateAnalysisResult_arrays (ps : Props) (originalText : String) :
    match validateAnalysisResult (.obj ps) originalText with
    | .ok r =>
        (∃ items, field r "vocabulary" = some (.arr items [])) ∧
        isArrayOpt (field r "tags") = true ∧
        (∃ th, field r "themes" = some th ∧
          isArrayOpt (field th "secondary") = true ∧
          isArrayOpt (field th "custom") = true ∧
          (isArrayOpt (inputThemesField ps "secondary") = false →
            field th "secondary" = some (.arr [] [])) ∧
          (isArrayOpt (inputThemesField ps "custom") = false →
            field th "custom" = some (.arr [] []))) ∧
        (isArrayOpt (lookupProp ps "vocabulary") = false →
          field r "vocabulary" = some (.arr [] [])) ∧
        (isArrayOpt (lookupProp ps "tags") = false → field r "tags" = some (.arr [] []))
    | .error _ => vocabularyRenders (.obj ps) = false := by
  cases hr : vocabularyRenders (.obj ps) with
  | false =>
      rw [validateAnalysisResult_heap_error (.obj ps) ps originalText rfl hr]
  | true =>
      rw [validateAnalysisResult_heap_ok (.obj ps) ps originalText rfl hr]
      obtain ⟨hvoc, hth, htags, -⟩ := field_result (.obj ps) ps originalText
        (.arr (repairedVocabulary originalText (lookupProp ps "vocabulary")) []) rfl
      refine ⟨⟨_, hvoc⟩, ?_, ⟨_, hth, ?_, ?_, ?_, ?_⟩, ?_, ?_⟩
      · rw [htags]
        exact isArrayOpt_ite _
      · rw [field_resultThemes_secondary]
        exact isArrayOpt_ite _
      · rw [field_resultThemes_custom]
        exact isArrayOpt_ite _
      · intro hn
        rw [field_resultThemes_secondary]
        simp only [inputThemesField] at hn
        simp [hn, emptyArray]
      · intro hn
        rw [field_resultThemes_custom]
        simp only [inputThemesField] at hn
        simp [hn, emptyArray]
      · intro hn
        rw [hvoc]
        cases hl : lookupProp ps "vocabulary" with
        | none => rfl
        | some x => cases x <;> first | rfl | simp [hl, isArrayOpt, isArray] at hn
      · intro hn
        rw [htags]
        simp [hn, emptyArray]

/-- C6 (witness): an input whose `vocabulary` is a string, whose `themes` has a
string `secondary`, and which has no `tags`. -/
theorem validateAnalysisResult_arrays_witness :
    match validateAnalysisResult
      (.obj [("vocabulary", .str "none"), ("themes", .obj [("secondary", .str "Trade")])])
      "I run." with
    | .ok r =>
        (∃ items, field r "vocabulary" = some (.arr items [])) ∧
        isArrayOpt (field r "tags") = true ∧
        (∃ th, field r "themes" = some th ∧
          isArrayOpt (field th "secondary") = true ∧
          isArrayOpt (field th "custom") = true ∧
          (isArrayOpt (inputThemesField
              [("vocabulary", .str "none"), ("themes", .obj [("secondary", .str "Trade")])]
              "secondary") = false →
            field th "secondary" = some (.arr [] [])) ∧
          (isArrayOpt (inputThemesField
              [("vocabulary", .str "none"), ("themes", .obj [("secondary", .str "Trade")])]
              "custom") = false →
            field th "custom" = some (.arr [] []))) ∧
        (isArrayOpt (lookupProp
            [("vocabulary", .str "none"), ("themes", .obj [("secondary", .str "Trade")])]
            "vocabulary") = false →
          field r "vocabulary" = some (.arr [] [])) ∧
        (isArrayOpt (lookupProp
            [("vocabulary", .str "none"), ("themes", .obj [("secondary", .str "Trade")])]
            "tags") = false → field r "tags" = some (.arr [] []))
    | .error _ =>
        vocabularyRenders
          (.obj [("vocabulary", .str "none"), ("themes", .obj [("secondary", .str "Trade")])])
          = false :=
  validateAnalysisResult_arrays
    [("vocabulary", .str "none"), ("themes", .obj [("secondary", .str "Trade")])] "I run."

/-! ## Claims on `formatThemes` -/

/-- C7: a legacy array whose first element is a non-empty string is formatted to that
element as `primary`, the remaining elements in order as `secondary`, and an empty
`custom`; the empty array is formatted to primary `'General'` and an empty
`secondary`. -/
theorem formatThemes_legacy_array (p : String) (rest : List JsVal) (hp : p ≠ "") :
    formatThemes (some (.arr (.str p :: rest) [])) =
      .obj [("primary", .str p), ("secondary", .arr rest []), ("custom", .arr [] [])] ∧
    formatThemes (some (.arr [] [])) =
      .obj [("primary", .str "General"), ("secondary", .arr [] []), ("custom", .arr [] [])] := by
  refine ⟨?_, rfl⟩
  simp [formatThemes, truthy, jsOr, hp, emptyArray]

/-- C7 (witness): the legacy array `["Economy", "Trade", "Policy"]`. -/
theorem formatThemes_legacy_array_witness :
    "Economy" ≠ "" ∧
    formatThemes (some (.arr [.str "Economy", .str "Trade", .str "Policy"] [])) =
      .obj [("primary", .str "Economy"), ("secondary", .arr [.str "Trade", .str "Policy"] []),
            ("custom", .arr [] [])] :=
  ⟨by decide, (formatThemes_legacy_array "Economy" [.str "Trade", .str "Policy"] (by decide)).1⟩

/-- C8: the legacy array `[p, ...s]` and the object `{ primary: p, secondary: s }` are
formatted to the same structure, for every value `p` and every list `s`. -/
theorem formatThemes_array_eq_object (p : JsVal) (s : List JsVal) :
    formatThemes (some (.arr (p :: s) [])) =
      formatThemes (some (.obj [("primary", p), ("secondary", .arr s [])])) :=
  rfl

/-! ## Claims on `create` -/

/-- C9 (counterexample): with `content` present as the empty string and a non-empty
`rawText`, the text worded by the claim is empty, yet the call answers 201 and
writes a corpus whose content is the `rawText`. -/
theorem create_empty_content_uses_rawText :
    claimedText [("content", .str ""), ("rawText", .str "The gig economy has grown.")]
      = some (.str "") ∧
    jsTrim "" = "" ∧
    (create ⟨1, 2, none, none, none⟩ ⟨[], []⟩ (some 7)
      [("content", .str ""), ("rawText", .str "The gig economy has grown.")]).status = 201 ∧
    (create ⟨1, 2, none, none, none⟩ ⟨[], []⟩ (some 7)
      [("content", .str ""), ("rawText", .str "The gig economy has grown.")]).writes =
      [.corpus ⟨1, buildCorpusData 7
        [("content", .str ""), ("rawText", .str "The gig economy has grown.")]⟩] ∧
    (buildCorpusData 7
        [("content", .str ""), ("rawText", .str "The gig economy has grown.")]).content
      = .str "The gig economy has grown." :=
  ⟨rfl, rfl, rfl, rfl, rfl⟩

/-- C9 (amended): with an authenticated owner, let the text be `content`, or `rawText`
when `content` is absent or falsy (the empty string in particular), or `''`.  If the
text is a string that is empty after trimming, the call answers 400, leaves the
store as it was and makes no write; if it is a string that is not empty after
trimming, the first write of the call is the corpus with exactly that text as
content; if it is not a string the call answers 500 without any write. -/
theorem create_text_content (env : StorageEnv) (store : Store) (userId : Nat)
    (body : Props) :
    (∀ s, textContent body = .str s → jsTrim s = "" →
      create env store (some userId) body =
        { status := 400, body := .error "文本内容不能为空", store := store, writes := [] }) ∧
    (∀ s, textContent body = .str s → jsTrim s ≠ "" →
      ∃ doc rest, (create env store (some userId) body).writes = .corpus doc :: rest ∧
        doc.data.content = .str s) ∧
    ((∀ s, textContent body ≠ .str s) →
      (create env store (some userId) body).status = 500 ∧
      (create env store (some userId) body).writes = [] ∧
      (create env store (some userId) body).store = store) := by
  refine ⟨?_, ?_, ?_⟩
  · intro s hs ht
    simp [create, hs, ht]
  · intro s hs ht
    have hc : (buildCorpusData userId body).content = .str s := hs
    unfold create
    simp only [hs, ht, if_false]
    cases env.corpusSave with
    | some m => exact ⟨_, _, rfl, hc⟩
    | none =>
        cases env.commit with
        | some m =>
            simp only [createFailed]
            split <;> exact ⟨_, _, rfl, hc⟩
        | none =>
            simp only
            split <;> exact ⟨_, _, rfl, hc⟩
  · intro hne
    unfold create
    cases hs : textContent body with
    | str s => exact absurd hs (hne s)
    | null => simp [createFailed]
    | bool b => simp [createFailed]
    | num n => simp [createFailed]
    | arr es ps => simp [createFailed]
    | obj ps => simp [createFailed]

/-- C9 (witness): a whitespace-only `content` is answered with 400 and no write,
whatever the storage layer would do. -/
theorem create_text_content_witness :
    textContent [("content", .str " \t\n")] = .str " \t\n" ∧
    jsTrim " \t\n" = "" ∧
    create acceptingEnv emptyStore (some 1) [("content", .str " \t\n")] =
      { status := 400, body := .error "文本内容不能为空", store := emptyStore, writes := [] } :=
  ⟨rfl, rfl,
    (create_text_content acceptingEnv emptyStore 1 [("content", .str " \t\n")]).1
      " \t\n" rfl rfl⟩

theorem field_formatThemes_primary (x : Option JsVal) :
    ∃ p, field (formatThemes x) "primary" = some p ∧ truthy p = true ∧
      (x = none → p = .str "General") := by
  have hg : truthy (.str "General") = true := by decide
  have key : ∀ a : Option JsVal, truthy (jsOr a (.str "General")) = true := by
    intro a
    rw [truthy_jsOr, hg, Bool.or_true]
  cases x with
  | none => exact ⟨_, rfl, hg, fun _ => rfl⟩
  | some t =>
      cases t with
      | null => exact ⟨_, rfl, hg, fun h => by cases h⟩
      | bool b => cases b <;> exact ⟨_, rfl, hg, fun h => by cases h⟩
      | num n =>
          by_cases hn : n = 0
          · subst hn
            exact ⟨_, rfl, hg, fun h => by cases h⟩
          · refine ⟨.str "General", ?_, hg, fun h => by cases h⟩
            simp [formatThemes, truthy, hn, defaultThemes, field, lookupProp]
      | str s =>
          by_cases hs : s = ""
          · subst hs
            exact ⟨_, rfl, hg, fun h => by cases h⟩
          · refine ⟨.str "General", ?_, hg, fun h => by cases h⟩
            simp [formatThemes, truthy, hs, defaultThemes, field, lookupProp]
      | arr es ps => exact ⟨_, rfl, key _, fun h => by cases h⟩
      | obj ps => exact ⟨_, rfl, key _, fun h => by cases h⟩

theorem field_formatThemes_secondary (x : Option JsVal) :
    ∃ es sp, field (formatThemes x) "secondary" = some (.arr es sp) := by
  cases x with
  | none => exact ⟨_, _, rfl⟩
  | some t =>
      cases t with
      | null => exact ⟨_, _, rfl⟩
      | bool b => cases b <;> exact ⟨_, _, rfl⟩
      | num n =>
          by_cases hn : n = 0
          · subst hn
            exact ⟨_, _, rfl⟩
          · refine ⟨[], [], ?_⟩
            simp [formatThemes, truthy, hn, defaultThemes, field, lookupProp, emptyArray]
      | str s =>
          by_cases hs : s = ""
          · subst hs
            exact ⟨_, _, rfl⟩
          · refine ⟨[], [], ?_⟩
            simp [formatThemes, truthy, hs, defaultThemes, field, lookupProp, emptyArray]
      | arr es ps => exact ⟨_, _, rfl⟩
      | obj ps =>
          cases h : lookupProp ps "secondary" with
          | none =>
              refine ⟨[], [], ?_⟩
              simp [formatThemes, truthy, field, lookupProp, h, emptyArray]
          | some v =>
              cases v <;>
                simp [formatThemes, truthy, field, lookupProp, h, emptyArray]

theorem arrayOrEmpty_truthy (x : Option JsVal) : truthy (arrayOrEmpty x) = true := by
  cases x with
  | none => rfl
  | some v => cases v <;> rfl

/-- The `save` calls of `create` once the corpus has been saved. -/
theorem create_writes (env : StorageEnv) (store : Store) (userId : Nat) (body : Props)
    (s : String) (hs : textContent body = .str s) (ht : jsTrim s ≠ "")
    (hsave : env.corpusSave = none) :
    (create env store (some userId) body).writes =
      match lookupProp body "opinion" with
      | none => [.corpus ⟨env.corpusId, buildCorpusData userId body⟩]
      | some o =>
          if truthy o && truthyOpt (coreContent o) then
            [.corpus ⟨env.corpusId, buildCorpusData userId body⟩,
             .opinion ⟨env.opinionId, buildOpinionData userId env.corpusId
               (buildCorpusData userId body) body o⟩]
          else [.corpus ⟨env.corpusId, buildCorpusData userId body⟩] := by
  unfold create
  simp only [hs, ht, if_false, hsave]
  cases env.commit <;> cases lookupProp body "opinion" with
  | none => rfl
  | some o => cases hc : (truthy o && truthyOpt (coreContent o)) <;> simp [hc, createFailed]

theorem truthyOpt_coreContent (o : JsVal) (h : truthyOpt (coreContent o) = true) :
    truthy o = true := by
  cases o <;> simp_all [coreContent, field, jsOrOpt, truthyOpt, truthy]

/-- C10: for a create request with an authenticated owner and a non-blank content,
once the corpus is saved, an opinion is written exactly when the body carries an
opinion with a truthy core viewpoint (`coreViewpoint`, else `core_viewpoint`); the
opinion written has that core viewpoint as content, the corpus entry's
`themes.primary` as theme (`'General'` when the body has no `themes`), the corpus
entry's `themes.secondary` as subThemes, the corpus tags as tags, the owner as
`userId` and the `_id` of the new corpus entry as `sourceId`; when the storage layer
accepts the writes and the commit, the call answers 201 and both documents are in
the store. -/
theorem create_opinion (env : StorageEnv) (store : Store) (userId : Nat) (body : Props)
    (s : String) (hs : textContent body = .str s) (ht : jsTrim s ≠ "")
    (hsave : env.corpusSave = none) :
    ((∃ d, Write.opinion d ∈ (create env store (some userId) body).writes) ↔
      (∃ o, lookupProp body "opinion" = some o ∧ truthyOpt (coreContent o) = true)) ∧
    (∀ d, Write.opinion d ∈ (create env store (some userId) body).writes →
      (∃ o cv, lookupProp body "opinion" = some o ∧ coreContent o = some cv ∧
        truthy cv = true ∧ d.data.content = some cv) ∧
      some d.data.theme = field (buildCorpusData userId body).themes "primary" ∧
      (lookupProp body "themes" = none → d.data.theme = .str "General") ∧
      some d.data.subThemes = field (buildCorpusData userId body).themes "secondary" ∧
      d.data.tags = (buildCorpusData userId body).tags ∧
      d.data.userId = userId ∧
      d.data.sourceId = env.corpusId ∧
      (env.opinionSave = none → env.commit = none →
        (create env store (some userId) body).store.opinions = store.opinions ++ [d])) ∧
    Write.corpus ⟨env.corpusId, buildCorpusData userId body⟩ ∈
      (create env store (some userId) body).writes ∧
    (env.commit = none →
      (create env store (some userId) body).status = 201 ∧
      (create env store (some userId) body).store.corpora =
        store.corpora ++ [⟨env.corpusId, buildCorpusData userId body⟩]) := by
  have hw := create_writes env store userId body s hs ht hsave
  have hstore : env.commit = none →
      (create env store (some userId) body).status = 201 ∧
      (create env store (some userId) body).store.corpora =
        store.corpora ++ [⟨env.corpusId, buildCorpusData userId body⟩] := by
    intro hc
    unfold create
    simp only [hs, ht, if_false, hsave, hc]
    exact ⟨trivial, trivial⟩
  cases ho : lookupProp body "opinion" with
  | none =>
      rw [ho] at hw
      simp only at hw
      refine ⟨?_, ?_, ?_, hstore⟩
      · rw [hw]
        simp
      · intro d hd
        rw [hw] at hd
        simp at hd
      · rw [hw]
        simp
  | some o =>
      rw [ho] at hw
      simp only at hw
      cases hc : (truthy o && truthyOpt (coreContent o)) with
      | false =>
          rw [hc] at hw
          simp only [Bool.false_eq_true, if_false] at hw
          refine ⟨?_, ?_, ?_, hstore⟩
          · rw [hw]
            have hcore : truthyOpt (coreContent o) = false := by
              cases hco : truthyOpt (coreContent o)
              · rfl
              · rw [truthyOpt_coreContent o hco, hco] at hc
                cases hc
            simp [hcore]
          · intro d hd
            rw [hw] at hd
            simp at hd
          · rw [hw]
            simp
      | true =>
          rw [hc] at hw
          simp only [if_true] at hw
          have hcore : truthyOpt (coreContent o) = true := by
            simp only [Bool.and_eq_true] at hc
            exact hc.2
          refine ⟨?_, ?_, ?_, hstore⟩
          · rw [hw]
            constructor
            · intro _
              exact ⟨o, rfl, hcore⟩
            · intro _
              exact ⟨⟨env.opinionId, buildOpinionData userId env.corpusId
                (buildCorpusData userId body) body o⟩, by simp⟩
          · intro d hd
            rw [hw] at hd
            simp only [List.mem_cons, List.mem_singleton, Write.opinion.injEq,
              List.not_mem_nil, or_false, false_or] at hd
            have hd2 : d = ⟨env.opinionId, buildOpinionData userId env.corpusId
               (buildCorpusData userId body) body o⟩ := by
              rcases hd with hd | hd
              · cases hd
              · exact hd
            subst hd2
            obtain ⟨p, hp, hpt, hpg⟩ := field_formatThemes_primary (lookupProp body "themes")
            obtain ⟨es, sp, hsec⟩ := field_formatThemes_secondary (lookupProp body "themes")
            have htheme : jsOr (field (buildCorpusData userId body).themes "primary")
                (.str "General") = p := by
              show jsOr (field (formatThemes (lookupProp body "themes")) "primary") _ = p
              rw [hp]
              simp [jsOr, hpt]
            refine ⟨?_, ?_, ?_, ?_, ?_, rfl, rfl, ?_⟩
            · cases hcc : coreContent o with
              | none => rw [hcc] at hcore; cases hcore
              | some cv =>
                  rw [hcc] at hcore
                  exact ⟨o, cv, rfl, hcc, hcore, hcc⟩
            · show some (jsOr (field (buildCorpusData userId body).themes "primary")
                (.str "General")) = field (formatThemes (lookupProp body "themes")) "primary"
              rw [htheme, hp]
            · intro hnone
              show jsOr (field (buildCorpusData userId body).themes "primary")
                (.str "General") = .str "General"
              rw [htheme]
              exact hpg hnone
            · show some (jsOr (field (formatThemes (lookupProp body "themes")) "secondary")
                emptyArray) = field (formatThemes (lookupProp body "themes")) "secondary"
              rw [hsec]
              simp [jsOr, truthy]
            · show jsOr (some (arrayOrEmpty (lookupProp body "tags"))) emptyArray =
                arrayOrEmpty (lookupProp body "tags")
              simp [jsOr, arrayOrEmpty_truthy]
            · intro hos hcm
              unfold create
              simp only [hs, ht, if_false, hsave, hcm, ho, hc, hos, if_true]
          · rw [hw]
            simp

/-- C10 (witness): the scenario of content "The gig economy has grown." with the
core viewpoint "Flexibility trades off against stability.", for owner 1. -/
theorem create_opinion_witness :
    textContent gigBody = .str "The gig economy has grown." ∧
    jsTrim "The gig economy has grown." ≠ "" ∧
    acceptingEnv.corpusSave = none ∧
    (create acceptingEnv emptyStore (some 1) gigBody).writes =
      [.corpus ⟨101, buildCorpusData 1 gigBody⟩,
       .opinion ⟨202, buildOpinionData 1 101 (buildCorpusData 1 gigBody) gigBody
         (.obj [("coreViewpoint", .str "Flexibility trades off against stability.")])⟩] ∧
    (buildCorpusData 1 gigBody).content = .str "The gig economy has grown." ∧
    field (buildCorpusData 1 gigBody).themes "primary" = some (.str "General") ∧
    (∀ d, Write.opinion d ∈ (create acceptingEnv emptyStore (some 1) gigBody).writes →
      d.data.content = some (.str "Flexibility trades off against stability.") ∧
      d.data.theme = .str "General" ∧
      d.data.sourceId = 101 ∧
      (create acceptingEnv emptyStore (some 1) gigBody).store.opinions = [d]) := by
  have h := create_opinion acceptingEnv emptyStore 1 gigBody "The gig economy has grown."
    rfl (by decide) rfl
  refine ⟨rfl, by decide, rfl, rfl, rfl, rfl, ?_⟩
  intro d hd
  obtain ⟨⟨o, cv, ho, hcv, -, hcont⟩, -, hgen, -, -, -, hsrc, hst⟩ := h.2.1 d hd
  refine ⟨?_, hgen rfl, hsrc, hst rfl rfl⟩
  have ho2 : o = .obj [("coreViewpoint", .str "Flexibility trades off against stability.")] := by
    have : lookupProp gigBody "opinion" =
        some (.obj [("coreViewpoint", .str "Flexibility trades off against stability.")]) := rfl
    rw [this] at ho
    exact (Option.some.inj ho).symm
  subst ho2
  rw [hcont, ← hcv]
  rfl

/-! ## Claims on the failure paths of `create` -/

theorem find?_map_doc (rs : List CorpusRecord) (p : CorpusDoc → Bool) :
    (rs.find? fun r => p r.doc).map (fun r => r.doc) = (rs.map fun r => r.doc).find? p := by
  induction rs with
  | nil => rfl
  | cons r rest ih =>
      cases h : p r.doc <;> simp [List.find?, h, ih]

theorem find?_append_fresh (ds : List CorpusDoc) (d : CorpusDoc) (p : CorpusDoc → Bool)
    (hds : ∀ x ∈ ds, p x = false) (hd : p d = true) :
    (ds ++ [d]).find? p = some d := by
  induction ds with
  | nil => simp [List.find?, hd]
  | cons x rest ih =>
      have hx : p x = false := hds x (List.mem_cons_self _ _)
      have hrest : ∀ y ∈ rest, p y = false := fun y hy => hds y (List.mem_cons_of_mem _ hy)
      simp [List.find?, hx, ih hrest]

/-- C11: in a create whose corpus save fulfils and whose opinion save is rejected,
with a fulfilled commit, the call answers 201 with the corpus entry and no error,
the corpus entry is in the store while no opinion is added, and a later `getOne`
for the new `_id` by the owner answers 200 with that entry. -/
theorem create_opinion_failure_kept (env : StorageEnv) (store : Store) (userId : Nat)
    (body : Props) (s message : String)
    (hs : textContent body = .str s) (ht : jsTrim s ≠ "")
    (hsave : env.corpusSave = none) (hop : env.opinionSave = some message)
    (hcommit : env.commit = none)
    (hfresh : ∀ d ∈ store.corpora, d._id ≠ env.corpusId) :
    (create env store (some userId) body).status = 201 ∧
    (create env store (some userId) body).body =
      .corpus ⟨env.corpusId, buildCorpusData userId body⟩ ∧
    (create env store (some userId) body).store.corpora =
      store.corpora ++ [⟨env.corpusId, buildCorpusData userId body⟩] ∧
    (create env store (some userId) body).store.opinions = store.opinions ∧
    (∀ db : Database, db.store = (create env store (some userId) body).store →
      ∃ r, corpusController.getOne db (some userId) (some env.corpusId) =
          { status := 200, payload := .corpus r } ∧
        r.doc = ⟨env.corpusId, buildCorpusData userId body⟩) := by
  have hout : create env store (some userId) body =
      { status := 201, body := .corpus ⟨env.corpusId, buildCorpusData userId body⟩,
        store := { corpora := store.corpora ++ [⟨env.corpusId, buildCorpusData userId body⟩],
                   opinions := store.opinions },
        writes := (create env store (some userId) body).writes } := by
    unfold create
    simp only [hs, ht, if_false, hsave, hcommit, hop]
    cases lookupProp body "opinion" with
    | none => simp
    | some o => cases hc : (truthy o && truthyOpt (coreContent o)) <;> simp [hc]
  refine ⟨by rw [hout], by rw [hout], by rw [hout], by rw [hout], ?_⟩
  intro db hdb
  rw [hout] at hdb
  have hcor : (db.corpora.map fun r => r.doc) =
      store.corpora ++ [⟨env.corpusId, buildCorpusData userId body⟩] := by
    have := congrArg Store.corpora hdb
    simpa [Database.store] using this
  have hfind := find?_map_doc db.corpora
    (fun d => d._id == env.corpusId && d.data.userId == userId)
  rw [hcor, find?_append_fresh] at hfind
  · cases hf : findCorpus db env.corpusId userId with
    | none =>
        unfold findCorpus at hf
        rw [hf] at hfind
        cases hfind
    | some r =>
        unfold findCorpus at hf
        rw [hf] at hfind
        refine ⟨r, ?_, ?_⟩
        · simp [corpusController.getOne, findCorpus, hf]
        · simpa using hfind
  · intro x hx
    have := hfresh x hx
    simp [this]
  · simp [buildCorpusData]

/-- C11 (witness): the scenario body with a storage layer rejecting the opinion
save. -/
theorem create_opinion_failure_kept_witness :
    textContent gigBody = .str "The gig economy has grown." ∧
    jsTrim "The gig economy has grown." ≠ "" ∧
    opinionRejectingEnv.corpusSave = none ∧
    opinionRejectingEnv.opinionSave = some "Opinion validation failed" ∧
    opinionRejectingEnv.commit = none ∧
    (∀ d ∈ emptyStore.corpora, d._id ≠ opinionRejectingEnv.corpusId) ∧
    (create opinionRejectingEnv emptyStore (some 1) gigBody).status = 201 ∧
    (create opinionRejectingEnv emptyStore (some 1) gigBody).writes.length = 2 ∧
    (create opinionRejectingEnv emptyStore (some 1) gigBody).store.opinions = [] ∧
    (create opinionRejectingEnv emptyStore (some 1) gigBody).store.corpora =
      [⟨101, buildCorpusData 1 gigBody⟩] :=
  have hfresh : ∀ d ∈ emptyStore.corpora, d._id ≠ opinionRejectingEnv.corpusId :=
    fun d hd => by cases hd
  have h := create_opinion_failure_kept opinionRejectingEnv emptyStore 1 gigBody
    "The gig economy has grown." "Opinion validation failed" rfl (by decide) rfl rfl rfl hfresh
  ⟨rfl, by decide, rfl, rfl, rfl, hfresh, h.1, rfl, h.2.2.2.1, h.2.2.1⟩

/-- C12: in a create whose corpus save is rejected, the only `save` call is the one
of the corpus (no opinion write is attempted), the call answers 500 with the
message of the rejection, and the store is the one before the call, so that it
holds neither an entry with the would-be `_id` nor an opinion whose `sourceId` is
that `_id` unless it did before. -/
theorem create_corpus_failure (env : StorageEnv) (store : Store) (userId : Nat)
    (body : Props) (s message : String)
    (hs : textContent body = .str s) (ht : jsTrim s ≠ "")
    (hsave : env.corpusSave = some message) :
    (create env store (some userId) body).status = 500 ∧
    (create env store (some userId) body).body = .error ("保存失败: " ++ message) ∧
    (create env store (some userId) body).writes =
      [.corpus ⟨env.corpusId, buildCorpusData userId body⟩] ∧
    (∀ d, Write.opinion d ∉ (create env store (some userId) body).writes) ∧
    (create env store (some userId) body).store = store ∧
    ((∀ d ∈ store.corpora, d._id ≠ env.corpusId) →
      ∀ d ∈ (create env store (some userId) body).store.corpora, d._id ≠ env.corpusId) ∧
    ((∀ o ∈ store.opinions, o.data.sourceId ≠ env.corpusId) →
      ∀ o ∈ (create env store (some userId) body).store.opinions,
        o.data.sourceId ≠ env.corpusId) := by
  have hout : create env store (some userId) body =
      createFailed store [.corpus ⟨env.corpusId, buildCorpusData userId body⟩] message := by
    unfold create
    simp only [hs, ht, if_false, hsave]
  rw [hout]
  refine ⟨rfl, rfl, rfl, ?_, rfl, fun h => h, fun h => h⟩
  intro d hd
  simp [createFailed] at hd

/-- C12 (witness): the scenario body with a storage layer rejecting the corpus
save. -/
theorem create_corpus_failure_witness :
    textContent gigBody = .str "The gig economy has grown." ∧
    jsTrim "The gig economy has grown." ≠ "" ∧
    corpusRejectingEnv.corpusSave = some "Corpus validation failed" ∧
    (create corpusRejectingEnv emptyStore (some 1) gigBody).status = 500 ∧
    (create corpusRejectingEnv emptyStore (some 1) gigBody).store = emptyStore ∧
    (∀ d, Write.opinion d ∉ (create corpusRejectingEnv emptyStore (some 1) gigBody).writes) :=
  have h := create_corpus_failure corpusRejectingEnv emptyStore 1 gigBody
    "The gig economy has grown." "Corpus validation failed" rfl (by decide) rfl
  ⟨rfl, by decide, rfl, h.1, h.2.2.2.2.1, h.2.2.2.1⟩

/-! ## Claims on the requests without owner identity -/

/-- The guard of `create` itself (lines 56-58 of `corpusController.js`): called
without `req.user`, the handler throws into its `catch` block, which answers 500 with
the `保存失败` message and makes no write, whereas the guards of `list`, `getOne`,
`update` and `delete` answer 401.  Behind `auth` the handler is not called without
`req.user` (see `postCorpus`). -/
theorem create_guard_is_500 (env : StorageEnv) (store : Store) (body : Props) :
    create env store none body = createFailed store [] "User not authenticated" ∧
    (create env store none body).status = 500 ∧
    (create env store none body).body = .error "保存失败: User not authenticated" ∧
    (create env store none body).writes = [] ∧
    (create corpusRejectingEnv emptyStore (some 1) gigBody).status = 500 ∧
    (∀ regex bigSkip db query,
      (corpusController.list regex bigSkip db none query).status = 401) ∧
    (∀ db id, (corpusController.getOne db none id).status = 401) ∧
    (∀ schema save now db id payload,
      (corpusController.update schema save now db none id payload).1.status = 401) ∧
    (∀ denv db id, (corpusController.delete denv db none id).1.status = 401) :=
  ⟨rfl, rfl, rfl, rfl, rfl, fun _ _ _ _ => rfl, fun _ _ => rfl, fun _ _ _ _ _ _ => rfl,
    fun _ _ _ => rfl⟩

/-- The requests that `auth` lets through. -/
theorem auth_ok_iff (aenv : AuthEnv) (authorization : Option String) (user : Nat) :
    auth aenv authorization = .ok user ↔
      ∃ authHeader decoded userId,
        authorization = some authHeader ∧ authHeader ≠ "" ∧
        aenv.verify (bearerToken authHeader) = .ok decoded ∧
        jsOrOpt (jsOrOpt (field decoded "_id") (field decoded "userId"))
          (field decoded "id") = some userId ∧
        truthy userId = true ∧ aenv.findUser userId = .ok (some user) := by
  unfold auth
  cases authorization with
  | none => simp
  | some authHeader =>
      by_cases he : authHeader = ""
      · simp [he]
      · simp only [he, if_false, Option.some.injEq, ne_eq, exists_and_left, exists_eq_left',
          not_false_eq_true, true_and]
        cases hv : aenv.verify (bearerToken authHeader) with
        | error e => cases e <;> simp
        | ok decoded =>
            simp only [Except.ok.injEq, exists_eq_left']
            cases hid : jsOrOpt (jsOrOpt (field decoded "_id") (field decoded "userId"))
                (field decoded "id") with
            | none => simp
            | some userId =>
                simp only [Option.some.injEq, exists_eq_left']
                by_cases ht : truthy userId = true
                · simp only [ht, if_true, true_and]
                  cases hf : aenv.findUser userId with
                  | error m => simp
                  | ok found =>
                      cases found with
                      | none => simp
                      | some u => simp
                · simp [ht]

/-- The messages of the 401 responses of `auth`. -/
theorem auth_error_cases (aenv : AuthEnv) (authorization : Option String) (message : String)
    (h : auth aenv authorization = .error message) :
    message = "未提供认证令牌" ∨ message = "Token无效，请重新登录" ∨
    message = "Token已过期，请重新登录" ∨ message = "认证失败，请重新登录" := by
  unfold auth at h
  cases authorization with
  | none =>
      simp only [Except.error.injEq] at h
      exact Or.inl h.symm
  | some authHeader =>
      by_cases he : authHeader = ""
      · simp only [he, if_true, Except.error.injEq] at h
        exact Or.inl h.symm
      · simp only [he, if_false] at h
        cases hv : aenv.verify (bearerToken authHeader) with
        | error e =>
            rw [hv] at h
            cases e
            · simp only [Except.error.injEq] at h
              exact Or.inr (Or.inl h.symm)
            · simp only [Except.error.injEq] at h
              exact Or.inr (Or.inr (Or.inl h.symm))
            · simp only [Except.error.injEq] at h
              exact Or.inr (Or.inr (Or.inr h.symm))
        | ok decoded =>
            rw [hv] at h
            simp only at h
            cases hid : jsOrOpt (jsOrOpt (field decoded "_id") (field decoded "userId"))
                (field decoded "id") with
            | none =>
                rw [hid] at h
                simp only [Except.error.injEq] at h
                exact Or.inr (Or.inr (Or.inr h.symm))
            | some userId =>
                rw [hid] at h
                simp only at h
                by_cases ht : truthy userId = true
                · simp only [ht, if_true] at h
                  cases hf : aenv.findUser userId with
                  | error m =>
                      rw [hf] at h
                      simp only [Except.error.injEq] at h
                      exact Or.inr (Or.inr (Or.inr h.symm))
                  | ok found =>
                      rw [hf] at h
                      cases found with
                      | none =>
                          simp only [Except.error.injEq] at h
                          exact Or.inr (Or.inr (Or.inr h.symm))
                      | some u => simp at h
                · simp only [ht, Bool.false_eq_true, if_false, Except.error.injEq] at h
                  exact Or.inr (Or.inr (Or.inr h.symm))

/-- C13: every request to `POST /api/corpus` either carries an owner identity (an
`Authorization` header whose token verifies, names a user id and whose user is
found), and then `create` runs for that user, or it is answered 401 with one of the
four messages of `auth`, without a write and with the store unchanged; the same
request to the routes of `list`, `getOne`, `update` and `delete` is answered with
the same 401 and leaves the database unchanged.  The answer to a rejected corpus
save is another one: 500.  In particular a request with no header, with a token that
does not verify, with a payload that names no user, or whose user is not found, is
answered 401. -/
theorem create_unauthenticated_is_401 (aenv : AuthEnv) (env : StorageEnv) (store : Store)
    (authorization : Option String) (body : Props) :
    ((∃ user authHeader decoded userId,
        authorization = some authHeader ∧ authHeader ≠ "" ∧
        aenv.verify (bearerToken authHeader) = .ok decoded ∧
        jsOrOpt (jsOrOpt (field decoded "_id") (field decoded "userId"))
          (field decoded "id") = some userId ∧
        truthy userId = true ∧ aenv.findUser userId = .ok (some user) ∧
        postCorpus aenv env store authorization body = create env store (some user) body) ∨
      (∃ message,
        (message = "未提供认证令牌" ∨ message = "Token无效，请重新登录" ∨
          message = "Token已过期，请重新登录" ∨ message = "认证失败，请重新登录") ∧
        postCorpus aenv env store authorization body =
          { status := 401, body := .error message, store := store, writes := [] } ∧
        (∀ regex bigSkip db query,
          getCorpusList aenv regex bigSkip db authorization query =
            { status := 401, payload := .error message }) ∧
        (∀ db id, getCorpus aenv db authorization id =
          { status := 401, payload := .error message }) ∧
        (∀ schema save now db id payload,
          putCorpus aenv schema save now db authorization id payload =
            ({ status := 401, payload := .error message }, db)) ∧
        (∀ denv db id, deleteCorpus aenv denv db authorization id =
          ({ status := 401, payload := .error message }, db)))) ∧
    (∀ writes message reason,
      (createFailed store writes message).status = 500 ∧
      ({ status := 401, body := .error reason, store := store, writes := [] } : Outcome) ≠
        createFailed store writes message) ∧
    (authorization = none →
      postCorpus aenv env store authorization body =
        { status := 401, body := .error "未提供认证令牌", store := store, writes := [] }) ∧
    (∀ authHeader, authorization = some authHeader → authHeader ≠ "" →
      (∀ decoded, aenv.verify (bearerToken authHeader) ≠ .ok decoded) →
      (postCorpus aenv env store authorization body).status = 401 ∧
      (postCorpus aenv env store authorization body).writes = [] ∧
      (postCorpus aenv env store authorization body).store = store) ∧
    (∀ authHeader decoded, authorization = some authHeader → authHeader ≠ "" →
      aenv.verify (bearerToken authHeader) = .ok decoded →
      (∀ userId,
        jsOrOpt (jsOrOpt (field decoded "_id") (field decoded "userId"))
          (field decoded "id") = some userId →
        truthy userId = true → ∀ user, aenv.findUser userId ≠ .ok (some user)) →
      postCorpus aenv env store authorization body =
        { status := 401, body := .error "认证失败，请重新登录", store := store
          writes := [] }) := by
  have hcases : (∃ user, auth aenv authorization = .ok user) ∨
      ∃ message, auth aenv authorization = .error message := by
    cases h : auth aenv authorization with
    | ok user => exact Or.inl ⟨user, rfl⟩
    | error message => exact Or.inr ⟨message, rfl⟩
  have hrej : ∀ message, auth aenv authorization = .error message →
      postCorpus aenv env store authorization body =
        { status := 401, body := .error message, store := store, writes := [] } := by
    intro message h
    simp only [postCorpus, behindAuth, h]
  refine ⟨?_, ?_, ?_, ?_, ?_⟩
  · rcases hcases with ⟨user, h⟩ | ⟨message, h⟩
    · left
      obtain ⟨authHeader, decoded, userId, h1, h2, h3, h4, h5, h6⟩ :=
        (auth_ok_iff aenv authorization user).mp h
      exact ⟨user, authHeader, decoded, userId, h1, h2, h3, h4, h5, h6,
        by simp only [postCorpus, behindAuth, h]⟩
    · right
      refine ⟨message, auth_error_cases aenv authorization message h, hrej message h,
        ?_, ?_, ?_, ?_⟩
      · intro regex bigSkip db query
        simp only [getCorpusList, behindAuth, h]
      · intro db id
        simp only [getCorpus, behindAuth, h]
      · intro schema save now db id payload
        simp only [putCorpus, behindAuth, h]
      · intro denv db id
        simp only [deleteCorpus, behindAuth, h]
  · intro writes message reason
    refine ⟨rfl, ?_⟩
    intro h
    have hs := congrArg Outcome.status h
    simp [createFailed] at hs
  · intro hn
    apply hrej
    rw [hn]
    rfl
  · intro authHeader ha he hv
    cases h : auth aenv authorization with
    | ok user =>
        obtain ⟨authHeader', decoded, userId, h1, _, h3, _⟩ :=
          (auth_ok_iff aenv authorization user).mp h
        rw [ha] at h1
        cases h1
        exact absurd h3 (hv decoded)
    | error message =>
        rw [hrej message h]
        exact ⟨rfl, rfl, rfl⟩
  · intro authHeader decoded ha he hv hno
    apply hrej
    rw [ha]
    unfold auth
    simp only [he, if_false, hv]
    cases hid : jsOrOpt (jsOrOpt (field decoded "_id") (field decoded "userId"))
        (field decoded "id") with
    | none => rfl
    | some userId =>
        simp only
        by_cases ht : truthy userId = true
        · simp only [ht, if_true]
          cases hf : aenv.findUser userId with
          | error m => rfl
          | ok found =>
              cases found with
              | none => rfl
              | some u => exact absurd hf (hno userId hid ht u)
        · simp only [ht, Bool.false_eq_true, if_false]

/-- C13 (witness): a request with no `Authorization` header and a request whose token
is refused are answered 401 and write nothing; the token `t1` of user 1 lets the
create run, which answers 201. -/
theorem create_unauthenticated_is_401_witness :
    postCorpus refusingAuth acceptingEnv emptyStore none gigBody =
      { status := 401, body := .error "未提供认证令牌", store := emptyStore, writes := [] } ∧
    (postCorpus refusingAuth acceptingEnv emptyStore (some "Bearer abc") gigBody).status
      = 401 ∧
    (postCorpus refusingAuth acceptingEnv emptyStore (some "Bearer abc") gigBody).writes
      = [] ∧
    bearerToken "Bearer t1" = "t1" ∧
    (postCorpus knownUserAuth acceptingEnv emptyStore (some "Bearer t1") gigBody).status
      = 201 :=
  ⟨(create_unauthenticated_is_401 refusingAuth acceptingEnv emptyStore none gigBody).2.2.1 rfl,
    ((create_unauthenticated_is_401 refusingAuth acceptingEnv emptyStore (some "Bearer abc")
      gigBody).2.2.2.1 "Bearer abc" rfl (by decide) (fun _ h => by cases h)).1,
    ((create_unauthenticated_is_401 refusingAuth acceptingEnv emptyStore (some "Bearer abc")
      gigBody).2.2.2.1 "Bearer abc" rfl (by decide) (fun _ h => by cases h)).2.1,
    by decide, rfl⟩

/-! ## Numbers of the list handlers -/

theorem roundNat_lt (n : Nat) (h : n < 2 ^ 53) : roundNat n = some n := by
  rw [roundNat, if_pos h]

theorem roundTo_ge (e n : Nat) : n / 2 ^ e * 2 ^ e ≤ roundTo e n := by
  unfold roundTo
  split
  · exact Nat.mul_le_mul_right _ (Nat.le_succ _)
  · exact le_refl _

theorem roundNat_ge (n m : Nat) (h : 2 ^ 53 ≤ n) (hm : roundNat n = some m) :
    2 ^ 53 ≤ m := by
  unfold roundNat at hm
  have h1 : ¬ n < 2 ^ 53 := by omega
  rw [if_neg h1] at hm
  split at hm
  · cases hm
  · have hn0 : n ≠ 0 := by
      intro h0
      rw [h0] at h
      exact absurd h (by norm_num)
    have hlog : 53 ≤ n.log2 := (Nat.le_log2 hn0).mpr h
    have hpow : 2 ^ n.log2 ≤ n := Nat.log2_self_le hn0
    have hq : 2 ^ 52 ≤ n / 2 ^ (n.log2 - 52) := by
      rw [Nat.le_div_iff_mul_le (Nat.pos_pow_of_pos _ (by norm_num))]
      calc 2 ^ 52 * 2 ^ (n.log2 - 52) = 2 ^ (52 + (n.log2 - 52)) := (pow_add 2 52 _).symm
        _ = 2 ^ n.log2 := by congr 1; omega
        _ ≤ n := hpow
    have h2e : 2 ≤ 2 ^ (n.log2 - 52) := by
      calc 2 = 2 ^ 1 := rfl
        _ ≤ 2 ^ (n.log2 - 52) := Nat.pow_le_pow_right (by norm_num) (by omega)
    simp only [Option.some.injEq] at hm
    rw [← hm]
    calc 2 ^ 53 = 2 ^ 52 * 2 := by norm_num
      _ ≤ n / 2 ^ (n.log2 - 52) * 2 ^ (n.log2 - 52) := Nat.mul_le_mul hq h2e
      _ ≤ roundTo (n.log2 - 52) n := roundTo_ge _ _

/-- An integer from 0 to `2 ^ 53 - 1` is a number. -/
theorem ofInt_exact (z : Int) (h0 : 0 ≤ z) (h : z < 2 ^ 53) : Num.ofInt z = .int z := by
  cases z with
  | ofNat n =>
      have hn : n < 2 ^ 53 := by
        rw [Int.ofNat_eq_coe] at h
        exact_mod_cast h
      simp only [Num.ofInt, roundNat_lt n hn]
      rfl
  | negSucc n => exact absurd h0 (by simp)

/-- The number value of a non-negative integer is not negative, and is not below
`2 ^ 53` when the integer is not. -/
theorem ofInt_nonneg (z : Int) (h0 : 0 ≤ z) :
    Num.ofInt z = .posInf ∨
      ∃ m : Int, Num.ofInt z = .int m ∧ 0 ≤ m ∧ ((2 : Int) ^ 53 ≤ z → (2 : Int) ^ 53 ≤ m) := by
  cases z with
  | ofNat n =>
      cases hr : roundNat n with
      | none => left; simp only [Num.ofInt, hr]
      | some m =>
          right
          refine ⟨(m : Int), by simp only [Num.ofInt, hr], Int.natCast_nonneg m, ?_⟩
          intro hz
          have hn : 2 ^ 53 ≤ n := by
            rw [Int.ofNat_eq_coe] at hz
            exact_mod_cast hz
          have := roundNat_ge n m hn hr
          exact_mod_cast this
  | negSucc n => exact absurd h0 (by simp)

theorem listLimit_bounds (limit : Option String) :
    1 ≤ listLimit limit ∧ listLimit limit ≤ 100 := by
  unfold listLimit clampLimit
  split
  · exact ⟨le_refl _, by norm_num⟩
  · exact ⟨le_min (by norm_num) (le_max_left _ _), min_le_left _ _⟩
  · exact ⟨by norm_num, le_refl _⟩

theorem numOr_cases (n : Option Num) (d : Int) (hd : d ≠ 0) :
    numOr n d = .negInf ∨ numOr n d = .posInf ∨ ∃ v : Int, numOr n d = .int v ∧ v ≠ 0 := by
  cases n with
  | none => exact Or.inr (Or.inr ⟨d, rfl, hd⟩)
  | some x =>
      cases x with
      | negInf => exact Or.inl rfl
      | posInf => exact Or.inr (Or.inl rfl)
      | int v =>
          by_cases hv : v = 0
          · exact Or.inr (Or.inr ⟨d, by simp [numOr, hv], hd⟩)
          · exact Or.inr (Or.inr ⟨v, by simp [numOr, hv], hv⟩)

/-- The effective page is `Infinity` or an integer that is at least 1. -/
theorem listPage_cases (page : Option String) :
    listPage page = .posInf ∨ ∃ p : Int, listPage page = .int p ∧ 1 ≤ p := by
  unfold listPage
  rcases numOr_cases (parseInt page) 1 (by norm_num) with h | h | ⟨v, h, _⟩
  · rw [h]; exact Or.inr ⟨1, rfl, le_refl _⟩
  · rw [h]; exact Or.inl rfl
  · rw [h]; exact Or.inr ⟨max 1 v, rfl, le_max_left _ _⟩

theorem listPage_posInf_iff (page : Option String) :
    listPage page = .posInf ↔ parseInt page = some .posInf := by
  unfold listPage
  cases hp : parseInt page with
  | none => simp [numOr, maxOne]
  | some x =>
      cases x with
      | negInf => simp [numOr, maxOne]
      | posInf => simp [numOr, maxOne]
      | int v => by_cases hv : v = 0 <;> simp [numOr, maxOne, hv]

theorem listPage_of_int (page : Option String) (n : Int)
    (h : parseInt page = some (.int n)) :
    listPage page = .int (if n ≤ 0 then 1 else n) := by
  unfold listPage
  rw [h]
  by_cases h0 : n = 0
  · simp [numOr, maxOne, h0]
  · by_cases hle : n ≤ 0
    · simp only [numOr, h0, if_false, maxOne, hle, if_true]
      congr 1
      omega
    · simp only [numOr, h0, if_false, maxOne, hle]
      congr 1
      omega

/-- The skip offset is `Infinity` or an integer that is not negative. -/
theorem listSkip_cases (page limit : Option String) :
    listSkip page limit = some .posInf ∨
      ∃ k : Int, listSkip page limit = some (.int k) ∧ 0 ≤ k := by
  obtain ⟨hl1, _⟩ := listLimit_bounds limit
  have hl0 : 0 < listLimit limit := by omega
  unfold listSkip
  rcases listPage_cases page with h | ⟨p, h, hp⟩
  · left
    rw [h]
    simp [Num.pred, Num.mulInt, hl0]
  · rw [h]
    simp only [Num.pred]
    rcases ofInt_nonneg (p - 1) (by omega) with h1 | ⟨d, h1, hd, _⟩
    · left
      rw [h1]
      simp [Num.mulInt, hl0]
    · rw [h1]
      simp only [Num.mulInt]
      rcases ofInt_nonneg (d * listLimit limit) (Int.mul_nonneg hd (by omega))
        with h2 | ⟨k, h2, hk, _⟩
      · left; rw [h2]
      · right; exact ⟨k, by rw [h2], hk⟩

/-- Below `2 ^ 53` the skip offset is computed exactly. -/
theorem listSkip_exact (page limit : Option String) (p : Int)
    (hp : listPage page = .int p) (h : (p - 1) * listLimit limit < 2 ^ 53) :
    1 ≤ p ∧ listSkip page limit = some (.int ((p - 1) * listLimit limit)) := by
  obtain ⟨hl1, _⟩ := listLimit_bounds limit
  have hp1 : 1 ≤ p := by
    rcases listPage_cases page with h' | ⟨q, h', hq⟩
    · rw [hp] at h'; cases h'
    · rw [hp] at h'
      cases h'
      exact hq
  refine ⟨hp1, ?_⟩
  have hle : p - 1 ≤ (p - 1) * listLimit limit := by
    have := Int.mul_le_mul_of_nonneg_left hl1 (show 0 ≤ p - 1 by omega)
    simpa using this
  unfold listSkip
  rw [hp]
  simp only [Num.pred]
  rw [ofInt_exact (p - 1) (by omega) (by omega)]
  simp only [Num.mulInt]
  rw [ofInt_exact _ (Int.mul_nonneg (by omega) (by omega)) h]

theorem storeSkip_exact {α : Type} (bigSkip : Option String) (k : Int) (l : List α)
    (h0 : 0 ≤ k) (h : k < 2 ^ 53) :
    storeSkip bigSkip (some (.int k)) l = .ok (l.drop k.toNat) := by
  have h63 : k < 2 ^ 63 := lt_trans h (by norm_num)
  simp only [storeSkip, h0, h63, and_self, if_true]


/-! ## Claims on paging -/

/-- C14: a request with `limit=0` is listed with an effective limit of 20, in the
corpus list and in the opinion list: `parseInt('0')` is `0`, which `|| 20` replaces
before `Math.max(1, ...)` is applied. -/
theorem listLimit_zero_is_20 :
    parseInt (some "0") = some 0 ∧
    listLimit (some "0") = 20 ∧
    listLimit (some "0") ≠ 1 ∧
    listLimit (some "-1") = 1 ∧
    (∀ regex bigSkip, corpusController.list regex bigSkip emptyDatabase (some 1)
        { page := none, limit := some "0", theme := none, search := none } =
      { status := 200
        payload := .corpusPage []
          { page := 1, limit := 20, total := 0, totalPages := 0 } }) ∧
    (∀ bigSkip, opinionController.list bigSkip emptyDatabase (some 1)
        { page := none, limit := some "0", theme := none, search := none } =
      { status := 200
        payload := .opinionPage []
          { page := 1, limit := 20, total := 0, totalPages := 0 } }) :=
  ⟨rfl, rfl, by decide, rfl, fun _ _ => rfl, fun _ => rfl⟩

set_option maxRecDepth 100000 in
set_option exponentiation.threshold 1100 in
/-- C15 (counterexample): the page parameter made of a one and 400 zeros is read by
`parseInt` as `Infinity`, so the effective page is `Infinity`, which is no integer,
and so is the skip offset.  Where the store accepts such a skip, the list is answered
200 with the page `Infinity` and no entry; where it rejects it, the answer is 500. -/
theorem listPage_huge_is_infinite :
    parseInt (some hugePage) = some .posInf ∧
    listPage (some hugePage) = .posInf ∧
    (∀ p : Int, listPage (some hugePage) ≠ .int p) ∧
    listSkip (some hugePage) none = some .posInf ∧
    (∀ regex, corpusController.list regex none { corpora := [abcEntry], opinions := [] }
        (some 1) { page := some hugePage, limit := none, theme := none, search := none } =
      { status := 200
        payload := .corpusPage []
          { page := .posInf, limit := 20, total := 1, totalPages := 1 } }) ∧
    (∀ regex message,
      corpusController.list regex (some message) { corpora := [abcEntry], opinions := [] }
        (some 1) { page := some hugePage, limit := none, theme := none, search := none } =
      { status := 500, payload := .error ("获取列表失败: " ++ message) }) := by
  have h1 : parseInt (some hugePage) = some .posInf := by decide
  have h2 : listPage (some hugePage) = .posInf := by
    rw [listPage_posInf_iff]
    exact h1
  have h3 : listSkip (some hugePage) none = some .posInf := by
    unfold listSkip
    rw [h2]
    rfl
  refine ⟨h1, h2, ?_, h3, ?_, ?_⟩
  · intro p hp
    rw [h2] at hp
    cases hp
  · intro regex
    simp only [corpusController.list, h2, h3, compileSearch, storeSkip]
    rfl
  · intro regex message
    simp only [corpusController.list, h2, h3, compileSearch, storeSkip]

/-- C15 (amended): for every `page` and `limit` query value (absent or any string),
the effective page is an integer that is at least 1, or `Infinity`, which it is
exactly when `parseInt` reads the value as `Infinity` (a digit string beyond the range
of the numbers); the effective limit is an integer between 1 and 100; the skip offset
is an integer that is not negative, or `Infinity`; `limit=500` gives 100, `page=0`
gives 1 and every page value read as zero, as a negative number or as no number
gives 1, while a page value read as a positive integer is kept.  The same two
constants are used by the corpus list and by the opinion list. -/
theorem listPage_listLimit_bounds (page limit : Option String) :
    (listPage page = .posInf ∨ ∃ p : Int, listPage page = .int p ∧ 1 ≤ p) ∧
    (listPage page = .posInf ↔ parseInt page = some .posInf) ∧
    1 ≤ listLimit limit ∧ listLimit limit ≤ 100 ∧
    (listSkip page limit = some .posInf ∨
      ∃ k : Int, listSkip page limit = some (.int k) ∧ 0 ≤ k) ∧
    listLimit (some "500") = 100 ∧
    listPage (some "0") = 1 ∧
    listPage (some "-3") = 1 ∧
    (∀ n : Int, parseInt page = some (.int n) → n ≤ 0 → listPage page = 1) ∧
    (∀ n : Int, parseInt page = some (.int n) → 1 ≤ n → listPage page = .int n) ∧
    (parseInt page = some .negInf → listPage page = 1) ∧
    (parseInt page = none → listPage page = 1) ∧
    (∀ regex bigSkip db userId theme search,
      (∃ message,
        corpusController.list regex bigSkip db (some userId)
            { page := page, limit := limit, theme := theme, search := search } =
          { status := 500, payload := .error ("获取列表失败: " ++ message) }) ∨
      ∃ list total totalPages,
        corpusController.list regex bigSkip db (some userId)
            { page := page, limit := limit, theme := theme, search := search } =
          { status := 200
            payload := .corpusPage list
              { page := listPage page, limit := listLimit limit, total := total
                totalPages := totalPages } }) ∧
    (∀ bigSkip db userId theme search,
      (∃ message,
        opinionController.list bigSkip db (some userId)
            { page := page, limit := limit, theme := theme, search := search } =
          { status := 500, payload := .error ("获取观点列表失败: " ++ message) }) ∨
      ∃ list total totalPages,
        opinionController.list bigSkip db (some userId)
            { page := page, limit := limit, theme := theme, search := search } =
          { status := 200
            payload := .opinionPage list
              { page := listPage page, limit := listLimit limit, total := total
                totalPages := totalPages } }) := by
  obtain ⟨hl1, hl2⟩ := listLimit_bounds limit
  refine ⟨listPage_cases page, listPage_posInf_iff page, hl1, hl2, listSkip_cases page limit,
    rfl, rfl, rfl, ?_, ?_, ?_, ?_, ?_, ?_⟩
  · intro n hn hle
    rw [listPage_of_int page n hn, if_pos hle]
    rfl
  · intro n hn hle
    rw [listPage_of_int page n hn, if_neg (by omega)]
  · intro hn
    unfold listPage
    rw [hn]
    rfl
  · intro hn
    unfold listPage
    rw [hn]
    rfl
  · intro regex bigSkip db userId theme search
    unfold corpusController.list
    cases hc : compileSearch regex
        { page := page, limit := limit, theme := theme, search := search } with
    | error message => exact Or.inl ⟨message, rfl⟩
    | ok test =>
        simp only []
        cases hs : storeSkip bigSkip (listSkip page limit) (sortNewestFirst
            (db.corpora.filter (corpusFilter userId
              { page := page, limit := limit, theme := theme, search := search } test))) with
        | error message => exact Or.inl ⟨message, rfl⟩
        | ok rest => exact Or.inr ⟨_, _, _, rfl⟩
  · intro bigSkip db userId theme search
    unfold opinionController.list
    simp only []
    cases hs : storeSkip bigSkip (listSkip page limit) (sortOpinionsNewestFirst
        (db.opinions.filter (opinionFilter userId
          { page := page, limit := limit, theme := theme, search := search }))) with
    | error message => exact Or.inl ⟨message, rfl⟩
    | ok rest => exact Or.inr ⟨_, _, _, rfl⟩

theorem listPage_listLimit_bounds_witness :
    parseInt (some "-3") = some (.int (-3)) ∧ listPage (some "-3") = 1 ∧
    parseInt (some "7") = some (.int 7) ∧ listPage (some "7") = .int 7 :=
  ⟨rfl, (listPage_listLimit_bounds (some "-3") none).2.2.2.2.2.2.2.2.1 (-3) rfl (by decide),
    rfl, (listPage_listLimit_bounds (some "7") none).2.2.2.2.2.2.2.2.2.1 7 rfl (by decide)⟩


theorem getElem?_drop_add {α : Type} (l : List α) (k i : Nat) :
    (l.drop k)[i]? = l[k + i]? := by
  induction k generalizing l with
  | zero => simp
  | succ k ih =>
      cases l with
      | nil => simp
      | cons x xs =>
          rw [List.drop_succ_cons, ih]
          have : k + 1 + i = (k + i) + 1 := by omega
          rw [this, List.getElem?_cons_succ]

theorem take_eq_filterMap_range {α : Type} (l : List α) (n : Nat) :
    l.take n = (List.range n).filterMap fun i => l[i]? := by
  induction n with
  | zero => simp
  | succ n ih =>
      rw [List.range_succ, List.filterMap_append, ← ih]
      by_cases h : n < l.length
      · rw [List.take_succ]
        simp [List.getElem?_eq_getElem h]
      · have hle : l.length ≤ n := by omega
        rw [List.take_of_length_le (by omega : l.length ≤ n + 1),
          List.take_of_length_le hle]
        simp [List.getElem?_eq_none hle]

/-- The slice taken by `.skip(skip).limit(limit)` is the slice of the wording. -/
theorem drop_take_eq_pageSlice {α : Type} (l : List α) (page limit : Nat) :
    (l.drop ((page - 1) * limit)).take limit = pageSlice l page limit := by
  rw [take_eq_filterMap_range, pageSlice]
  congr 1
  funext i
  exact getElem?_drop_add l _ i

theorem ceilDiv_least (total limit : Nat) (hl : 1 ≤ limit) :
    total ≤ ceilDiv total limit * limit ∧
    ∀ n, total ≤ n * limit → ceilDiv total limit ≤ n := by
  unfold ceilDiv
  constructor
  · have h := Nat.div_add_mod (total + limit - 1) limit
    have hm := Nat.mod_lt (total + limit - 1) (show 0 < limit by omega)
    have hc : (total + limit - 1) / limit * limit = limit * ((total + limit - 1) / limit) :=
      Nat.mul_comm _ _
    omega
  · intro n hn
    have e : (n + 1) * limit = n * limit + limit := Nat.succ_mul n limit
    have hlt : (total + limit - 1) / limit < n + 1 :=
      (Nat.div_lt_iff_lt_mul (by omega)).mpr (by omega)
    omega

/-- The skip of an integer page, as a natural number. -/
theorem skip_toNat (p l : Int) (hp : 1 ≤ p) (hl : 1 ≤ l) :
    ((p - 1) * l).toNat = (p.toNat - 1) * l.toNat := by
  obtain ⟨a, ha⟩ := Int.eq_ofNat_of_zero_le (show 0 ≤ p by omega)
  obtain ⟨b, hb⟩ := Int.eq_ofNat_of_zero_le (show 0 ≤ l by omega)
  have ha1 : 1 ≤ a := by omega
  have e : ((a : Int) - 1) * (b : Int) = (((a - 1) * b : Nat) : Int) := by
    push_cast [Nat.cast_sub ha1]
    ring
  rw [ha, hb, e]
  simp only [Int.toNat_ofNat]

/-- From `2 ^ 53` on the skip offset is `Infinity` or an integer that is not below
`2 ^ 53`. -/
theorem listSkip_big (page limit : Option String)
    (h : listPage page = .posInf ∨
      ∃ p : Int, listPage page = .int p ∧ 2 ^ 53 ≤ (p - 1) * listLimit limit) :
    listSkip page limit = some .posInf ∨
      ∃ k : Int, listSkip page limit = some (.int k) ∧ 2 ^ 53 ≤ k := by
  obtain ⟨hl1, _⟩ := listLimit_bounds limit
  have hl0 : 0 < listLimit limit := by omega
  unfold listSkip
  rcases h with h | ⟨p, h, hbig⟩
  · left
    rw [h]
    simp [Num.pred, Num.mulInt, hl0]
  · have hp1 : 1 ≤ p := by
      rcases listPage_cases page with h' | ⟨q, h', hq⟩
      · rw [h] at h'; cases h'
      · rw [h] at h'
        cases h'
        exact hq
    rw [h]
    simp only [Num.pred]
    rcases ofInt_nonneg (p - 1) (by omega) with h1 | ⟨d, h1, hd, hd53⟩
    · left
      rw [h1]
      simp [Num.mulInt, hl0]
    · rw [h1]
      simp only [Num.mulInt]
      have hdl : (2 : Int) ^ 53 ≤ d * listLimit limit := by
        by_cases hs : p - 1 < 2 ^ 53
        · have he := ofInt_exact (p - 1) (by omega) hs
          rw [he] at h1
          cases h1
          exact hbig
        · have h53 : (2 : Int) ^ 53 ≤ d := hd53 (by omega)
          have := Int.mul_le_mul_of_nonneg_left hl1 hd
          rw [Int.mul_one] at this
          exact le_trans h53 this
      rcases ofInt_nonneg (d * listLimit limit) (Int.mul_nonneg hd (by omega))
        with h2 | ⟨k, h2, _, hk⟩
      · left; rw [h2]
      · right; exact ⟨k, by rw [h2], hk hdl⟩

/-- What `.skip(skip)` answers for a skip from `2 ^ 53` on: a rejection of the
store, or a list that is empty when fewer than `2 ^ 53` entries are found. -/
theorem storeSkip_big {α : Type} (bigSkip : Option String) (skip : Option Num) (l : List α)
    (h : skip = some .posInf ∨ ∃ k : Int, skip = some (.int k) ∧ 2 ^ 53 ≤ k) :
    (∃ message, bigSkip = some message ∧ storeSkip bigSkip skip l = .error message) ∨
    ∃ rest, storeSkip bigSkip skip l = .ok rest ∧ (l.length < 2 ^ 53 → rest = []) := by
  cases bigSkip with
  | some message =>
      rcases h with h | ⟨k, h, hk⟩
      · rw [h]
        exact Or.inl ⟨message, rfl, rfl⟩
      · rw [h]
        by_cases h63 : 0 ≤ k ∧ k < 2 ^ 63
        · right
          refine ⟨l.drop k.toNat, by simp only [storeSkip, h63, and_self, if_true], ?_⟩
          intro hlen
          apply List.drop_eq_nil_of_le
          have : (2 : Int) ^ 53 ≤ (k.toNat : Int) := by
            rw [Int.toNat_of_nonneg h63.1]
            exact hk
          have h2 : 2 ^ 53 ≤ k.toNat := by exact_mod_cast this
          omega
        · exact Or.inl ⟨message, rfl, by simp only [storeSkip, h63, if_false]⟩
  | none =>
      right
      rcases h with h | ⟨k, h, hk⟩
      · rw [h]
        exact ⟨[], rfl, fun _ => rfl⟩
      · rw [h]
        by_cases h63 : 0 ≤ k ∧ k < 2 ^ 63
        · refine ⟨l.drop k.toNat, by simp only [storeSkip, h63, and_self, if_true], ?_⟩
          intro hlen
          apply List.drop_eq_nil_of_le
          have : (2 : Int) ^ 53 ≤ (k.toNat : Int) := by
            rw [Int.toNat_of_nonneg h63.1]
            exact hk
          have h2 : 2 ^ 53 ≤ k.toNat := by exact_mod_cast this
          omega
        · exact ⟨[], by simp only [storeSkip, h63, if_false], fun _ => rfl⟩

/-! ## Claims on the corpus list -/

theorem jsEqString_iff (v : Option JsVal) (s : String) :
    jsEqString v s = true ↔ v = some (.str s) := by
  cases v with
  | none => simp [jsEqString]
  | some x => cases x <;> simp [jsEqString]

theorem regexField_iff (f : String → Bool) (v : JsVal) :
    regexField f v = true ↔ ∃ x, v = .str x ∧ f x = true := by
  cases v <;> simp [regexField]

/-- The filter object of the list, entry by entry. -/
theorem corpusFilter_iff (userId : Nat) (query : ListQuery) (test : Option (String → Bool))
    (r : CorpusRecord) :
    corpusFilter userId query test r = true ↔
      r.doc.data.userId = userId ∧ r.archived = false ∧
      (∀ t, query.theme = some t → t ≠ "" →
        field r.doc.data.themes "primary" = some (.str t)) ∧
      (∀ f, test = some f →
        (∃ x, r.doc.data.title = .str x ∧ f x = true) ∨
        (∃ x, r.doc.data.content = .str x ∧ f x = true)) := by
  unfold corpusFilter
  cases query.theme with
  | none =>
      cases test with
      | none => simp
      | some f => simp [regexField_iff, and_assoc]
  | some t =>
      by_cases ht : t = ""
      · cases test with
        | none => simp [ht]
        | some f => simp [ht, regexField_iff, and_assoc]
      · cases test with
        | none => simp [ht, jsEqString_iff, and_assoc]
        | some f => simp [ht, jsEqString_iff, regexField_iff, and_assoc]

/-- The outcomes of compiling the search term. -/
theorem compileSearch_ok (regex : String → Except String (String → Bool))
    (query : ListQuery)
    (h : ∀ s, query.search = some s → s ≠ "" → ∃ f, regex s = .ok f) :
    ∃ test, compileSearch regex query = .ok test ∧
      ∀ f, test = some f ↔ ∃ s, query.search = some s ∧ s ≠ "" ∧ regex s = .ok f := by
  unfold compileSearch
  cases hs : query.search with
  | none => exact ⟨none, rfl, by simp⟩
  | some s =>
      by_cases he : s = ""
      · exact ⟨none, by simp [he], by simp [he]⟩
      · obtain ⟨f, hf⟩ := h s hs he
        refine ⟨some f, by simp [he, hf], ?_⟩
        intro g
        constructor
        · intro hg
          cases hg
          exact ⟨s, rfl, he, hf⟩
        · rintro ⟨s', hs', _, hg⟩
          cases hs'
          rw [hf] at hg
          cases hg
          rfl

/-- C16: for every database, owner and query of the corpus list.  A search term that
the pattern engine rejects is answered 500.  Otherwise let the selected entries be
those of the owner that are not archived, whose `themes.primary` is the theme when a
theme is given, and whose title or content the compiled pattern matches when a search
term is given.  There is an ordering `sorted` of the selected entries by `createdAt`
descending such that, for an effective page `p` whose skip `(p - 1) * limit` is below
`2 ^ 53`, the answer is 200 with the entries at positions `(p - 1) * limit` through
`p * limit - 1` of `sorted`, the page `p`, the effective limit, `total` the number of
selected entries and `totalPages` the ceiling of `total / limit`.  For a larger skip
the store rejects the query (500) or the answer is 200 with the same pagination and
a list that is empty when fewer than `2 ^ 53` entries are selected. -/
theorem corpus_list_page (regex : String → Except String (String → Bool))
    (bigSkip : Option String) (db : Database) (userId : Nat) (query : ListQuery) :
    (∀ s message, query.search = some s → s ≠ "" → regex s = .error message →
      corpusController.list regex bigSkip db (some userId) query =
        { status := 500, payload := .error ("获取列表失败: " ++ message) }) ∧
    ((∀ s, query.search = some s → s ≠ "" → ∃ f, regex s = .ok f) →
      ∃ (selected : CorpusRecord → Bool) (sorted : List CorpusRecord),
        (∀ r, selected r = true ↔
          r.doc.data.userId = userId ∧ r.archived = false ∧
          (∀ t, query.theme = some t → t ≠ "" →
            field r.doc.data.themes "primary" = some (.str t)) ∧
          (∀ s f, query.search = some s → s ≠ "" → regex s = .ok f →
            (∃ x, r.doc.data.title = .str x ∧ f x = true) ∨
            (∃ x, r.doc.data.content = .str x ∧ f x = true))) ∧
        sorted.Perm (db.corpora.filter selected) ∧
        sorted.Sorted (fun a b => a.createdAt ≥ b.createdAt) ∧
        (∀ p : Int, listPage query.page = .int p →
          (p - 1) * listLimit query.limit < 2 ^ 53 →
          corpusController.list regex bigSkip db (some userId) query =
            { status := 200
              payload := .corpusPage
                ((pageSlice sorted p.toNat (listLimit query.limit).toNat).map
                  CorpusRecord.summary)
                { page := .int p
                  limit := listLimit query.limit
                  total := sorted.length
                  totalPages := ceilDiv sorted.length (listLimit query.limit).toNat } }) ∧
        ((listPage query.page = .posInf ∨
            ∃ p : Int, listPage query.page = .int p ∧
              2 ^ 53 ≤ (p - 1) * listLimit query.limit) →
          (∃ message, bigSkip = some message ∧
            corpusController.list regex bigSkip db (some userId) query =
              { status := 500, payload := .error ("获取列表失败: " ++ message) }) ∨
          ∃ list,
            corpusController.list regex bigSkip db (some userId) query =
              { status := 200
                payload := .corpusPage list
                  { page := listPage query.page
                    limit := listLimit query.limit
                    total := sorted.length
                    totalPages := ceilDiv sorted.length (listLimit query.limit).toNat } } ∧
            (sorted.length < 2 ^ 53 → list = [])) ∧
        sorted.length ≤
          ceilDiv sorted.length (listLimit query.limit).toNat *
            (listLimit query.limit).toNat ∧
        ∀ n, sorted.length ≤ n * (listLimit query.limit).toNat →
          ceilDiv sorted.length (listLimit query.limit).toNat ≤ n) := by
  haveI : IsTotal CorpusRecord (fun a b => a.createdAt ≥ b.createdAt) :=
    ⟨fun a b => Nat.le_total b.createdAt a.createdAt⟩
  haveI : IsTrans CorpusRecord (fun a b => a.createdAt ≥ b.createdAt) :=
    ⟨fun a b c hab hbc => Nat.le_trans hbc hab⟩
  obtain ⟨hl, _⟩ := listLimit_bounds query.limit
  have hlnat : 1 ≤ (listLimit query.limit).toNat := by omega
  constructor
  · intro s message hs he hr
    have hcomp : compileSearch regex query = .error message := by
      simp [compileSearch, hs, he, hr]
    unfold corpusController.list
    simp only [hcomp]
  · intro hall
    obtain ⟨test, hcomp, htest⟩ := compileSearch_ok regex query hall
    have hperm : (sortNewestFirst (db.corpora.filter (corpusFilter userId query test))).Perm
        (db.corpora.filter (corpusFilter userId query test)) :=
      List.perm_insertionSort _ _
    have hlen := hperm.length_eq
    refine ⟨corpusFilter userId query test,
      sortNewestFirst (db.corpora.filter (corpusFilter userId query test)), ?_, hperm,
      List.sorted_insertionSort _ _, ?_, ?_, ceilDiv_least _ _ hlnat⟩
    · intro r
      rw [corpusFilter_iff]
      constructor
      · rintro ⟨h1, h2, h3, h4⟩
        refine ⟨h1, h2, h3, ?_⟩
        intro s f hs he hf
        exact h4 f ((htest f).mpr ⟨s, hs, he, hf⟩)
      · rintro ⟨h1, h2, h3, h4⟩
        refine ⟨h1, h2, h3, ?_⟩
        intro f hf
        obtain ⟨s, hs, he, hr⟩ := (htest f).mp hf
        exact h4 s f hs he hr
    · intro p hp hsmall
      obtain ⟨hp1, hskip⟩ := listSkip_exact query.page query.limit p hp hsmall
      have hk0 : 0 ≤ (p - 1) * listLimit query.limit :=
        Int.mul_nonneg (by omega) (by omega)
      unfold corpusController.list
      simp only [hcomp, hskip, storeSkip_exact bigSkip _ _ hk0 hsmall, hp,
        skip_toNat p _ hp1 hl, drop_take_eq_pageSlice, hlen]
    · intro hbig
      have hskip := listSkip_big query.page query.limit hbig
      rcases storeSkip_big bigSkip (listSkip query.page query.limit)
        (sortNewestFirst (db.corpora.filter (corpusFilter userId query test))) hskip
        with ⟨message, hm, hst⟩ | ⟨rest, hst, hrest⟩
      · left
        refine ⟨message, hm, ?_⟩
        unfold corpusController.list
        simp only [hcomp, hst]
      · right
        refine ⟨(rest.take (listLimit query.limit).toNat).map CorpusRecord.summary, ?_, ?_⟩
        · unfold corpusController.list
          simp only [hcomp, hst, hlen]
        · intro hshort
          rw [hrest hshort]
          simp

/-- C16 (witness): two entries of owner 1, `page=2`, `limit=1`: the older entry is
returned with pagination `{page: 2, limit: 1, total: 2, totalPages: 2}`.  Among six
entries, of which two of owner 1 have the theme `General` and match the search term
`abc`, the same request with that theme and that term returns the older of the two
with the same pagination; the entries of another theme, of another content, of
another owner and the archived one are not selected; the search term `(` is answered
500. -/
theorem corpus_list_page_witness :
    corpusController.list wildcardRegex none
        { corpora := [abcEntry, newerEntry], opinions := [] } (some 1)
        { page := some "2", limit := some "1", theme := none, search := none } =
      { status := 200
        payload := .corpusPage [abcEntry.summary]
          { page := 2, limit := 1, total := 2, totalPages := 2 } } ∧
    corpusController.list wildcardRegex none mixedDatabase (some 1)
        { page := some "2", limit := some "1", theme := some "General"
          search := some "abc" } =
      { status := 200
        payload := .corpusPage [abcEntry.summary]
          { page := 2, limit := 1, total := 2, totalPages := 2 } } ∧
    corpusController.list wildcardRegex none mixedDatabase (some 1)
        { page := some "2", limit := some "1", theme := some "General"
          search := some "(" } =
      { status := 500
        payload := .error ("获取列表失败: " ++ "Regular expression is invalid") } ∧
    ∃ (selected : CorpusRecord → Bool) (sorted : List CorpusRecord),
      selected abcEntry = true ∧ selected newerEntry = true ∧
      selected scienceEntry = false ∧ selected draftEntry = false ∧
      selected otherOwnerEntry = false ∧ selected archivedEntry = false ∧
      sorted.Perm (mixedDatabase.corpora.filter selected) ∧
      sorted.Sorted (fun a b => a.createdAt ≥ b.createdAt) ∧
      corpusController.list wildcardRegex none mixedDatabase (some 1)
          { page := some "2", limit := some "1", theme := some "General"
            search := some "abc" } =
        { status := 200
          payload := .corpusPage ((pageSlice sorted 2 1).map CorpusRecord.summary)
            { page := 2, limit := 1, total := sorted.length
              totalPages := ceilDiv sorted.length 1 } } := by
  have h := corpus_list_page wildcardRegex none mixedDatabase 1
    { page := some "2", limit := some "1", theme := some "General", search := some "abc" }
  have hbad := (corpus_list_page wildcardRegex none mixedDatabase 1
    { page := some "2", limit := some "1", theme := some "General", search := some "(" }).1
    "(" "Regular expression is invalid" rfl (by decide) rfl
  have hre : wildcardRegex "abc" =
      .ok fun text => text.data.tails.any (wildcardPrefix "abc".data) := rfl
  obtain ⟨selected, sorted, hsel, hperm, hsorted, hpage, _⟩ := h.2 (by
    intro s hs _
    cases hs
    exact ⟨_, hre⟩)
  have hyes : ∀ r : CorpusRecord, r.doc.data.userId = 1 → r.archived = false →
      field r.doc.data.themes "primary" = some (.str "General") →
      r.doc.data.content = .str "abc" → selected r = true := by
    intro r h1 h2 h3 h4
    rw [hsel]
    refine ⟨h1, h2, ?_, ?_⟩
    · intro t ht _
      cases ht
      exact h3
    · intro s f hs _ hf
      cases hs
      rw [hre] at hf
      cases hf
      exact Or.inr ⟨"abc", h4, rfl⟩
  have hno : ∀ r : CorpusRecord,
      (r.doc.data.userId = 1 → r.archived = false →
        field r.doc.data.themes "primary" = some (.str "General") →
        ((∃ x, r.doc.data.title = .str x ∧
            x.data.tails.any (wildcardPrefix "abc".data) = true) ∨
          (∃ x, r.doc.data.content = .str x ∧
            x.data.tails.any (wildcardPrefix "abc".data) = true)) → False) →
      selected r = false := by
    intro r hr
    cases hs : selected r with
    | false => rfl
    | true =>
        obtain ⟨h1, h2, h3, h4⟩ := (hsel r).mp hs
        exact absurd (h4 "abc" _ rfl (by decide) hre)
          (fun h5 => hr h1 h2 (h3 "General" rfl (by decide)) h5)
  refine ⟨rfl, rfl, hbad, selected, sorted, hyes _ rfl rfl rfl rfl, hyes _ rfl rfl rfl rfl,
    ?_, ?_, ?_, ?_, hperm, hsorted, hpage 2 rfl (by decide)⟩
  · apply hno
    intro _ _ h3 _
    have h3s : some (JsVal.str "Science") = some (JsVal.str "General") := h3
    injection h3s with h3v
    injection h3v with h3t
    exact absurd h3t (by decide)
  · apply hno
    intro _ _ _ h4
    rcases h4 with ⟨x, hx, hm⟩ | ⟨x, hx, hm⟩
    · cases hx
      exact absurd hm (by decide)
    · cases hx
      exact absurd hm (by decide)
  · apply hno
    intro h1 _ _ _
    exact absurd h1 (by decide)
  · apply hno
    intro _ h2 _ _
    exact absurd h2 (by decide)

/-- C17: the save hook counts the empty token that a leading or trailing run of
white space delimits: `' hello world'` and `'hello world '` get a `wordCount` of 3
and `' hello world '` one of 4, where the non-empty tokens are 2. -/
theorem wordCount_counts_empty_tokens :
    wordCount " hello world" = 3 ∧ nonEmptyTokens " hello world" = 2 ∧
    wordCount "hello world " = 3 ∧ nonEmptyTokens "hello world " = 2 ∧
    wordCount " hello world " = 4 ∧ nonEmptyTokens " hello world " = 2 ∧
    wordCount "hello world" = 2 ∧ nonEmptyTokens "hello world" = 2 ∧
    (corpusPreSave 30
      { abcEntry with
        doc := { abcEntry.doc with
                 data := { abcEntry.doc.data with content := .str " hello world" } } }).wordCount
      = some 3 := by
  refine ⟨rfl, by decide, rfl, by decide, rfl, by decide, rfl, by decide, rfl⟩

/-- C18: the search term is used as a regular-expression pattern.  With an engine
in which the pattern `a.c` matches the text `abc` and which rejects the pattern
`(`, a search for `a.c` lists an entry whose title and content do not contain
`a.c`, and a search for `(` is answered with 500. -/
theorem corpus_list_search_is_pattern (regex : String → Except String (String → Bool))
    (bigSkip : Option String) (test : String → Bool) (message : String)
    (hdot : regex "a.c" = .ok test) (hmatch : test "abc" = true)
    (hparen : regex "(" = .error message) :
    containsIgnoreCase "a.c" "Notes" = false ∧
    containsIgnoreCase "a.c" "abc" = false ∧
    corpusController.list regex bigSkip { corpora := [abcEntry], opinions := [] } (some 1)
        { page := none, limit := none, theme := none, search := some "a.c" } =
      { status := 200
        payload := .corpusPage [abcEntry.summary]
          { page := 1, limit := 20, total := 1, totalPages := 1 } } ∧
    corpusController.list regex bigSkip { corpora := [abcEntry], opinions := [] } (some 1)
        { page := none, limit := none, theme := none, search := some "(" } =
      { status := 500, payload := .error ("获取列表失败: " ++ message) } := by
  refine ⟨by decide, by decide, ?_, ?_⟩
  · have hcomp : compileSearch regex
        { page := none, limit := none, theme := none, search := some "a.c" } =
        .ok (some test) := by
      simp [compileSearch, hdot]
    have hfilter : [abcEntry].filter (corpusFilter 1
        { page := none, limit := none, theme := none, search := some "a.c" } (some test))
        = [abcEntry] := by
      have : corpusFilter 1
          { page := none, limit := none, theme := none, search := some "a.c" } (some test)
          abcEntry = true := by
        simp [corpusFilter, abcEntry, regexField, hmatch]
      simp [List.filter, this]
    unfold corpusController.list
    simp only [hcomp, hfilter]
    rfl
  · have hcomp : compileSearch regex
        { page := none, limit := none, theme := none, search := some "(" } =
        .error message := by
      simp [compileSearch, hparen]
    unfold corpusController.list
    simp only [hcomp]

/-- C18 (witness): the engine for patterns of literal characters and `.`. -/
theorem corpus_list_search_is_pattern_witness :
    (wildcardRegex "a.c" =
      .ok fun text => text.data.tails.any (wildcardPrefix "a.c".data)) ∧
    (fun text : String => text.data.tails.any (wildcardPrefix "a.c".data)) "abc" = true ∧
    wildcardRegex "(" = .error "Regular expression is invalid" ∧
    (∀ bigSkip,
      corpusController.list wildcardRegex bigSkip { corpora := [abcEntry], opinions := [] }
          (some 1) { page := none, limit := none, theme := none, search := some "a.c" } =
        { status := 200
          payload := .corpusPage [abcEntry.summary]
            { page := 1, limit := 20, total := 1, totalPages := 1 } }) :=
  ⟨rfl, rfl, rfl, fun bigSkip =>
    (corpus_list_search_is_pattern wildcardRegex bigSkip
      (fun text => text.data.tails.any (wildcardPrefix "a.c".data))
      "Regular expression is invalid" rfl rfl rfl).2.2.1⟩

/-! ## Claims on `getOne`, `update` and `delete` -/

theorem findCorpus_none (db : Database) (userId id : Nat)
    (h : ∀ r ∈ db.corpora, r.doc._id = id → r.doc.data.userId ≠ userId) :
    findCorpus db id userId = none := by
  unfold findCorpus
  rw [List.find?_eq_none]
  intro r hr
  by_cases hid : r.doc._id = id
  · simp [hid, h r hr hid]
  · simp [hid]

theorem findOpinion_none (db : Database) (userId id : Nat)
    (h : ∀ r ∈ db.opinions, r.doc._id = id → r.doc.data.userId ≠ userId) :
    findOpinion db id userId = none := by
  unfold findOpinion
  rw [List.find?_eq_none]
  intro r hr
  by_cases hid : r.doc._id = id
  · simp [hid, h r hr hid]
  · simp [hid]

/-- C19: for a well-formed id and an authenticated caller, take a database in which
the caller owns no corpus entry and no opinion with that id (`db1`, where entries
with that id may exist under another owner) and one in which no such entry exists
(`db2`).  Corpus and opinion `getOne`, `update` and `delete` give the same response
on both, and leave both databases as they were; the response is the 404 of the
handler (for `delete`, once `deleteOne` fulfils). -/
theorem not_owner_same_as_absent (db1 db2 : Database) (caller id : Nat)
    (hc1 : ∀ r ∈ db1.corpora, r.doc._id = id → r.doc.data.userId ≠ caller)
    (ho1 : ∀ r ∈ db1.opinions, r.doc._id = id → r.doc.data.userId ≠ caller)
    (hc2 : ∀ r ∈ db2.corpora, r.doc._id ≠ id)
    (ho2 : ∀ r ∈ db2.opinions, r.doc._id ≠ id) :
    (corpusController.getOne db1 (some caller) (some id) =
        { status := 404, payload := .error "未找到该语料" } ∧
      corpusController.getOne db2 (some caller) (some id) =
        { status := 404, payload := .error "未找到该语料" }) ∧
    (∀ schema save now body,
      corpusController.update schema save now db1 (some caller) (some id) body =
        ({ status := 404, payload := .error "未找到该语料" }, db1) ∧
      corpusController.update schema save now db2 (some caller) (some id) body =
        ({ status := 404, payload := .error "未找到该语料" }, db2)) ∧
    (∀ env,
      (corpusController.delete env db1 (some caller) (some id)).1 =
        (corpusController.delete env db2 (some caller) (some id)).1 ∧
      (corpusController.delete env db1 (some caller) (some id)).2 = db1 ∧
      (corpusController.delete env db2 (some caller) (some id)).2 = db2 ∧
      (env.deleteOne = none →
        (corpusController.delete env db1 (some caller) (some id)).1 =
          { status := 404, payload := .error "未找到该语料" })) ∧
    (opinionController.getOne db1 (some caller) (some id) =
        { status := 404, payload := .error "未找到该观点" } ∧
      opinionController.getOne db2 (some caller) (some id) =
        { status := 404, payload := .error "未找到该观点" }) ∧
    (∀ invalid save now body,
      opinionController.update invalid save now db1 (some caller) (some id) body =
        ({ status := 404, payload := .error "未找到该观点" }, db1) ∧
      opinionController.update invalid save now db2 (some caller) (some id) body =
        ({ status := 404, payload := .error "未找到该观点" }, db2)) ∧
    (∀ deleteOne,
      (opinionController.delete deleteOne db1 (some caller) (some id)).1 =
        (opinionController.delete deleteOne db2 (some caller) (some id)).1 ∧
      (opinionController.delete deleteOne db1 (some caller) (some id)).2 = db1 ∧
      (opinionController.delete deleteOne db2 (some caller) (some id)).2 = db2 ∧
      (deleteOne = none →
        (opinionController.delete deleteOne db1 (some caller) (some id)).1 =
          { status := 404, payload := .error "未找到该观点" })) := by
  have f1 := findCorpus_none db1 caller id hc1
  have f2 := findCorpus_none db2 caller id (fun r hr hid => absurd hid (hc2 r hr))
  have g1 := findOpinion_none db1 caller id ho1
  have g2 := findOpinion_none db2 caller id (fun r hr hid => absurd hid (ho2 r hr))
  refine ⟨⟨?_, ?_⟩, ?_, ?_, ⟨?_, ?_⟩, ?_, ?_⟩
  · simp [corpusController.getOne, f1]
  · simp [corpusController.getOne, f2]
  · intro schema save now body
    simp [corpusController.update, f1, f2]
  · intro env
    cases hd : env.deleteOne <;> simp [corpusController.delete, f1, f2, hd]
  · simp [opinionController.getOne, g1]
  · simp [opinionController.getOne, g2]
  · intro invalid save now body
    simp [opinionController.update, g1, g2]
  · intro deleteOne
    cases deleteOne <;> simp [opinionController.delete, g1, g2]

/-- C19 (witness): owner 1 asks for entry 7 and opinion 9; in the first database
entry 7 belongs to owner 2 and opinion 9, which references it, too; the second
database is empty.  A delete by owner 1 leaves the first database whole. -/
theorem not_owner_same_as_absent_witness :
    (corpusController.delete acceptingDeleteEnv
        { corpora := [otherOwnerEntry], opinions := [abcOpinion] }
        (some 1) (some 7)).1 =
      (corpusController.delete acceptingDeleteEnv emptyDatabase (some 1) (some 7)).1 ∧
    (corpusController.delete acceptingDeleteEnv
        { corpora := [otherOwnerEntry], opinions := [abcOpinion] }
        (some 1) (some 7)).2 =
      { corpora := [otherOwnerEntry], opinions := [abcOpinion] } ∧
    (corpusController.delete acceptingDeleteEnv emptyDatabase (some 1) (some 7)).1 =
      { status := 404, payload := .error "未找到该语料" } :=
  have h := not_owner_same_as_absent
    { corpora := [otherOwnerEntry], opinions := [abcOpinion] } emptyDatabase 1 7
    (by intro r hr _; simp at hr; subst hr; decide)
    (by intro r hr _; simp at hr; subst hr; decide)
    (by intro r hr; cases hr)
    (by intro r hr; cases hr)
  ⟨(h.2.2.1 acceptingDeleteEnv).1, (h.2.2.1 acceptingDeleteEnv).2.1, rfl⟩

theorem replaceFirst_split {α : Type} (p : α → Bool) (new old : α) (l : List α)
    (h : l.find? p = some old) :
    ∃ pre post, l = pre ++ old :: post ∧ replaceFirst p new l = pre ++ new :: post := by
  induction l with
  | nil => simp at h
  | cons x xs ih =>
      cases hx : p x with
      | true =>
          have hox : x = old := by simpa [List.find?, hx] using h
          subst hox
          exact ⟨[], xs, rfl, by simp [replaceFirst, hx]⟩
      | false =>
          have hrest : xs.find? p = some old := by simpa [List.find?, hx] using h
          obtain ⟨pre, post, hl, hr⟩ := ih hrest
          exact ⟨x :: pre, post, by simp [hl], by simp [replaceFirst, hx, hr]⟩

theorem assignCast_through (cast : JsVal → Option JsVal) (present : Option JsVal)
    (old new : JsVal) :
    assignCast cast present old = some new ↔ AssignedThrough cast present old new := by
  cases present with
  | none =>
      constructor
      · intro h
        have e : old = new := by simpa [assignCast] using h
        exact ⟨fun v hv => (by cases hv), fun _ => e.symm⟩
      · intro h
        rw [h.2 rfl]
        rfl
  | some w =>
      constructor
      · intro h
        refine ⟨fun v hv => ?_, fun hn => by cases hn⟩
        cases hv
        exact h
      · intro h
        exact h.1 w rfl

/-- The assignments of `update`, field by field. -/
theorem updateCorpusData_eq_some (castItem : JsVal → Option JsVal) (body : Props)
    (data d : CorpusData) :
    updateCorpusData castItem body data = some d ↔
      assignCast castTrimmed (lookupProp body "title") data.title = some d.title ∧
      assignCast castString (lookupProp body "content") data.content = some d.content ∧
      assignCast castString (lookupProp body "translation") data.translation =
        some d.translation ∧
      assignCast castString (lookupProp body "summary") data.summary = some d.summary ∧
      assignCast (castArray castItem) (lookupProp body "vocabulary") data.vocabulary =
        some d.vocabulary ∧
      assignCast (fun t => castThemes (formatThemes (some t))) (lookupProp body "themes")
        data.themes = some d.themes ∧
      assignCast (castArray castTrimmed) (lookupProp body "tags") data.tags = some d.tags ∧
      d.userId = data.userId ∧ d.filename = data.filename ∧ d.fileType = data.fileType ∧
      d.fileSize = data.fileSize := by
  unfold updateCorpusData
  simp only [Option.bind_eq_bind, Option.bind_eq_some, Option.pure_def, Option.some.injEq]
  constructor
  · rintro ⟨t, ht, c, hc, tr, htr, su, hsu, vo, hvo, th, hth, tg, htg, rfl⟩
    exact ⟨ht, hc, htr, hsu, hvo, hth, htg, rfl, rfl, rfl, rfl⟩
  · rintro ⟨ht, hc, htr, hsu, hvo, hth, htg, h1, h2, h3, h4⟩
    refine ⟨_, ht, _, hc, _, htr, _, hsu, _, hvo, _, hth, _, htg, ?_⟩
    cases d
    cases data
    simp only at h1 h2 h3 h4
    subst h1 h2 h3 h4
    rfl

theorem requiredString_iff (v : JsVal) :
    requiredString v = true ↔ ∃ s, v = .str s ∧ s ≠ "" := by
  cases v <;> simp [requiredString]

theorem castArray_null (cast : JsVal → Option JsVal) : castArray cast .null = some .null :=
  rfl

/-- C20: an update of an entry found for its owner.  Whenever it is answered 200, the
write was accepted, the entry returned takes the place of the old one in the
database, every other entry and every opinion being unchanged, and each of `title`,
`content`, `translation`, `summary`, `vocabulary`, `themes` and `tags` of the new
entry is the value assigned when the field is present in the payload (a present
`null` included) and the old value when it is absent; the value assigned is the
payload value read through the cast of its schema path (`title` and the tags are
strings, trimmed; `content`, `translation` and `summary` are strings; `themes` is
passed through `formatThemes`); a `null` given for `translation`, `summary`,
`vocabulary` or `tags` is stored as `null`; `_id`, `userId`, the file metadata,
`archived` and `createdAt` are as they were, `updatedAt` is the time of the save and
`wordCount` is recomputed from the content.  Every answer is that 200 or a 500 that
leaves the database unchanged; it is 200 when the write is accepted, each present
value can be cast and the resulting title and content are non-empty strings; a
`null` given for `title` or `content` is refused by `required` (500), and so is a
rejected write. -/
theorem update_assigns_present_fields (schema : SchemaEnv) (now : Nat) (db : Database)
    (userId id : Nat) (body : Props) (old : CorpusRecord)
    (hfind : findCorpus db id userId = some old) :
    (∀ save new db',
      corpusController.update schema save now db (some userId) (some id) body =
        ({ status := 200, payload := .corpus new }, db') →
      save = none ∧
      (∃ pre post, db.corpora = pre ++ old :: post ∧
        db' = { corpora := pre ++ new :: post, opinions := db.opinions }) ∧
      AssignedThrough castTrimmed (lookupProp body "title") old.doc.data.title
        new.doc.data.title ∧
      AssignedThrough castString (lookupProp body "content") old.doc.data.content
        new.doc.data.content ∧
      AssignedThrough castString (lookupProp body "translation") old.doc.data.translation
        new.doc.data.translation ∧
      AssignedThrough castString (lookupProp body "summary") old.doc.data.summary
        new.doc.data.summary ∧
      AssignedThrough (castArray schema.castItem) (lookupProp body "vocabulary")
        old.doc.data.vocabulary new.doc.data.vocabulary ∧
      AssignedThrough (fun t => castThemes (formatThemes (some t)))
        (lookupProp body "themes") old.doc.data.themes new.doc.data.themes ∧
      AssignedThrough (castArray castTrimmed) (lookupProp body "tags") old.doc.data.tags
        new.doc.data.tags ∧
      (lookupProp body "translation" = some .null → new.doc.data.translation = .null) ∧
      (lookupProp body "summary" = some .null → new.doc.data.summary = .null) ∧
      (lookupProp body "vocabulary" = some .null → new.doc.data.vocabulary = .null) ∧
      (lookupProp body "tags" = some .null → new.doc.data.tags = .null) ∧
      new.doc._id = old.doc._id ∧
      new.doc.data.userId = old.doc.data.userId ∧
      new.doc.data.filename = old.doc.data.filename ∧
      new.doc.data.fileType = old.doc.data.fileType ∧
      new.doc.data.fileSize = old.doc.data.fileSize ∧
      new.archived = old.archived ∧
      new.createdAt = old.createdAt ∧
      new.updatedAt = now ∧
      (∃ s, new.doc.data.title = .str s ∧ s ≠ "") ∧
      (∃ s, new.doc.data.content = .str s ∧ s ≠ "" ∧
        new.wordCount = some (wordCount s))) ∧
    (∀ save,
      (∃ new db',
        corpusController.update schema save now db (some userId) (some id) body =
          ({ status := 200, payload := .corpus new }, db')) ∨
      (∃ message,
        corpusController.update schema save now db (some userId) (some id) body =
          ({ status := 500, payload := .error ("更新失败: " ++ message) }, db))) ∧
    (∀ title content translation summary vocabulary themes tags : JsVal,
      AssignedThrough castTrimmed (lookupProp body "title") old.doc.data.title title →
      AssignedThrough castString (lookupProp body "content") old.doc.data.content content →
      AssignedThrough castString (lookupProp body "translation") old.doc.data.translation
        translation →
      AssignedThrough castString (lookupProp body "summary") old.doc.data.summary summary →
      AssignedThrough (castArray schema.castItem) (lookupProp body "vocabulary")
        old.doc.data.vocabulary vocabulary →
      AssignedThrough (fun t => castThemes (formatThemes (some t)))
        (lookupProp body "themes") old.doc.data.themes themes →
      AssignedThrough (castArray castTrimmed) (lookupProp body "tags") old.doc.data.tags
        tags →
      (∃ s, title = .str s ∧ s ≠ "") → (∃ s, content = .str s ∧ s ≠ "") →
      ∃ new db',
        corpusController.update schema none now db (some userId) (some id) body =
          ({ status := 200, payload := .corpus new }, db')) ∧
    (lookupProp body "title" = some .null ∨ lookupProp body "content" = some .null →
      ∀ save,
        corpusController.update schema save now db (some userId) (some id) body =
          ({ status := 500, payload := .error ("更新失败: " ++ schema.invalid) }, db)) ∧
    (∀ message, ∃ text,
      corpusController.update schema (some message) now db (some userId) (some id) body =
        ({ status := 500, payload := .error ("更新失败: " ++ text) }, db)) := by
  have hnull : ∀ (cast : JsVal → Option JsVal) (present : Option JsVal) (o n : JsVal),
      cast .null = some .null → AssignedThrough cast present o n →
      present = some .null → n = .null := by
    intro cast present o n hc ha hp
    have := ha.1 .null hp
    rw [hc] at this
    cases this
    rfl
  refine ⟨?_, ?_, ?_, ?_, ?_⟩
  · intro save new db' h
    unfold corpusController.update at h
    simp only [hfind] at h
    cases hupd : updateCorpusData schema.castItem body old.doc.data with
    | none => simp [hupd] at h
    | some data =>
        rw [hupd] at h
        by_cases hreq : (requiredString data.title && requiredString data.content) = true
        · cases save with
          | some message => simp [hreq] at h
          | none =>
              simp only [hreq, if_true, Prod.mk.injEq, Reply.mk.injEq, true_and,
                Payload.corpus.injEq] at h
              obtain ⟨hnew, hdb⟩ := h
              obtain ⟨pre, post, hl, hr⟩ := replaceFirst_split
                (fun r : CorpusRecord => r.doc._id == id && r.doc.data.userId == userId)
                new old db.corpora hfind
              obtain ⟨ht, hc, htr, hsu, hvo, hth, htg, h1, h2, h3, h4⟩ :=
                (updateCorpusData_eq_some _ _ _ _).mp hupd
              rw [Bool.and_eq_true, requiredString_iff, requiredString_iff] at hreq
              obtain ⟨⟨st, hst, hst0⟩, ⟨sc, hsc, hsc0⟩⟩ := hreq
              have at1 := (assignCast_through _ _ _ _).mp ht
              have at2 := (assignCast_through _ _ _ _).mp hc
              have at3 := (assignCast_through _ _ _ _).mp htr
              have at4 := (assignCast_through _ _ _ _).mp hsu
              have at5 := (assignCast_through _ _ _ _).mp hvo
              have at6 := (assignCast_through _ _ _ _).mp hth
              have at7 := (assignCast_through _ _ _ _).mp htg
              subst hnew
              refine ⟨rfl, ⟨pre, post, hl, ?_⟩, at1, at2, at3, at4, at5, at6, at7,
                hnull castString _ _ _ rfl at3, hnull castString _ _ _ rfl at4,
                hnull (castArray schema.castItem) _ _ _ rfl at5,
                hnull (castArray castTrimmed) _ _ _ rfl at7, rfl, h1, h2, h3, h4, rfl, rfl, rfl,
                ⟨st, hst, hst0⟩, ⟨sc, hsc, hsc0, ?_⟩⟩
              · rw [← hdb, hr]
              · simp [corpusPreSave, hsc, hsc0]
        · simp [hreq] at h
  · intro save
    unfold corpusController.update
    simp only [hfind]
    cases hupd : updateCorpusData schema.castItem body old.doc.data with
    | none => exact Or.inr ⟨schema.invalid, rfl⟩
    | some data =>
        by_cases hreq : (requiredString data.title && requiredString data.content) = true
        · cases save with
          | some message => exact Or.inr ⟨message, by simp [hreq]⟩
          | none =>
              simp only [hreq, if_true]
              exact Or.inl ⟨_, _, rfl⟩
        · exact Or.inr ⟨schema.invalid, by simp [hreq]⟩
  · intro title content translation summary vocabulary themes tags a1 a2 a3 a4 a5 a6 a7
      hrt hrc
    have hupd : updateCorpusData schema.castItem body old.doc.data =
        some { old.doc.data with
               title := title, content := content, translation := translation
               summary := summary, vocabulary := vocabulary, themes := themes
               tags := tags } :=
      (updateCorpusData_eq_some _ _ _ _).mpr
        ⟨(assignCast_through _ _ _ _).mpr a1, (assignCast_through _ _ _ _).mpr a2,
          (assignCast_through _ _ _ _).mpr a3, (assignCast_through _ _ _ _).mpr a4,
          (assignCast_through _ _ _ _).mpr a5, (assignCast_through _ _ _ _).mpr a6,
          (assignCast_through _ _ _ _).mpr a7, rfl, rfl, rfl, rfl⟩
    have hreq : (requiredString title && requiredString content) = true := by
      rw [Bool.and_eq_true, requiredString_iff, requiredString_iff]
      exact ⟨hrt, hrc⟩
    unfold corpusController.update
    simp only [hfind, hupd, hreq, if_true]
    exact ⟨_, _, rfl⟩
  · intro hn save
    unfold corpusController.update
    simp only [hfind]
    cases hupd : updateCorpusData schema.castItem body old.doc.data with
    | none => rfl
    | some data =>
        obtain ⟨ht, hc, _⟩ := (updateCorpusData_eq_some _ _ _ _).mp hupd
        have hreq : (requiredString data.title && requiredString data.content) = false := by
          rcases hn with hn | hn
          · rw [hn] at ht
            have : data.title = .null := by
              have h2 : some JsVal.null = some data.title := ht
              injection h2 with h3
              exact h3.symm
            simp [this, requiredString]
          · rw [hn] at hc
            have : data.content = .null := by
              have h2 : some JsVal.null = some data.content := hc
              injection h2 with h3
              exact h3.symm
            simp [this, requiredString]
        simp [hreq]
  · intro message
    unfold corpusController.update
    simp only [hfind]
    cases hupd : updateCorpusData schema.castItem body old.doc.data with
    | none => exact ⟨schema.invalid, rfl⟩
    | some data =>
        by_cases hreq : (requiredString data.title && requiredString data.content) = true
        · exact ⟨message, by simp [hreq]⟩
        · exact ⟨schema.invalid, by simp [hreq]⟩

/-- C20 (witness): owner 1 updates entry 7 with a title in blanks, the number 5 as
content, a `null` summary and a single tag: the title is stored trimmed, the content
as the string `5` with a word count of 1, the summary as `null`, the tag trimmed in
an array, and the other fields stay; a `null` title is refused. -/
theorem update_assigns_present_fields_witness :
    findCorpus { corpora := [abcEntry], opinions := [abcOpinion] } 7 1 = some abcEntry ∧
    castTrimmed (.str "  New title ") = some (.str "New title") ∧
    castString (.num 5) = some (.str "5") ∧
    corpusController.update plainSchema none 50
        { corpora := [abcEntry], opinions := [abcOpinion] } (some 1) (some 7)
        [("title", .str "  New title "), ("content", .num 5), ("summary", .null),
          ("tags", .str " x ")] =
      ({ status := 200
         payload := .corpus
           { abcEntry with
             doc := { abcEntry.doc with
                      data := { abcEntry.doc.data with
                                title := .str "New title", content := .str "5"
                                summary := .null, tags := .arr [.str "x"] [] } }
             updatedAt := 50, wordCount := some 1 } },
       { corpora := [{ abcEntry with
             doc := { abcEntry.doc with
                      data := { abcEntry.doc.data with
                                title := .str "New title", content := .str "5"
                                summary := .null, tags := .arr [.str "x"] [] } }
             updatedAt := 50, wordCount := some 1 }]
         opinions := [abcOpinion] }) ∧
    corpusController.update plainSchema none 50
        { corpora := [abcEntry], opinions := [abcOpinion] } (some 1) (some 7)
        [("title", .null)] =
      ({ status := 500, payload := .error ("更新失败: " ++ "Corpus validation failed") },
       { corpora := [abcEntry], opinions := [abcOpinion] }) ∧
    ∀ message, ∃ text,
      corpusController.update plainSchema (some message) 50
          { corpora := [abcEntry], opinions := [abcOpinion] } (some 1) (some 7)
          [("title", .str "  New title "), ("content", .num 5), ("summary", .null),
            ("tags", .str " x ")] =
        ({ status := 500, payload := .error ("更新失败: " ++ text) },
         { corpora := [abcEntry], opinions := [abcOpinion] }) :=
  ⟨rfl, rfl, rfl, rfl,
    (update_assigns_present_fields plainSchema 50
      { corpora := [abcEntry], opinions := [abcOpinion] } 1 7 [("title", .null)] abcEntry
      rfl).2.2.2.1 (Or.inl rfl) none,
    (update_assigns_present_fields plainSchema 50
      { corpora := [abcEntry], opinions := [abcOpinion] } 1 7
      [("title", .str "  New title "), ("content", .num 5), ("summary", .null),
        ("tags", .str " x ")] abcEntry rfl).2.2.2.2⟩

/-! ## Claims on the invariant of the stored corpus entries -/

theorem isArray_arrayOrEmpty (x : Option JsVal) : isArray (arrayOrEmpty x) = true := by
  cases x with
  | none => rfl
  | some v => cases v <;> rfl

theorem corpusInvariant_buildCorpusData (userId : Nat) (body : Props) (s : String)
    (hs : textContent body = .str s) (ht : jsTrim s ≠ "") :
    corpusInvariant (buildCorpusData userId body) = true := by
  obtain ⟨p, hp, htruthy, _⟩ := field_formatThemes_primary (lookupProp body "themes")
  simp only [corpusInvariant, buildCorpusData, hs, hp, truthyOpt, htruthy,
    isArray_arrayOrEmpty, Bool.and_true, bne_iff_ne, ne_eq]
  exact ht

/-- C21: a create answered 201 stores one new entry, which satisfies the invariant
(content non-empty after trimming, `themes.primary` non-empty, `vocabulary` an
array); an update does not keep it.  On the entry 7 of owner 1, which satisfies the
invariant, the update `{content: "   "}` is answered 200 and stores the white-space
content, and the update `{vocabulary: null}` is answered 200 and stores `null` as
the vocabulary: in both cases the stored entry violates the invariant. -/
theorem update_breaks_corpus_invariant :
    (∀ (env : StorageEnv) (store : Store) (userId : Nat) (body : Props),
      (create env store (some userId) body).status = 201 →
      ∃ new : CorpusDoc,
        (create env store (some userId) body).store.corpora = store.corpora ++ [new] ∧
        corpusInvariant new.data = true) ∧
    corpusInvariant abcEntry.doc.data = true ∧
    (∀ schema,
      (corpusController.update schema none 30 { corpora := [abcEntry], opinions := [] }
        (some 1) (some 7) [("content", .str "   ")]).1.status = 200) ∧
    (∀ schema,
      (corpusController.update schema none 30 { corpora := [abcEntry], opinions := [] }
        (some 1) (some 7) [("content", .str "   ")]).2.corpora.map
          (fun r => r.doc.data.content)
      = [.str "   "]) ∧
    (∀ schema,
      (corpusController.update schema none 30 { corpora := [abcEntry], opinions := [] }
        (some 1) (some 7) [("content", .str "   ")]).2.corpora.map
          (fun r => corpusInvariant r.doc.data)
      = [false]) ∧
    (∀ schema,
      (corpusController.update schema none 30 { corpora := [abcEntry], opinions := [] }
        (some 1) (some 7) [("vocabulary", .null)]).1.status = 200) ∧
    (∀ schema,
      (corpusController.update schema none 30 { corpora := [abcEntry], opinions := [] }
        (some 1) (some 7) [("vocabulary", .null)]).2.corpora.map
          (fun r => r.doc.data.vocabulary)
      = [.null]) ∧
    (∀ schema,
      (corpusController.update schema none 30 { corpora := [abcEntry], opinions := [] }
        (some 1) (some 7) [("vocabulary", .null)]).2.corpora.map
          (fun r => corpusInvariant r.doc.data)
      = [false]) := by
  refine ⟨?_, by decide, fun _ => rfl, fun _ => rfl, fun _ => rfl, fun _ => rfl,
    fun _ => rfl, fun _ => rfl⟩
  intro env store userId body hok
  unfold create at hok ⊢
  cases hs : textContent body with
  | str s =>
      by_cases ht : jsTrim s = ""
      · simp [hs, ht] at hok
      · cases h1 : env.corpusSave with
        | some m => simp [hs, ht, h1, createFailed] at hok
        | none =>
            cases h2 : env.commit with
            | some m => simp [hs, ht, h1, h2, createFailed] at hok
            | none =>
                refine ⟨{ _id := env.corpusId, data := buildCorpusData userId body }, ?_, ?_⟩
                · simp [ht]
                · exact corpusInvariant_buildCorpusData userId body s hs ht
  | null => simp [hs, createFailed] at hok
  | bool b => simp [hs, createFailed] at hok
  | num n => simp [hs, createFailed] at hok
  | arr es ps => simp [hs, createFailed] at hok
  | obj ps => simp [hs, createFailed] at hok

theorem update_breaks_corpus_invariant_witness :
    ∃ new : CorpusDoc,
      (create acceptingEnv emptyStore (some 1) gigBody).store.corpora
        = emptyStore.corpora ++ [new] ∧
      corpusInvariant new.data = true :=
  update_breaks_corpus_invariant.1 acceptingEnv emptyStore 1 gigBody (by decide)

/-! ## The cascade of the corpus delete -/

theorem removeFirst_eq_filter {α : Type} (p q : α → Bool) (l : List α)
    (hpq : ∀ x ∈ l, p x = true → q x = true)
    (huniq : l.Pairwise fun x y => ¬ (q x = true ∧ q y = true))
    (hfound : (l.find? p).isSome = true) :
    removeFirst p l = l.filter fun x => !q x := by
  induction l with
  | nil => simp at hfound
  | cons x xs ih =>
      rw [List.pairwise_cons] at huniq
      by_cases hp : p x = true
      · have hq : q x = true := hpq x (List.mem_cons_self _ _) hp
        have hrest : ∀ y ∈ xs, q y = false := by
          intro y hy
          cases hqy : q y
          · rfl
          · exact absurd ⟨hq, hqy⟩ (huniq.1 y hy)
        simp only [removeFirst, hp, if_true, List.filter_cons, hq, Bool.not_true,
          Bool.false_eq_true, if_false]
        symm
        rw [List.filter_eq_self]
        intro y hy
        simp [hrest y hy]
      · have hp' : p x = false := by simpa using hp
        have hq : q x = false := by
          cases hqx : q x
          · rfl
          · exfalso
            simp only [List.find?_cons, hp'] at hfound
            rw [List.find?_isSome] at hfound
            obtain ⟨y, hy, hpy⟩ := hfound
            exact huniq.1 y hy ⟨hqx, hpq y (List.mem_cons_of_mem _ hy) hpy⟩
        simp only [List.find?_cons, hp'] at hfound
        simp only [removeFirst, hp', Bool.false_eq_true, if_false, List.filter_cons, hq,
          Bool.not_false, if_true]
        rw [ih (fun y hy => hpq y (List.mem_cons_of_mem _ hy)) huniq.2 hfound]

/-- The outcome of a corpus delete that is answered 200. -/
theorem delete_success (env : DeleteEnv) (db : Database) (owner id : Nat)
    (hok : (corpusController.delete env db (some owner) (some id)).1.status = 200) :
    (findCorpus db id owner).isSome = true ∧
    (corpusController.delete env db (some owner) (some id)).2 =
      { corpora := removeFirst (fun r => r.doc._id == id && r.doc.data.userId == owner)
          db.corpora
        opinions := db.opinions.filter fun o => !(o.doc.data.sourceId == id) } := by
  unfold corpusController.delete at hok ⊢
  cases h1 : env.deleteOne with
  | some m => simp [h1, deleteFailed] at hok
  | none =>
      cases h2 : findCorpus db id owner with
      | none => simp [h1, h2] at hok
      | some c =>
          cases h3 : env.deleteMany with
          | some m => simp [h1, h2, h3, deleteFailed] at hok
          | none =>
              cases h4 : env.commit with
              | some m => simp [h1, h2, h3, h4, deleteFailed] at hok
              | none => simp [h1, h2, h3, h4]

/-- C22: after a corpus delete of `id` answered 200, in a database whose corpus
identifiers are pairwise distinct, the opinions are exactly the former opinions whose
`sourceId` is not `id`, the corpus entries are exactly the former entries whose `_id`
is not `id` (in the same order, unchanged), so no opinion refers to `id`, no corpus
entry has that `_id`, and `getOne` for `id` answers 404 to every caller. -/
theorem delete_removes_entry_and_opinions (env : DeleteEnv) (db : Database)
    (owner id : Nat)
    (hunique : (db.corpora.map fun r => r.doc._id).Nodup)
    (hok : (corpusController.delete env db (some owner) (some id)).1.status = 200) :
    (corpusController.delete env db (some owner) (some id)).2.opinions =
        db.opinions.filter (fun o => !(o.doc.data.sourceId == id)) ∧
    (corpusController.delete env db (some owner) (some id)).2.corpora =
        db.corpora.filter (fun r => !(r.doc._id == id)) ∧
    (∀ o ∈ (corpusController.delete env db (some owner) (some id)).2.opinions,
        o.doc.data.sourceId ≠ id) ∧
    (∀ r ∈ (corpusController.delete env db (some owner) (some id)).2.corpora,
        r.doc._id ≠ id) ∧
    (∀ caller : Nat,
      corpusController.getOne (corpusController.delete env db (some owner) (some id)).2
          (some caller) (some id)
        = { status := 404, payload := .error "未找到该语料" }) := by
  obtain ⟨hfound, hdb⟩ := delete_success env db owner id hok
  have hcorpora : removeFirst (fun r : CorpusRecord =>
        r.doc._id == id && r.doc.data.userId == owner) db.corpora
      = db.corpora.filter (fun r => !(r.doc._id == id)) := by
    apply removeFirst_eq_filter _ (fun r : CorpusRecord => r.doc._id == id)
    · intro x _ hx
      simp only [Bool.and_eq_true] at hx
      exact hx.1
    · rw [List.Nodup, List.pairwise_map] at hunique
      refine hunique.imp ?_
      intro a b hab hboth
      simp only [beq_iff_eq] at hboth
      exact hab (hboth.1.trans hboth.2.symm)
    · exact hfound
  rw [hdb]
  simp only [hcorpora]
  refine ⟨trivial, trivial, ?_, ?_, ?_⟩
  · intro o ho
    simpa using (List.mem_filter.mp ho).2
  · intro r hr
    simpa using (List.mem_filter.mp hr).2
  · intro caller
    have hnone : findCorpus
        { corpora := db.corpora.filter (fun r => !(r.doc._id == id))
          opinions := db.opinions.filter fun o => !(o.doc.data.sourceId == id) }
        id caller = none := by
      apply findCorpus_none
      intro r hr hid
      have := (List.mem_filter.mp hr).2
      simp [hid] at this
    simp only [corpusController.getOne, hnone]

theorem delete_removes_entry_and_opinions_witness :
    (corpusController.delete acceptingDeleteEnv
        { corpora := [otherOwnerEntry, newerEntry],
          opinions := [abcOpinion, secondOpinion, unrelatedOpinion] }
        (some 2) (some 7)).2.opinions = [unrelatedOpinion] ∧
    (corpusController.delete acceptingDeleteEnv
        { corpora := [otherOwnerEntry, newerEntry],
          opinions := [abcOpinion, secondOpinion, unrelatedOpinion] }
        (some 2) (some 7)).2.corpora = [newerEntry] :=
  have h := delete_removes_entry_and_opinions acceptingDeleteEnv
    { corpora := [otherOwnerEntry, newerEntry],
      opinions := [abcOpinion, secondOpinion, unrelatedOpinion] } 2 7
    (by decide) (by decide)
  ⟨h.1.trans rfl, h.2.1.trans rfl⟩

/-- C23 (counterexample): owner 2 deletes entry 7, to which two opinions refer, and
the storage layer rejects `deleteMany`: the answer is 500 with the message of the
failure, and the entry and both opinions are still in the database. -/
theorem delete_aborts_when_cascade_fails :
    corpusController.delete cascadeRejectingEnv
        { corpora := [otherOwnerEntry], opinions := [abcOpinion, secondOpinion] }
        (some 2) (some 7)
      = ({ status := 500, payload := .error "删除失败: cascade failed" },
         { corpora := [otherOwnerEntry], opinions := [abcOpinion, secondOpinion] }) ∧
    (corpusController.getOne
        (corpusController.delete cascadeRejectingEnv
          { corpora := [otherOwnerEntry], opinions := [abcOpinion, secondOpinion] }
          (some 2) (some 7)).2 (some 2) (some 7)).status = 200 :=
  ⟨rfl, rfl⟩

/-- C23 (amended): when the owner deletes an entry they own, `deleteOne` fulfils and
the removal of the linked opinions (`deleteMany`) is rejected, the handler answers
500 with `删除失败: ` followed by the message, and the aborted transaction leaves the
database as it was: the entry and every opinion are still there. -/
theorem delete_cascade_failure (env : DeleteEnv) (db : Database) (owner id : Nat)
    (message : String)
    (hone : env.deleteOne = none)
    (hfound : (findCorpus db id owner).isSome = true)
    (hmany : env.deleteMany = some message) :
    corpusController.delete env db (some owner) (some id)
      = ({ status := 500, payload := .error ("删除失败: " ++ message) }, db) ∧
    corpusController.getOne (corpusController.delete env db (some owner) (some id)).2
        (some owner) (some id)
      = corpusController.getOne db (some owner) (some id) ∧
    (corpusController.getOne db (some owner) (some id)).status = 200 := by
  obtain ⟨c, hc⟩ := Option.isSome_iff_exists.mp hfound
  have h : corpusController.delete env db (some owner) (some id)
      = ({ status := 500, payload := .error ("删除失败: " ++ message) }, db) := by
    simp only [corpusController.delete, hone, hc, hmany, deleteFailed]
  refine ⟨h, by rw [h], ?_⟩
  simp only [corpusController.getOne, hc]

theorem delete_cascade_failure_witness :
    corpusController.delete cascadeRejectingEnv
        { corpora := [abcEntry], opinions := [secondOpinion] } (some 1) (some 7)
      = ({ status := 500, payload := .error ("删除失败: " ++ "cascade failed") },
         { corpora := [abcEntry], opinions := [secondOpinion] }) :=
  (delete_cascade_failure cascadeRejectingEnv
    { corpora := [abcEntry], opinions := [secondOpinion] } 1 7 "cascade failed"
    rfl rfl rfl).1

/-! ## The statistics of a user -/

theorem vocabularySize_of_isArray (r : CorpusRecord)
    (h : isArray r.doc.data.vocabulary = true) :
    vocabularySize r = some (vocabularyLength r) := by
  unfold vocabularySize vocabularyLength
  cases hv : r.doc.data.vocabulary <;> simp_all [isArray]

theorem vocabularySizes_of_arrays (docs : List CorpusRecord)
    (h : ∀ r ∈ docs, isArray r.doc.data.vocabulary = true) :
    vocabularySizes docs = some (docs.map vocabularyLength) := by
  induction docs with
  | nil => rfl
  | cons d rest ih =>
      have hd := vocabularySize_of_isArray d (h d (List.mem_cons_self _ _))
      simp only [vocabularySizes, hd, ih (fun r hr => h r (List.mem_cons_of_mem _ hr)),
        List.map_cons]

/-- C24 (counterexample): owner 1 has one entry with two vocabulary items and one
opinion; a refresh at time 100 followed by a refresh at time 200, with no change in
between, leaves the three totals at 1, 2 and 1 and gives `lastActive` 100 the first
time and 200 the second time. -/
theorem updateStatistics_refreshes_lastActive :
    (updateStatistics 100 { corpora := [twoWordEntry], opinions := [secondOpinion] } 1
        newStatistics).lastActive = 100 ∧
    (updateStatistics 200 { corpora := [twoWordEntry], opinions := [secondOpinion] } 1
        (updateStatistics 100 { corpora := [twoWordEntry], opinions := [secondOpinion] } 1
          newStatistics)).lastActive = 200 ∧
    (updateStatistics 100 { corpora := [twoWordEntry], opinions := [secondOpinion] } 1
        newStatistics).totalCorpus = 1 ∧
    (updateStatistics 100 { corpora := [twoWordEntry], opinions := [secondOpinion] } 1
        newStatistics).totalVocabulary = 2 ∧
    (updateStatistics 100 { corpora := [twoWordEntry], opinions := [secondOpinion] } 1
        newStatistics).totalOpinions = 1 := by
  decide

/-- C24 (amended): two refreshes in a row on the same data, at times `now1` and
`now2`, give the same `totalCorpus`, `totalVocabulary` and `totalOpinions` both
times; when the vocabulary of every non-archived entry of the user is an array, these
are the number of the user's non-archived entries, the number of their vocabulary
items and the number of the user's non-archived opinions, and `lastActive` is `now1`
after the first refresh and `now2` after the second: it is the time of the refresh,
so the two values agree only when the two times do. -/
theorem updateStatistics_twice (now1 now2 : Nat) (db : Database) (userId : Nat)
    (statistics : UserStatistics) :
    (updateStatistics now2 db userId (updateStatistics now1 db userId statistics)).totalCorpus
      = (updateStatistics now1 db userId statistics).totalCorpus ∧
    (updateStatistics now2 db userId
        (updateStatistics now1 db userId statistics)).totalVocabulary
      = (updateStatistics now1 db userId statistics).totalVocabulary ∧
    (updateStatistics now2 db userId
        (updateStatistics now1 db userId statistics)).totalOpinions
      = (updateStatistics now1 db userId statistics).totalOpinions ∧
    ((∀ r ∈ ownedActive db userId, isArray r.doc.data.vocabulary = true) →
      updateStatistics now1 db userId statistics
        = { totalCorpus := (ownedActive db userId).length
            totalVocabulary := ((ownedActive db userId).map vocabularyLength).sum
            totalOpinions :=
              (db.opinions.filter fun o => o.doc.data.userId == userId && !o.archived).length
            lastActive := now1 } ∧
      updateStatistics now2 db userId (updateStatistics now1 db userId statistics)
        = { totalCorpus := (ownedActive db userId).length
            totalVocabulary := ((ownedActive db userId).map vocabularyLength).sum
            totalOpinions :=
              (db.opinions.filter fun o => o.doc.data.userId == userId && !o.archived).length
            lastActive := now2 }) := by
  have hform : ∀ (now : Nat) (s : UserStatistics),
      (∀ r ∈ ownedActive db userId, isArray r.doc.data.vocabulary = true) →
      updateStatistics now db userId s
        = { totalCorpus := (ownedActive db userId).length
            totalVocabulary := ((ownedActive db userId).map vocabularyLength).sum
            totalOpinions :=
              (db.opinions.filter fun o => o.doc.data.userId == userId && !o.archived).length
            lastActive := now } := by
    intro now s harr
    have hs := vocabularySizes_of_arrays _ harr
    unfold updateStatistics vocabResult
    rw [hs]
    cases hd : (ownedActive db userId).map vocabularyLength with
    | nil => rfl
    | cons size sizes => rfl
  refine ⟨?_, ?_, ?_, fun harr => ⟨hform now1 statistics harr, hform now2 _ harr⟩⟩
  all_goals
    unfold updateStatistics
    cases vocabResult db userId with
    | none => rfl
    | some result => rfl

theorem updateStatistics_twice_witness :
    updateStatistics 200 { corpora := [twoWordEntry], opinions := [secondOpinion] } 1
        (updateStatistics 100 { corpora := [twoWordEntry], opinions := [secondOpinion] } 1
          newStatistics)
      = { totalCorpus := 1, totalVocabulary := 2, totalOpinions := 1, lastActive := 200 } :=
  ((updateStatistics_twice 100 200 { corpora := [twoWordEntry], opinions := [secondOpinion] }
    1 newStatistics).2.2.2 (by decide)).2.trans rfl

/-! ## The statistics by theme -/

theorem countOf_accumulate (key : Option String) (size : Nat) (rows : List ThemeRow)
    (k : Option String) :
    countOf (accumulate key size rows) k = countOf rows k + if key = k then 1 else 0 := by
  induction rows with
  | nil =>
      by_cases hk : key = k <;> simp [accumulate, countOf, hk]
  | cons row rows ih =>
      unfold countOf at ih ⊢
      by_cases hr : row._id = key
      · by_cases hk : key = k
        · have hrk : row._id = k := hr.trans hk
          simp only [accumulate, hr, if_true, List.filter_cons, hk, decide_True, List.map_cons,
            List.sum_cons, hrk]
          omega
        · have hrk : ¬ row._id = k := fun h => hk (hr.symm.trans h)
          simp [accumulate, hr, List.filter_cons, hk, hrk]
      · simp only [accumulate, hr, if_false, List.filter_cons]
        by_cases hrk : row._id = k
        · simp only [hrk, decide_True, if_true, List.map_cons, List.sum_cons, ih]
          omega
        · simp only [hrk, decide_False, Bool.false_eq_true, if_false, ih]

theorem vocabOf_accumulate (key : Option String) (size : Nat) (rows : List ThemeRow)
    (k : Option String) :
    vocabOf (accumulate key size rows) k = vocabOf rows k + if key = k then size else 0 := by
  induction rows with
  | nil =>
      by_cases hk : key = k <;> simp [accumulate, vocabOf, hk]
  | cons row rows ih =>
      unfold vocabOf at ih ⊢
      by_cases hr : row._id = key
      · by_cases hk : key = k
        · have hrk : row._id = k := hr.trans hk
          simp only [accumulate, hr, if_true, List.filter_cons, hk, decide_True, List.map_cons,
            List.sum_cons, hrk]
          omega
        · have hrk : ¬ row._id = k := fun h => hk (hr.symm.trans h)
          simp [accumulate, hr, List.filter_cons, hk, hrk]
      · simp only [accumulate, hr, if_false, List.filter_cons]
        by_cases hrk : row._id = k
        · simp only [hrk, decide_True, if_true, List.map_cons, List.sum_cons, ih]
          omega
        · simp only [hrk, decide_False, Bool.false_eq_true, if_false, ih]

theorem keys_accumulate (key : Option String) (size : Nat) (rows : List ThemeRow) :
    (accumulate key size rows).map (fun row => row._id)
      = if key ∈ rows.map (fun row => row._id) then rows.map (fun row => row._id)
        else rows.map (fun row => row._id) ++ [key] := by
  induction rows with
  | nil => simp [accumulate]
  | cons row rows ih =>
      by_cases hr : row._id = key
      · simp [accumulate, hr]
      · have hr' : ¬ key = row._id := fun h => hr h.symm
        simp only [accumulate, hr, if_false, List.map_cons, ih, List.mem_cons, hr', false_or]
        split <;> rfl

theorem count_pos_accumulate (key : Option String) (size : Nat) (rows : List ThemeRow)
    (h : ∀ row ∈ rows, 0 < row.count) : ∀ row ∈ accumulate key size rows, 0 < row.count := by
  induction rows with
  | nil =>
      intro row hrow
      simp only [accumulate, List.mem_singleton] at hrow
      rw [hrow]
      exact Nat.one_pos
  | cons r rows ih =>
      intro row hrow
      by_cases hr : r._id = key
      · simp only [accumulate, hr, if_true, List.mem_cons] at hrow
        rcases hrow with rfl | hrow
        · exact Nat.succ_pos _
        · exact h row (List.mem_cons_of_mem _ hrow)
      · simp only [accumulate, hr, if_false, List.mem_cons] at hrow
        rcases hrow with rfl | hrow
        · exact h _ (List.mem_cons_self _ _)
        · exact ih (fun x hx => h x (List.mem_cons_of_mem _ hx)) row hrow

theorem sum_count_accumulate (key : Option String) (size : Nat) (rows : List ThemeRow) :
    ((accumulate key size rows).map fun row => row.count).sum
        = (rows.map fun row => row.count).sum + 1 ∧
    ((accumulate key size rows).map fun row => row.totalVocab).sum
        = (rows.map fun row => row.totalVocab).sum + size := by
  induction rows with
  | nil => simp [accumulate]
  | cons r rows ih =>
      by_cases hr : r._id = key
      · simp only [accumulate, hr, if_true, List.map_cons, List.sum_cons]
        omega
      · simp only [accumulate, hr, if_false, List.map_cons, List.sum_cons, ih.1, ih.2]
        omega

/-- The groups formed by the `$group` stage. -/
theorem groupByTheme_spec (docs : List CorpusRecord) (rows : List ThemeRow)
    (harr : ∀ r ∈ docs, isArray r.doc.data.vocabulary = true)
    (hnodup : (rows.map fun row => row._id).Nodup)
    (hpos : ∀ row ∈ rows, 0 < row.count) :
    ∃ out, groupByTheme docs rows = some out ∧
      (out.map fun row => row._id).Nodup ∧
      (∀ row ∈ out, 0 < row.count) ∧
      (∀ k, countOf out k = countOf rows k + (docs.filter fun r => themeKey r = k).length) ∧
      (∀ k, vocabOf out k
        = vocabOf rows k + ((docs.filter fun r => themeKey r = k).map vocabularyLength).sum) ∧
      (∀ r ∈ docs, themeKey r ∈ out.map fun row => row._id) ∧
      (∀ k ∈ rows.map (fun row => row._id), k ∈ out.map fun row => row._id) ∧
      (out.map fun row => row.count).sum = (rows.map fun row => row.count).sum + docs.length ∧
      (out.map fun row => row.totalVocab).sum
        = (rows.map fun row => row.totalVocab).sum + (docs.map vocabularyLength).sum := by
  induction docs generalizing rows with
  | nil =>
      refine ⟨rows, rfl, hnodup, hpos, ?_, ?_, ?_, fun k hk => hk, ?_, ?_⟩
      · intro k
        simp
      · intro k
        simp
      · intro r hr
        cases hr
      · simp
      · simp
  | cons d rest ih =>
      have hd := vocabularySize_of_isArray d (harr d (List.mem_cons_self _ _))
      have hkeys := keys_accumulate (themeKey d) (vocabularyLength d) rows
      have hnodup' : ((accumulate (themeKey d) (vocabularyLength d) rows).map
          fun row => row._id).Nodup := by
        rw [hkeys]
        split
        · exact hnodup
        · rename_i hmem
          exact List.Nodup.append hnodup (List.nodup_singleton _)
            (by
              intro a ha hb
              rw [List.mem_singleton] at hb
              exact hmem (hb ▸ ha))
      have hmemkey : themeKey d ∈ (accumulate (themeKey d) (vocabularyLength d) rows).map
          fun row => row._id := by
        rw [hkeys]
        split
        · assumption
        · simp
      have hmono : ∀ k ∈ rows.map (fun row => row._id),
          k ∈ (accumulate (themeKey d) (vocabularyLength d) rows).map fun row => row._id := by
        intro k hk
        rw [hkeys]
        split
        · exact hk
        · exact List.mem_append_left _ hk
      obtain ⟨out, hout, h1, h2, h3, h4, h5, h6, h7, h8⟩ :=
        ih (accumulate (themeKey d) (vocabularyLength d) rows)
          (fun r hr => harr r (List.mem_cons_of_mem _ hr)) hnodup'
          (count_pos_accumulate _ _ rows hpos)
      have hsum := sum_count_accumulate (themeKey d) (vocabularyLength d) rows
      refine ⟨out, ?_, h1, h2, ?_, ?_, ?_, ?_, ?_, ?_⟩
      · simp only [groupByTheme, hd, hout]
      · intro k
        rw [h3 k, countOf_accumulate]
        by_cases hk : themeKey d = k
        · simp only [List.filter_cons, hk, decide_True, if_true, List.length_cons]
          omega
        · simp only [List.filter_cons, hk, decide_False, Bool.false_eq_true, if_false]
          omega
      · intro k
        rw [h4 k, vocabOf_accumulate]
        by_cases hk : themeKey d = k
        · simp only [List.filter_cons, hk, decide_True, if_true, List.map_cons, List.sum_cons]
          omega
        · simp only [List.filter_cons, hk, decide_False, Bool.false_eq_true, if_false]
          omega
      · intro r hr
        rcases List.mem_cons.mp hr with rfl | hr
        · exact h6 _ hmemkey
        · exact h5 r hr
      · intro k hk
        exact h6 k (hmono k hk)
      · rw [h7, hsum.1, List.length_cons]
        omega
      · rw [h8, hsum.2, List.map_cons, List.sum_cons]
        omega

theorem countOf_of_nodup (rows : List ThemeRow)
    (hnodup : (rows.map fun row => row._id).Nodup) (row : ThemeRow) (hrow : row ∈ rows) :
    countOf rows row._id = row.count ∧ vocabOf rows row._id = row.totalVocab := by
  induction rows with
  | nil => cases hrow
  | cons r rows ih =>
      rw [List.map_cons, List.nodup_cons] at hnodup
      unfold countOf vocabOf at ih ⊢
      rcases List.mem_cons.mp hrow with rfl | hmem
      · have hnone : ∀ x ∈ rows, ¬ x._id = row._id := by
          intro x hx hxe
          exact hnodup.1 (List.mem_map.mpr ⟨x, hx, hxe⟩)
        have hfilter : rows.filter (fun x => decide (x._id = row._id)) = [] := by
          rw [List.filter_eq_nil_iff]
          intro x hx
          simpa using hnone x hx
        simp [List.filter_cons, hfilter]
      · have hne : ¬ r._id = row._id := by
          intro he
          exact hnodup.1 (List.mem_map.mpr ⟨row, hmem, he.symm⟩)
        simp only [List.filter_cons, hne, decide_False, Bool.false_eq_true, if_false]
        exact ih hnodup.2 hmem

theorem foldl_totalVocab (rows : List ThemeRow) (init : Nat) :
    rows.foldl (fun sum s => sum + s.totalVocab) init
      = init + (rows.map fun row => row.totalVocab).sum := by
  induction rows generalizing init with
  | nil => simp
  | cons r rows ih =>
      simp only [List.foldl_cons, ih, List.map_cons, List.sum_cons]
      omega

/-- C25: for every database and owner whose non-archived entries all have an array
as `vocabulary`, `getStats` answers 200 with `byTheme` holding exactly one row for
each value of `themes.primary` among the owner's non-archived entries: the keys of
the rows are pairwise distinct, every entry's key has a row, every row has a positive
`count` equal to the number of those entries with its key and a `totalVocab` equal to
the sum of their vocabulary lengths, and the rows are in descending order of `count`;
`total` is the number of those entries and equals the sum of the counts, and
`totalVocabulary` is the sum of the vocabulary lengths of all of them. -/
theorem getStats_by_theme (sizeError : String) (db : Database) (owner : Nat)
    (harr : ∀ r ∈ ownedActive db owner, isArray r.doc.data.vocabulary = true) :
    ∃ byTheme : List ThemeRow,
      corpusController.getStats sizeError db (some owner)
        = { status := 200
            body := .stats (ownedActive db owner).length byTheme
              ((ownedActive db owner).map vocabularyLength).sum } ∧
      (byTheme.map fun row => row._id).Nodup ∧
      (∀ r ∈ ownedActive db owner, themeKey r ∈ byTheme.map fun row => row._id) ∧
      (∀ row ∈ byTheme,
        0 < row.count ∧
        row.count = ((ownedActive db owner).filter fun r => themeKey r = row._id).length ∧
        row.totalVocab
          = (((ownedActive db owner).filter fun r => themeKey r = row._id).map
              vocabularyLength).sum) ∧
      byTheme.Sorted (fun a b => a.count ≥ b.count) ∧
      (byTheme.map fun row => row.count).sum = (ownedActive db owner).length := by
  obtain ⟨out, hout, h1, h2, h3, h4, h5, _, h7, h8⟩ :=
    groupByTheme_spec (ownedActive db owner) [] harr List.nodup_nil
      (fun row hrow => by cases hrow)
  have hperm : (sortByCount out).Perm out := List.perm_insertionSort _ _
  have hsorted : (sortByCount out).Sorted (fun a b => a.count ≥ b.count) := by
    haveI : IsTotal ThemeRow (fun a b => a.count ≥ b.count) :=
      ⟨fun a b => Nat.le_total b.count a.count⟩
    haveI : IsTrans ThemeRow (fun a b => a.count ≥ b.count) :=
      ⟨fun a b c hab hbc => Nat.le_trans hbc hab⟩
    exact List.sorted_insertionSort _ _
  refine ⟨sortByCount out, ?_, ?_, ?_, ?_, hsorted, ?_⟩
  · simp only [corpusController.getStats, hout, foldl_totalVocab, Nat.zero_add]
    rw [(hperm.map fun row => row.totalVocab).sum_eq, h8]
    simp
  · exact ((hperm.map fun row => row._id).nodup_iff).mpr h1
  · intro r hr
    exact ((hperm.map fun row => row._id).mem_iff).mpr (h5 r hr)
  · intro row hrow
    have hmem : row ∈ out := hperm.mem_iff.mp hrow
    obtain ⟨hc, hv⟩ := countOf_of_nodup out h1 row hmem
    have h3' := h3 row._id
    have h4' := h4 row._id
    simp only [countOf, vocabOf, List.filter_nil, List.map_nil, List.sum_nil, Nat.zero_add]
      at h3' h4'
    refine ⟨h2 row hmem, ?_, ?_⟩
    · rw [← hc]
      exact h3'
    · rw [← hv]
      exact h4'
  · rw [(hperm.map fun row => row.count).sum_eq, h7]
    simp

theorem getStats_by_theme_witness :
    ∃ byTheme : List ThemeRow,
      corpusController.getStats "not an array"
          { corpora := [abcEntry, scienceEntry, otherOwnerEntry, twoWordEntry], opinions := [] }
          (some 1)
        = { status := 200, body := .stats 3 byTheme 3 } ∧
      byTheme.map (fun row => (row._id, row.count, row.totalVocab))
        = [(some "General", 2, 2), (some "Science", 1, 1)] := by
  obtain ⟨byTheme, h, _⟩ := getStats_by_theme "not an array"
    { corpora := [abcEntry, scienceEntry, otherOwnerEntry, twoWordEntry], opinions := [] } 1
    (by decide)
  refine ⟨byTheme, h, ?_⟩
  have h2 : corpusController.getStats "not an array"
      { corpora := [abcEntry, scienceEntry, otherOwnerEntry, twoWordEntry], opinions := [] }
      (some 1)
    = { status := 200
        body := .stats 3 [{ _id := some "General", count := 2, totalVocab := 2 },
                          { _id := some "Science", count := 1, totalVocab := 1 }] 3 } := by
    rfl
  rw [h2] at h
  simp only [StatsReply.mk.injEq, StatsBody.stats.injEq, true_and] at h
  rw [← h.2.1]
  rfl

/-- When the vocabulary of one of the owner's non-archived entries is not an array,
the pipeline is rejected and `getStats` answers 500. -/
theorem getStats_size_error (sizeError : String) (db : Database) (owner : Nat)
    (h : ∃ r ∈ ownedActive db owner, isArray r.doc.data.vocabulary = false) :
    corpusController.getStats sizeError db (some owner)
      = { status := 500, body := .error ("获取统计失败: " ++ sizeError) } := by
  have key : ∀ (docs : List CorpusRecord) (rows : List ThemeRow),
      (∃ r ∈ docs, isArray r.doc.data.vocabulary = false) → groupByTheme docs rows = none := by
    intro docs
    induction docs with
    | nil => rintro rows ⟨r, hr, _⟩; cases hr
    | cons d rest ih =>
        rintro rows ⟨r, hr, hna⟩
        cases hd : vocabularySize d with
        | none => simp only [groupByTheme, hd]
        | some size =>
            simp only [groupByTheme, hd]
            apply ih
            rcases List.mem_cons.mp hr with rfl | hr
            · exfalso
              unfold vocabularySize at hd
              cases hv : r.doc.data.vocabulary <;> simp_all [isArray]
            · exact ⟨r, hr, hna⟩
  simp only [corpusController.getStats, key _ _ h]

/-! ## The retries of `analyzeTextWithAI` -/

/-- One unfolding of `analyzeTextWithAI` on a valid text with the key set. -/
theorem analyzeTextWithAI_step (parse : String → Option JsVal)
    (provider : Nat → ProviderAnswer) (text : String) (retryCount : Nat)
    (htext : jsTrim text ≠ "") :
    analyzeTextWithAI true parse provider text retryCount =
      match provider retryCount with
      | .rejected e =>
          catchBlock retryCount e fun _ =>
            analyzeTextWithAI true parse provider text (retryCount + 1)
      | .content none =>
          catchBlock retryCount (plainError "AI response is empty") fun _ =>
            analyzeTextWithAI true parse provider text (retryCount + 1)
      | .content (some content) =>
          if content = "" then
            catchBlock retryCount (plainError "AI response is empty") fun _ =>
              analyzeTextWithAI true parse provider text (retryCount + 1)
          else
            match parseAndValidate parse text content with
            | some validated => { result := .ok validated, requests := 1 }
            | none =>
                if retryCount < MAX_RETRIES then
                  afterRequest (analyzeTextWithAI true parse provider text (retryCount + 1))
                else
                  catchBlock retryCount (plainError "AI返回格式异常，请重试") fun _ =>
                    analyzeTextWithAI true parse provider text (retryCount + 1) := by
  rw [analyzeTextWithAI]
  simp only [htext, if_false, Bool.not_true, Bool.false_eq_true, dite_eq_ite]

/-- Without the key, or on a blank text, no request is issued. -/
theorem analyzeTextWithAI_guard (apiKey : Bool) (parse : String → Option JsVal)
    (provider : Nat → ProviderAnswer) (text : String) (retryCount : Nat)
    (h : jsTrim text = "" ∨ apiKey = false) :
    (analyzeTextWithAI apiKey parse provider text retryCount).requests = 0 := by
  rw [analyzeTextWithAI]
  by_cases ht : jsTrim text = ""
  · simp only [ht, if_true]
  · rcases h with h | h
    · exact absurd h ht
    · simp only [ht, if_false, h, Bool.not_false, if_true]

/-- The `catch` block on an error made by `new Error(message)`. -/
theorem catchBlock_plainError (retryCount : Nat) (message : String)
    (retry : retryCount < MAX_RETRIES → Analysis) :
    catchBlock retryCount (plainError message) retry
      = failsWith (if message != "" then message else "AI分析失败") := by
  simp [catchBlock, plainError, errorMessage]

/-- The `catch` block throws after the one request, or returns the recursive call. -/
theorem catchBlock_cases (retryCount : Nat) (e : ServiceError)
    (retry : retryCount < MAX_RETRIES → Analysis) :
    (catchBlock retryCount e retry).requests = 1 ∨
      ∃ h : retryCount < MAX_RETRIES, catchBlock retryCount e retry = afterRequest (retry h) := by
  unfold catchBlock
  split
  · exact Or.inl rfl
  · split
    · exact Or.inl rfl
    · split
      · exact Or.inl rfl
      · split
        · exact Or.inl rfl
        · split
          · rename_i h
            exact Or.inr ⟨h.1, rfl⟩
          · exact Or.inl rfl

/-- A call issues at most one request, or one request and those of the recursive
call. -/
theorem analyzeTextWithAI_cases (apiKey : Bool) (parse : String → Option JsVal)
    (provider : Nat → ProviderAnswer) (text : String) (retryCount : Nat) :
    (analyzeTextWithAI apiKey parse provider text retryCount).requests ≤ 1 ∨
      (retryCount < MAX_RETRIES ∧
        analyzeTextWithAI apiKey parse provider text retryCount
          = afterRequest (analyzeTextWithAI apiKey parse provider text (retryCount + 1))) := by
  by_cases hg : jsTrim text = "" ∨ apiKey = false
  · left
    rw [analyzeTextWithAI_guard apiKey parse provider text retryCount hg]
    exact Nat.zero_le _
  · have htext : jsTrim text ≠ "" := fun h => hg (Or.inl h)
    have hkey : apiKey = true := by
      cases apiKey
      · exact absurd (Or.inr rfl) hg
      · rfl
    subst hkey
    have hcatch : ∀ e : ServiceError,
        (catchBlock retryCount e fun _ =>
            analyzeTextWithAI true parse provider text (retryCount + 1)).requests ≤ 1 ∨
        (retryCount < MAX_RETRIES ∧
          (catchBlock retryCount e fun _ =>
            analyzeTextWithAI true parse provider text (retryCount + 1))
          = afterRequest (analyzeTextWithAI true parse provider text (retryCount + 1))) := by
      intro e
      rcases catchBlock_cases retryCount e (fun _ =>
          analyzeTextWithAI true parse provider text (retryCount + 1)) with h | ⟨h, heq⟩
      · exact Or.inl (le_of_eq h)
      · exact Or.inr ⟨h, heq⟩
    rw [analyzeTextWithAI_step parse provider text retryCount htext]
    cases hp : provider retryCount with
    | rejected e => exact hcatch e
    | content c =>
        cases c with
        | none => exact hcatch _
        | some content =>
            by_cases hc : content = ""
            · simp only [hc, if_true]
              exact hcatch _
            · simp only [hc, if_false]
              cases hv : parseAndValidate parse text content with
              | some validated => exact Or.inl (le_refl _)
              | none =>
                  by_cases hr : retryCount < MAX_RETRIES
                  · rw [if_pos hr]
                    exact Or.inr ⟨hr, rfl⟩
                  · rw [if_neg hr]
                    exact hcatch _

/-- The number of requests of a call started at `retryCount`. -/
theorem analyzeTextWithAI_requests_le (apiKey : Bool) (parse : String → Option JsVal)
    (provider : Nat → ProviderAnswer) (text : String) (budget retryCount : Nat)
    (h : MAX_RETRIES - retryCount ≤ budget) :
    (analyzeTextWithAI apiKey parse provider text retryCount).requests ≤ budget + 1 := by
  induction budget generalizing retryCount with
  | zero =>
      rcases analyzeTextWithAI_cases apiKey parse provider text retryCount with h1 | ⟨h1, _⟩
      · exact h1
      · omega
  | succ n ih =>
      rcases analyzeTextWithAI_cases apiKey parse provider text retryCount with h1 | ⟨h1, h2⟩
      · omega
      · rw [h2]
        have := ih (retryCount + 1) (by omega)
        simp only [afterRequest]
        omega

/-- A call whose response cannot be parsed. -/
theorem analyzeTextWithAI_unparsed (parse : String → Option JsVal)
    (provider : Nat → ProviderAnswer) (text : String) (retryCount : Nat) (content : String)
    (htext : jsTrim text ≠ "") (hp : provider retryCount = .content (some content))
    (hc : content ≠ "") (hparse : parse (cleanContent content) = none) :
    analyzeTextWithAI true parse provider text retryCount =
      if retryCount < MAX_RETRIES then
        afterRequest (analyzeTextWithAI true parse provider text (retryCount + 1))
      else failsWith "AI返回格式异常，请重试" := by
  have hv : parseAndValidate parse text content = none := by
    simp only [parseAndValidate, hparse]
  rw [analyzeTextWithAI_step parse provider text retryCount htext]
  simp only [hp, hc, if_false, hv, catchBlock_plainError]
  rfl

/-- C26: whatever the provider answers, a call of `analyzeTextWithAI` started with
`retryCount = 0` returns or throws after at most `MAX_RETRIES + 1 = 3` requests
(the retries after a response that cannot be parsed and those after a network error
advance the same counter).  When the key is set, the text is not blank and the
content of every response is a non-empty text that `JSON.parse` rejects, the call
issues exactly 3 requests and throws the error `AI返回格式异常，请重试`, which is none of
the errors thrown for a time-out (`ECONNABORTED`) or for the statuses 401, 429, 500
and 503. -/
theorem analyzeTextWithAI_at_most_three_requests (apiKey : Bool)
    (parse : String → Option JsVal) (provider : Nat → ProviderAnswer) (text : String) :
    (analyzeTextWithAI apiKey parse provider text 0).requests ≤ MAX_RETRIES + 1 ∧
    MAX_RETRIES + 1 = 3 ∧
    (apiKey = true → jsTrim text ≠ "" →
      (∀ k, ∃ content, provider k = .content (some content) ∧ content ≠ "" ∧
        parse (cleanContent content) = none) →
      analyzeTextWithAI apiKey parse provider text 0
        = { result := .error "AI返回格式异常，请重试", requests := 3 }) ∧
    (∀ (retryCount : Nat) (e : ServiceError) (retry : retryCount < MAX_RETRIES → Analysis),
      e.code = some "ECONNABORTED" ∨ e.status = some 401 ∨ e.status = some 429 ∨
        e.status = some 500 ∨ e.status = some 503 →
      (catchBlock retryCount e retry).requests = 1 ∧
      (catchBlock retryCount e retry).result ≠ .error "AI返回格式异常，请重试") := by
  refine ⟨analyzeTextWithAI_requests_le apiKey parse provider text MAX_RETRIES 0 (by simp),
    rfl, ?_, ?_⟩
  · intro hkey htext hall
    subst hkey
    obtain ⟨c0, hp0, hc0, hparse0⟩ := hall 0
    obtain ⟨c1, hp1, hc1, hparse1⟩ := hall 1
    obtain ⟨c2, hp2, hc2, hparse2⟩ := hall 2
    rw [analyzeTextWithAI_unparsed parse provider text 0 c0 htext hp0 hc0 hparse0,
      analyzeTextWithAI_unparsed parse provider text 1 c1 htext hp1 hc1 hparse1,
      analyzeTextWithAI_unparsed parse provider text 2 c2 htext hp2 hc2 hparse2]
    rfl
  · intro retryCount e retry h
    have h1 : "AI分析超时（超过" ++ toString (TIMEOUT / 1000) ++ "秒），请尝试减少内容后重试"
        ≠ "AI返回格式异常，请重试" := by decide
    have h2 : "AI API认证失败，请检查API密钥配置" ≠ "AI返回格式异常，请重试" := by decide
    have h3 : "AI API请求频率过高，请稍后重试" ≠ "AI返回格式异常，请重试" := by decide
    have h4 : "AI服务暂时不可用，请稍后重试" ≠ "AI返回格式异常，请重试" := by decide
    have key : ∀ m : String, m ≠ "AI返回格式异常，请重试" →
        (failsWith m).requests = 1 ∧ (failsWith m).result ≠ .error "AI返回格式异常，请重试" := by
      intro m hm
      refine ⟨rfl, ?_⟩
      intro hr
      simp only [failsWith, Except.error.injEq] at hr
      exact hm hr
    unfold catchBlock
    by_cases hc : e.code = some "ECONNABORTED"
    · rw [if_pos hc]
      exact key _ h1
    · rw [if_neg hc]
      by_cases h401 : e.status = some 401
      · rw [if_pos h401]
        exact key _ h2
      · rw [if_neg h401]
        by_cases h429 : e.status = some 429
        · rw [if_pos h429]
          exact key _ h3
        · rw [if_neg h429]
          have h5 : e.status = some 500 ∨ e.status = some 503 := by
            rcases h with h | h | h | h | h
            · exact absurd h hc
            · exact absurd h h401
            · exact absurd h h429
            · exact Or.inl h
            · exact Or.inr h
          rw [if_pos h5]
          exact key _ h4

theorem analyzeTextWithAI_at_most_three_requests_witness :
    analyzeTextWithAI true emptyObjectParse garbledProvider "The gig economy." 0
      = { result := .error "AI返回格式异常，请重试", requests := 3 } :=
  (analyzeTextWithAI_at_most_three_requests true emptyObjectParse garbledProvider
    "The gig economy.").2.2.1 rfl (by decide)
    (fun _ => ⟨"not json", rfl, by decide, rfl⟩)

/-- C27: on a valid text with the key set, for every `retryCount`: when the request
is rejected with status 401 (resp. 429) the call throws `AI API认证失败，请检查API密钥配置`
(resp. `AI API请求频率过高，请稍后重试`) after that one request; when it is rejected
without a response and with the code `ECONNRESET` or `ETIMEDOUT`, the call issues
the request of `retryCount + 1` and returns its outcome as long as
`retryCount < MAX_RETRIES`, and throws after the one request once the budget is
used up.  A rejection with the code `ECONNABORTED` is the time-out of the request
itself, which is thrown as the time-out error before the status is looked at. -/
theorem analyzeTextWithAI_error_kinds (parse : String → Option JsVal)
    (provider : Nat → ProviderAnswer) (text : String) (retryCount : Nat)
    (e : ServiceError) (htext : jsTrim text ≠ "")
    (hp : provider retryCount = .rejected e) (hcode : e.code ≠ some "ECONNABORTED") :
    (e.status = some 401 →
      analyzeTextWithAI true parse provider text retryCount
        = { result := .error "AI API认证失败，请检查API密钥配置", requests := 1 }) ∧
    (e.status = some 429 →
      analyzeTextWithAI true parse provider text retryCount
        = { result := .error "AI API请求频率过高，请稍后重试", requests := 1 }) ∧
    (e.status = none → e.code = some "ECONNRESET" ∨ e.code = some "ETIMEDOUT" →
      retryCount < MAX_RETRIES →
      analyzeTextWithAI true parse provider text retryCount
        = afterRequest (analyzeTextWithAI true parse provider text (retryCount + 1)) ∧
      (analyzeTextWithAI true parse provider text retryCount).requests
        = (analyzeTextWithAI true parse provider text (retryCount + 1)).requests + 1) ∧
    (e.status = none → e.code = some "ECONNRESET" ∨ e.code = some "ETIMEDOUT" →
      ¬ retryCount < MAX_RETRIES →
      analyzeTextWithAI true parse provider text retryCount
        = { result := .error (errorMessage e), requests := 1 }) := by
  have hstep : analyzeTextWithAI true parse provider text retryCount
      = catchBlock retryCount e fun _ =>
          analyzeTextWithAI true parse provider text (retryCount + 1) := by
    rw [analyzeTextWithAI_step parse provider text retryCount htext, hp]
  rw [hstep]
  unfold catchBlock
  rw [if_neg hcode]
  refine ⟨?_, ?_, ?_, ?_⟩
  · intro h
    rw [if_pos h]
    rfl
  · intro h
    have h401 : e.status ≠ some 401 := by rw [h]; decide
    rw [if_neg h401, if_pos h]
    rfl
  · intro hs hnet hr
    have h1 : e.status ≠ some 401 := by rw [hs]; exact Option.noConfusion
    have h2 : e.status ≠ some 429 := by rw [hs]; exact Option.noConfusion
    have h3 : ¬ (e.status = some 500 ∨ e.status = some 503) := by
      rw [hs]
      rintro (h | h) <;> exact Option.noConfusion h
    rw [if_neg h1, if_neg h2, if_neg h3, dif_pos ⟨hr, hnet⟩]
    exact ⟨rfl, rfl⟩
  · intro hs hnet hr
    have h1 : e.status ≠ some 401 := by rw [hs]; exact Option.noConfusion
    have h2 : e.status ≠ some 429 := by rw [hs]; exact Option.noConfusion
    have h3 : ¬ (e.status = some 500 ∨ e.status = some 503) := by
      rw [hs]
      rintro (h | h) <;> exact Option.noConfusion h
    rw [if_neg h1, if_neg h2, if_neg h3, dif_neg (fun h => hr h.1)]
    rfl

theorem analyzeTextWithAI_error_kinds_witness :
    analyzeTextWithAI true emptyObjectParse unauthorizedProvider "The gig economy." 1
      = { result := .error "AI API认证失败，请检查API密钥配置", requests := 1 } :=
  (analyzeTextWithAI_error_kinds emptyObjectParse unauthorizedProvider "The gig economy." 1
    { code := some "ERR_BAD_REQUEST", status := some 401,
      providerMessage := some "Incorrect API key", message := "Request failed" }
    (by decide) rfl (by decide)).1 rfl

/-! ## The fence stripping of `analyzeTextWithAI` -/

theorem fence_chars : "```".data = [Char.ofNat 96, Char.ofNat 96, Char.ofNat 96] := rfl

theorem jsonFence_chars :
    "```json".data = [Char.ofNat 96, Char.ofNat 96, Char.ofNat 96, 'j', 's', 'o', 'n'] := rfl

theorem fence_of_jsonFence (l : List Char) (h : "```json".data.isPrefixOf l = true) :
    "```".data.isPrefixOf l = true := by
  rw [jsonFence_chars] at h
  rw [fence_chars]
  rcases l with _ | ⟨a1, _ | ⟨a2, _ | ⟨a3, r⟩⟩⟩
  · simp [List.isPrefixOf] at h
  · simp [List.isPrefixOf] at h
  · simp [List.isPrefixOf] at h
  · simp only [List.isPrefixOf, Bool.and_eq_true, beq_iff_eq] at h
    obtain ⟨rfl, rfl, rfl, _⟩ := h
    simp [List.isPrefixOf]

theorem fence_not_whitespace (c : Char) (cs : List Char)
    (h : "```".data.isPrefixOf (c :: cs) = true) : jsIsWhitespace c = false := by
  rw [fence_chars] at h
  simp only [List.isPrefixOf, Bool.and_eq_true, beq_iff_eq] at h
  rw [← h.1]
  decide

/-- After an occurrence, the white space that follows is dropped. -/
theorem removeAll_after (lit : List Char)
    (hlit : ∀ l, lit.isPrefixOf l = true → "```".data.isPrefixOf l = true) (l : List Char) :
    removeAll lit l 0 true = removeAll lit (l.dropWhile jsIsWhitespace) 0 false := by
  induction l with
  | nil => rfl
  | cons c cs ih =>
      by_cases hp : lit.isPrefixOf (c :: cs) = true
      · have hw := fence_not_whitespace c cs (hlit _ hp)
        simp only [List.dropWhile_cons, hw, Bool.false_eq_true, if_false, removeAll, hp, if_true]
      · by_cases hw : jsIsWhitespace c = true
        · simp only [removeAll, hp, if_false, hw, Bool.and_self, if_true, List.dropWhile_cons, ih,
            Bool.false_eq_true]
        · simp only [removeAll, hp, if_false, hw, Bool.and_false, Bool.false_eq_true,
            List.dropWhile_cons, Bool.false_and]

/-- A text without a fence is left as it is. -/
theorem removeAll_no_fence (lit : List Char)
    (hlit : ∀ l, lit.isPrefixOf l = true → "```".data.isPrefixOf l = true) (l : List Char)
    (h : containsFence l = false) : removeAll lit l 0 false = l := by
  induction l with
  | nil => rfl
  | cons c cs ih =>
      simp only [containsFence, Bool.or_eq_false_iff] at h
      have hp : ¬ lit.isPrefixOf (c :: cs) = true := by
        intro hp
        rw [hlit _ hp] at h
        exact Bool.noConfusion h.1
      simp only [removeAll, hp, if_false, Bool.false_and, Bool.false_eq_true, ih h.2]

theorem fence_isPrefixOf_append (x y : List Char) :
    "```".data.isPrefixOf (x ++ '\n' :: y) = "```".data.isPrefixOf x := by
  have hn : ((Char.ofNat 96 : Char) == '\n') = false := by decide
  rw [fence_chars]
  rcases x with _ | ⟨a1, _ | ⟨a2, _ | ⟨a3, r⟩⟩⟩ <;>
    simp [List.isPrefixOf, hn]

/-- A text without a fence, followed by a line break and a closing fence: the
pattern with `json` finds nothing. -/
theorem removeAll_json_closing (l : List Char) (h : containsFence l = false) :
    removeAll "```json".data (l ++ '\n' :: "```".data) 0 false = l ++ '\n' :: "```".data := by
  induction l with
  | nil => decide
  | cons c cs ih =>
      simp only [containsFence, Bool.or_eq_false_iff] at h
      have hp : ¬ "```json".data.isPrefixOf (c :: cs ++ '\n' :: "```".data) = true := by
        intro hp
        have := fence_of_jsonFence _ hp
        rw [fence_isPrefixOf_append, h.1] at this
        exact Bool.noConfusion this
      rw [List.cons_append] at hp ⊢
      simp only [removeAll, hp, if_false, Bool.false_and, Bool.false_eq_true, ih h.2]

/-- A text without a fence, followed by a line break and a closing fence: the plain
pattern removes the closing fence. -/
theorem removeAll_closing (l : List Char) (h : containsFence l = false) :
    removeAll "```".data (l ++ '\n' :: "```".data) 0 false = l ++ ['\n'] := by
  induction l with
  | nil => decide
  | cons c cs ih =>
      simp only [containsFence, Bool.or_eq_false_iff] at h
      have hp : ¬ "```".data.isPrefixOf (c :: cs ++ '\n' :: "```".data) = true := by
        rw [fence_isPrefixOf_append, h.1]
        exact Bool.noConfusion
      rw [List.cons_append] at hp ⊢
      simp only [removeAll, hp, if_false, Bool.false_and, Bool.false_eq_true, ih h.2,
        List.cons_append]

theorem containsFence_dropWhile (l : List Char) (h : containsFence l = false) :
    containsFence (l.dropWhile jsIsWhitespace) = false := by
  induction l with
  | nil => rfl
  | cons c cs ih =>
      rw [List.dropWhile_cons]
      split
      · simp only [containsFence, Bool.or_eq_false_iff] at h
        exact ih h.2
      · exact h

/-- The characters of `s.trim()`. -/
theorem jsTrim_mk (l : List Char) :
    jsTrim (String.mk l)
      = String.mk ((l.dropWhile jsIsWhitespace).reverse.dropWhile jsIsWhitespace).reverse :=
  rfl

/-- What follows an opening fence: the white space up to the text is dropped. -/
theorem removeAll_after_opening (lit : List Char)
    (hlit : ∀ l, lit.isPrefixOf l = true → "```".data.isPrefixOf l = true)
    (j : List Char) :
    removeAll lit ('\n' :: (j ++ '\n' :: "```".data)) 0 true
      = if (j.dropWhile jsIsWhitespace).isEmpty then removeAll lit "```".data 0 false
        else removeAll lit (j.dropWhile jsIsWhitespace ++ '\n' :: "```".data) 0 false := by
  have hwn : jsIsWhitespace '\n' = true := by decide
  have hfd : List.dropWhile jsIsWhitespace ('\n' :: "```".data) = "```".data := by decide
  rw [removeAll_after lit hlit, List.dropWhile_cons, if_pos hwn, List.dropWhile_append, hfd]
  split <;> rfl

/-- The trim removes the line break left before the closing fence. -/
theorem jsTrim_closing (j : List Char) :
    jsTrim (String.mk (if (j.dropWhile jsIsWhitespace).isEmpty then []
        else j.dropWhile jsIsWhitespace ++ ['\n']))
      = jsTrim (String.mk j) := by
  have hwn : jsIsWhitespace '\n' = true := by decide
  cases hd : j.dropWhile jsIsWhitespace with
  | nil =>
      simp only [List.isEmpty_nil, if_true, jsTrim_mk, hd, List.dropWhile_nil]
  | cons c cs =>
      have hne : (c :: cs).isEmpty = false := rfl
      have hidem : (c :: cs).dropWhile jsIsWhitespace = c :: cs := by
        rw [← hd]
        exact List.dropWhile_idempotent _ _
      simp only [hne, Bool.false_eq_true, if_false]
      rw [jsTrim_mk, jsTrim_mk, hd, List.dropWhile_append, hidem]
      simp only [hne, Bool.false_eq_true, if_false, List.reverse_append, List.reverse_cons,
        List.reverse_nil, List.nil_append, List.singleton_append, List.dropWhile_cons, hwn,
        if_true]

/-- C28: for every text `j` that contains no three consecutive backticks, the
cleaning step maps `j` wrapped in a `json` fence, `j` wrapped in a bare fence and `j`
itself to the trimmed `j`; hence, whatever `JSON.parse` is, a response in a fence is
parsed and validated to the same outcome as the response without the fence. -/
theorem cleanContent_strips_fence (j : String) (h : containsFence j.data = false) :
    cleanContent ("```json\n" ++ j ++ "\n```") = jsTrim j ∧
    cleanContent ("```\n" ++ j ++ "\n```") = jsTrim j ∧
    cleanContent j = jsTrim j ∧
    (∀ (parse : String → Option JsVal) (text : String),
      parseAndValidate parse text ("```json\n" ++ j ++ "\n```")
          = parseAndValidate parse text j ∧
      parseAndValidate parse text ("```\n" ++ j ++ "\n```")
          = parseAndValidate parse text j) := by
  have hJ : ∀ l, "```json".data.isPrefixOf l = true → "```".data.isPrefixOf l = true :=
    fence_of_jsonFence
  have hT : ∀ l, "```".data.isPrefixOf l = true → "```".data.isPrefixOf l = true :=
    fun _ hl => hl
  have hdrop := containsFence_dropWhile j.data h
  have hn : ((Char.ofNat 96 : Char) == '\n') = false := by decide
  have hjn : (('j' : Char) == '\n') = false := by decide
  have hjb : (('j' : Char) == Char.ofNat 96) = false := by decide
  have hw : jsIsWhitespace (Char.ofNat 96) = false := by decide
  have h1 : cleanContent ("```json\n" ++ j ++ "\n```") = jsTrim j := by
    have hdata : ("```json\n" ++ j ++ "\n```").data
        = "```json".data ++ '\n' :: (j.data ++ '\n' :: "```".data) := by
      simp only [String.data_append]
      rfl
    have hopen : ∀ rest : List Char,
        removeAll "```json".data ("```json".data ++ rest) 0 false
          = removeAll "```json".data rest 0 true := by
      intro rest
      rw [jsonFence_chars]
      simp [removeAll, List.isPrefixOf]
    have hbare : removeAll "```".data (removeAll "```json".data "```".data 0 false) 0 false
        = [] := by decide
    unfold cleanContent
    rw [hdata, hopen, removeAll_after_opening _ hJ]
    rw [← jsTrim_closing j.data]
    split
    · rw [hbare]
    · rw [removeAll_json_closing _ hdrop, removeAll_closing _ hdrop]
  have h2 : cleanContent ("```\n" ++ j ++ "\n```") = jsTrim j := by
    have hdata : ("```\n" ++ j ++ "\n```").data
        = "```".data ++ '\n' :: (j.data ++ '\n' :: "```".data) := by
      simp only [String.data_append]
      rfl
    have hkeep : ∀ rest : List Char,
        removeAll "```json".data ("```".data ++ '\n' :: rest) 0 false
          = "```".data ++ '\n' :: removeAll "```json".data rest 0 false := by
      intro rest
      rw [jsonFence_chars, fence_chars]
      simp [removeAll, List.isPrefixOf, hn, hjn, hjb, hw]
    have hopen : ∀ rest : List Char,
        removeAll "```".data ("```".data ++ rest) 0 false
          = removeAll "```".data rest 0 true := by
      intro rest
      rw [fence_chars]
      simp [removeAll, List.isPrefixOf]
    have hbare : removeAll "```".data "```".data 0 false = [] := by decide
    unfold cleanContent
    rw [hdata, hkeep, removeAll_json_closing _ h, hopen, removeAll_after_opening _ hT]
    rw [← jsTrim_closing j.data]
    split
    · rw [hbare]
    · rw [removeAll_closing _ hdrop]
  have h3 : cleanContent j = jsTrim j := by
    unfold cleanContent
    rw [removeAll_no_fence _ hJ _ h, removeAll_no_fence _ hT _ h]
  refine ⟨h1, h2, h3, ?_⟩
  intro parse text
  simp only [parseAndValidate, h1, h2, h3]
  exact ⟨trivial, trivial⟩

theorem cleanContent_strips_fence_witness :
    cleanContent ("```json\n" ++ "\x7b\"summary\": \"gig work\"\x7d " ++ "\n```")
      = jsTrim "\x7b\"summary\": \"gig work\"\x7d " :=
  (cleanContent_strips_fence "\x7b\"summary\": \"gig work\"\x7d " (by decide)).1

/-! ## A second pass of `validateAnalysisResult` -/

theorem assignProp_self (ps : Props) (k : String) (v : JsVal)
    (h : lookupProp ps k = some v) : assignProp ps k v = ps := by
  induction ps with
  | nil => simp [lookupProp] at h
  | cons kv rest ih =>
      obtain ⟨key, old⟩ := kv
      by_cases hk : key = k
      · simp only [lookupProp, hk, if_true, Option.some.injEq] at h
        simp only [assignProp, hk, if_true, h]
      · simp only [lookupProp, hk, if_false] at h
        simp only [assignProp, hk, if_false, ih h]

theorem jsOr_of_falsy (a : Option JsVal) (d : JsVal) (h : truthy (jsOr a d) = false) :
    jsOr a d = d := by
  cases a with
  | none => rfl
  | some v =>
      cases hv : truthy v
      · simp [jsOr, hv]
      · simp [jsOr, hv] at h

theorem jsOr_of_truthy (v d : JsVal) (h : truthy v = true) : jsOr (some v) d = v := by
  simp [jsOr, h]

theorem jsOr_jsOr (a : Option JsVal) (d : JsVal) :
    jsOr (some (jsOr a d)) d = jsOr a d := by
  cases h : truthy (jsOr a d)
  · rw [jsOr_of_falsy a d h]
    cases hd : truthy d <;> simp [jsOr, hd]
  · exact jsOr_of_truthy _ _ h

theorem truthy_example (x : String) : truthy (.str ("Example: " ++ x)) = true := by
  have hne : "Example: " ++ x ≠ "" := by
    intro h
    have hd := congrArg String.length h
    simp only [String.length_append] at hd
    have h9 : "Example: ".length = 9 := rfl
    have h0 : "".length = 0 := rfl
    omega
  simpa [truthy] using hne

theorem field_obj (ps : Props) (k : String) : field (.obj ps) k = lookupProp ps k := rfl

theorem repairedEntry_idem (t : String) (v : JsVal) :
    repairedEntry t (repairedEntry t v) = repairedEntry t v := by
  have hu : ∀ d' : JsVal,
      jsOr (some (jsOr (field v "usageScenario")
        (.str ("Example: " ++ renderText (jsOrOpt (field v "collocation") (field v "word"))))))
        d'
      = jsOr (field v "usageScenario")
        (.str ("Example: " ++ renderText (jsOrOpt (field v "collocation") (field v "word")))) := by
    intro d'
    apply jsOr_of_truthy
    rw [truthy_jsOr, truthy_example, Bool.or_true]
  simp only [repairedEntry]
  generalize hw : field v "word" = w
  generalize hm : field v "meaning" = m
  generalize ho : field v "originalSentence" = o
  generalize hc : field v "collocation" = c
  generalize hr : field v "reason" = r
  generalize hs : field v "usageScenario" = u
  rw [hw, hc, hs] at hu
  simp only [repairedEntry, field_obj, lookupProp, if_true, String.reduceEq, if_false,
    jsOr_jsOr, hu]

theorem itemRenders_repairedEntry (t : String) (v : JsVal) :
    itemRenders (repairedEntry t v) = true := by
  simp only [itemRenders, repairedEntry, heapProps, lookupProp, if_true, String.reduceEq,
    if_false, truthyOpt, truthy_jsOr, truthy_example, Bool.or_true, Bool.true_or]

theorem keptEntry_repairedEntry (t : String) (v : JsVal) (h : keptEntry v = true) :
    keptEntry (repairedEntry t v) = true := by
  simp only [keptEntry, Bool.and_eq_true] at h
  have hobj : ∀ ps : Props, truthy (.obj ps) = true := fun _ => rfl
  have hty : ∀ ps : Props, typeofObject (.obj ps) = true := fun _ => rfl
  have hto : ∀ x : JsVal, truthyOpt (some x) = truthy x := fun _ => rfl
  simp only [keptEntry, repairedEntry, field_obj, lookupProp, if_true, hto, truthy_jsOr,
    h.2, hobj, hty, Bool.true_or, Bool.and_self]

theorem repairedVocabulary_all_render (t : String) (x : Option JsVal) :
    (repairedVocabulary t x).all itemRenders = true := by
  rw [List.all_eq_true]
  intro e he
  have : ∃ v, e = repairedEntry t v := by
    cases x with
    | none => cases he
    | some s =>
        cases s with
        | arr elems ps =>
            simp only [repairedVocabulary, List.mem_map] at he
            obtain ⟨v, _, hv⟩ := he
            exact ⟨v, hv.symm⟩
        | null => cases he
        | bool b => cases he
        | num n => cases he
        | str n => cases he
        | obj n => cases he
  obtain ⟨v, rfl⟩ := this
  exact itemRenders_repairedEntry t v

theorem repairedVocabulary_idem (t : String) (x : Option JsVal) (vp : Props) :
    repairedVocabulary t (some (.arr (repairedVocabulary t x) vp)) = repairedVocabulary t x := by
  have key : ∀ elems : List JsVal,
      (((elems.filter keptEntry).map (repairedEntry t)).filter keptEntry).map (repairedEntry t)
        = (elems.filter keptEntry).map (repairedEntry t) := by
    intro elems
    induction elems with
    | nil => rfl
    | cons v rest ih =>
        by_cases hk : keptEntry v = true
        · simp only [List.filter_cons, hk, if_true, List.map_cons,
            keptEntry_repairedEntry t v hk, repairedEntry_idem, ih]
        · simp only [List.filter_cons, hk, if_false, ih, Bool.false_eq_true]
  cases x with
  | none => rfl
  | some s =>
      cases s with
      | arr elems ps => exact key elems
      | null => rfl
      | bool b => rfl
      | num n => rfl
      | str n => rfl
      | obj n => rfl

theorem fixThemesProps_idem (tp : Props) :
    fixThemesProps (fixThemesProps tp) = fixThemesProps tp := by
  have hg : truthy (.str "General") = true := by decide
  have h1 : truthyOpt (lookupProp (fixThemesProps tp) "primary") = true := by
    rw [lookup_fixThemesProps_primary]
    simp only [truthyOpt, truthy_jsOr, hg, Bool.or_true]
  have h2 : isArrayOpt (lookupProp (fixThemesProps tp) "secondary") = true := by
    rw [lookup_fixThemesProps_secondary]
    exact isArrayOpt_ite _
  have h3 : isArrayOpt (lookupProp (fixThemesProps tp) "custom") = true := by
    rw [lookup_fixThemesProps_custom]
    exact isArrayOpt_ite _
  generalize fixThemesProps tp = qs at h1 h2 h3
  simp only [fixThemesProps, h1, h2, h3, if_true]

theorem resultThemes_fixed (x : Option JsVal) (ps : Props)
    (h : lookupProp ps "themes" = some (resultThemes x)) : themesProps ps = ps := by
  cases x with
  | none =>
      simp only [themesProps, h, resultThemes, defaultThemes]
      apply assignProp_self
      rw [h]
      rfl
  | some v =>
      cases v with
      | obj tp =>
          simp only [themesProps, h, resultThemes, fixThemesProps_idem]
          exact assignProp_self _ _ _ h
      | arr es tp =>
          simp only [themesProps, h, resultThemes, fixThemesProps_idem]
          exact assignProp_self _ _ _ h
      | null =>
          simp only [themesProps, h, resultThemes, defaultThemes]
          apply assignProp_self
          rw [h]
          rfl
      | bool b =>
          simp only [themesProps, h, resultThemes, defaultThemes]
          apply assignProp_self
          rw [h]
          rfl
      | num n =>
          simp only [themesProps, h, resultThemes, defaultThemes]
          apply assignProp_self
          rw [h]
          rfl
      | str n =>
          simp only [themesProps, h, resultThemes, defaultThemes]
          apply assignProp_self
          rw [h]
          rfl

theorem resultOpinion_fixed (x : Option JsVal) (ps : Props)
    (h : lookupProp ps "opinion" = some (resultOpinion x)) : opinionProps ps = ps := by
  cases x with
  | none => simp only [opinionProps, h, resultOpinion, defaultOpinion]
  | some v => cases v <;> simp only [opinionProps, h, resultOpinion, defaultOpinion]

/-- The properties of a result are left as they are by lines 126-158. -/
theorem normalizeProps_fixed (ps : Props) (t : String) (rep : List JsVal) :
    normalizeProps (assignProp (normalizeProps ps t) "vocabulary" (.arr rep [])) t
      = assignProp (normalizeProps ps t) "vocabulary" (.arr rep []) := by
  generalize hQ : assignProp (normalizeProps ps t) "vocabulary" (.arr rep []) = Q
  have hl : ∀ k, lookupProp Q k
      = if "vocabulary" = k then some (.arr rep []) else lookupProp (normalizeProps ps t) k := by
    intro k
    rw [← hQ, lookupProp_assignProp]
  have hvoc : vocabularyProps Q = Q := by
    simp only [vocabularyProps, hl, if_true, isArrayOpt, isArray]
  have hthemes : themesProps Q = Q := by
    apply resultThemes_fixed (lookupProp ps "themes")
    rw [hl, if_neg (by decide), lookup_normalizeProps_themes]
  have htags : tagsProps Q = Q := by
    have : isArrayOpt (lookupProp Q "tags") = true := by
      rw [hl, if_neg (by decide), lookup_normalizeProps_tags]
      exact isArrayOpt_ite _
    simp only [tagsProps, this, if_true]
  have hsummary : summaryProps Q = Q := by
    have hd : truthy (.str "文本摘要生成失败") = true := by decide
    have : truthyOpt (lookupProp Q "summary") = true := by
      rw [hl, if_neg (by decide), lookup_normalizeProps_summary]
      simp only [truthyOpt, truthy_jsOr, hd, Bool.or_true]
    simp only [summaryProps, this, if_true]
  have htranslation : translationProps Q t = Q := by
    have hv : lookupProp Q "translation"
        = some (jsOr (lookupProp ps "translation") (.str t)) := by
      rw [hl, if_neg (by decide), lookup_normalizeProps_translation]
    cases htr : truthy (jsOr (lookupProp ps "translation") (.str t))
    · have hfalse : truthyOpt (lookupProp Q "translation") = false := by
        rw [hv]; exact htr
      simp only [translationProps, hfalse, Bool.false_eq_true, if_false]
      apply assignProp_self
      rw [hv, jsOr_of_falsy _ _ htr]
    · have htrue : truthyOpt (lookupProp Q "translation") = true := by
        rw [hv]; exact htr
      simp only [translationProps, htrue, if_true]
  have hopinion : opinionProps Q = Q := by
    apply resultOpinion_fixed (lookupProp ps "opinion")
    rw [hl, if_neg (by decide), lookup_normalizeProps_opinion]
  simp only [normalizeProps, hvoc, hthemes, htags, hsummary, htranslation, hopinion]

/-- What `validateAnalysisResult` returns is returned unchanged by a second call. -/
theorem validateAnalysisResult_fixed (p r : JsVal) (t : String)
    (h : validateAnalysisResult p t = .ok r) : validateAnalysisResult r t = .ok r := by
  cases hp : heapProps p with
  | none =>
      rw [validateAnalysisResult_not_heap p t hp] at h
      cases h
  | some ps =>
      cases hr : vocabularyRenders p with
      | false =>
          rw [validateAnalysisResult_heap_error p ps t hp hr] at h
          cases h
      | true =>
          rw [validateAnalysisResult_heap_ok p ps t hp hr] at h
          simp only [Except.ok.injEq] at h
          subst h
          generalize hrep : repairedVocabulary t (lookupProp ps "vocabulary") = rep
          have hall : rep.all itemRenders = true := by
            rw [← hrep]
            exact repairedVocabulary_all_render t _
          have hidem : repairedVocabulary t (some (.arr rep [])) = rep := by
            rw [← hrep]
            exact repairedVocabulary_idem t _ []
          have hq := heapProps_withProps p ps
            (assignProp (normalizeProps ps t) "vocabulary" (.arr rep [])) hp
          have hlook : lookupProp (assignProp (normalizeProps ps t) "vocabulary" (.arr rep []))
              "vocabulary" = some (.arr rep []) := by
            rw [lookupProp_assignProp, if_pos rfl]
          have hrenders : vocabularyRenders
              (withProps p (assignProp (normalizeProps ps t) "vocabulary" (.arr rep [])))
                = true := by
            rw [vocabularyRenders_heap _ _ hq, hlook]
            exact hall
          rw [validateAnalysisResult_heap_ok _ _ t hq hrenders, withProps_withProps,
            normalizeProps_fixed, hlook, hidem, assignProp_self _ _ _ hlook]

/-- C29: a second pass of `validateAnalysisResult` changes nothing.  For every value
`p` and every string `t`, evaluating `validateAnalysisResult(validateAnalysisResult(p,
t), t)` has the outcome of `validateAnalysisResult(p, t)` (the same result, or the
exception of the first pass); in particular whatever the first pass returns is returned
unchanged by the second pass, with the same vocabulary items and the same values of
every field. -/
theorem validateAnalysisResult_idempotent (p : JsVal) (t : String) :
    (validateAnalysisResult p t >>= fun r => validateAnalysisResult r t)
        = validateAnalysisResult p t ∧
    (∀ r, validateAnalysisResult p t = .ok r → validateAnalysisResult r t = .ok r) ∧
    (heapProps p ≠ none → vocabularyRenders p = true →
      ∃ r, validateAnalysisResult p t = .ok r) := by
  refine ⟨?_, fun r h => validateAnalysisResult_fixed p r t h, ?_⟩
  · cases h : validateAnalysisResult p t with
    | error e => rfl
    | ok r =>
        show validateAnalysisResult r t = .ok r
        exact validateAnalysisResult_fixed p r t h
  · intro hp hr
    cases hps : heapProps p with
    | none => exact absurd hps hp
    | some ps => exact ⟨_, validateAnalysisResult_heap_ok p ps t hps hr⟩

theorem validateAnalysisResult_idempotent_witness :
    validateAnalysisResult
        (.obj [
          ("vocabulary", .arr [.obj [("word", .str "gig"), ("meaning", .str ""),
              ("originalSentence", .str "The gig economy...."), ("collocation", .str ""),
              ("reason", .str "Important vocabulary"),
              ("usageScenario", .str "Example: gig")]] []),
          ("summary", .str "文本摘要生成失败"),
          ("themes", .obj [("primary", .str "Work & Economy"), ("secondary", emptyArray),
              ("custom", emptyArray)]),
          ("tags", emptyArray),
          ("translation", .str "The gig economy."),
          ("opinion", defaultOpinion)]) "The gig economy."
      = .ok (.obj [
          ("vocabulary", .arr [.obj [("word", .str "gig"), ("meaning", .str ""),
              ("originalSentence", .str "The gig economy...."), ("collocation", .str ""),
              ("reason", .str "Important vocabulary"),
              ("usageScenario", .str "Example: gig")]] []),
          ("summary", .str "文本摘要生成失败"),
          ("themes", .obj [("primary", .str "Work & Economy"), ("secondary", emptyArray),
              ("custom", emptyArray)]),
          ("tags", emptyArray),
          ("translation", .str "The gig economy."),
          ("opinion", defaultOpinion)]) :=
  (validateAnalysisResult_idempotent
    (.obj [("vocabulary", .arr [.obj [("word", .str "gig")], .obj [("meaning", .str "x")]] []),
           ("summary", .str ""),
           ("themes", .obj [("primary", .str "Work & Economy")])])
    "The gig economy.").2.1 _ rfl

/-! ## `validateThemes` -/

/-- The closed form of `validateThemes` on an object or array. -/
theorem validateThemes_heap (v : JsVal) (ps : Props) (h : heapProps v = some ps) :
    validateThemes (some v) =
      .obj [("primary", validPrimary (lookupProp ps "primary")),
            ("secondary", .arr (validSecondary (lookupProp ps "secondary")) []),
            ("custom", arrayOrEmpty (lookupProp ps "custom"))] := by
  have key : ∀ a b c : Option JsVal,
      JsVal.obj [
        ("primary",
          match a with
          | some p => if truthy p && includesTheme p then p else .str "General"
          | none => .str "General"),
        ("secondary",
          match b with
          | some (.arr elems _) => .arr (elems.filter includesTheme) []
          | _ => emptyArray),
        ("custom", arrayOrEmpty c)]
      = .obj [("primary", validPrimary a), ("secondary", .arr (validSecondary b) []),
              ("custom", arrayOrEmpty c)] := by
    intro a b c
    cases a with
    | none =>
        cases b with
        | none => rfl
        | some s => cases s <;> rfl
    | some p =>
        cases b with
        | none => rfl
        | some s => cases s <;> rfl
  rcases heapProps_cases h with rfl | ⟨es, rfl⟩
  · exact key _ _ _
  · exact key _ _ _

theorem validateThemes_not_heap (x : Option JsVal) (h : x.bind heapProps = none) :
    validateThemes x =
      .obj [("primary", .str "General"), ("secondary", .arr [] []),
            ("custom", emptyArray)] := by
  cases x with
  | none => rfl
  | some v =>
      cases v with
      | null => rfl
      | bool b => simp [validateThemes, typeofObject, emptyArray]
      | num n => simp [validateThemes, typeofObject, emptyArray]
      | str s => simp [validateThemes, typeofObject, emptyArray]
      | arr es ps => simp [heapProps] at h
      | obj ps => simp [heapProps] at h

theorem arrayOrEmpty_idem (x : Option JsVal) :
    arrayOrEmpty (some (arrayOrEmpty x)) = arrayOrEmpty x := by
  cases x with
  | none => rfl
  | some v => cases v <;> rfl

theorem truthy_of_includesTheme (q : JsVal) (h : includesTheme q = true) :
    truthy q = true := by
  cases q with
  | str s =>
      have : s ≠ "" := by
        rintro rfl
        exact absurd h (by decide)
      simpa [truthy] using this
  | null => simp [includesTheme] at h
  | bool b => simp [includesTheme] at h
  | num n => simp [includesTheme] at h
  | arr a b => simp [includesTheme] at h
  | obj a => simp [includesTheme] at h

theorem validPrimary_cases (x : Option JsVal) :
    (includesTheme (validPrimary x) = true ∧ x = some (validPrimary x)) ∨
      validPrimary x = .str "General" := by
  cases x with
  | none => exact Or.inr rfl
  | some p =>
      by_cases hc : (truthy p && includesTheme p) = true
      · have hv : validPrimary (some p) = p := by simp only [validPrimary, hc, if_true]
        rw [hv]
        simp only [Bool.and_eq_true] at hc
        exact Or.inl ⟨hc.2, rfl⟩
      · exact Or.inr (by simp only [validPrimary, hc]; rfl)

theorem validPrimary_member (q : JsVal) (h : includesTheme q = true) :
    validPrimary (some q) = q := by
  simp [validPrimary, h, truthy_of_includesTheme q h]

theorem validPrimary_idem (x : Option JsVal) :
    validPrimary (some (validPrimary x)) = validPrimary x := by
  rcases validPrimary_cases x with ⟨h, _⟩ | h
  · exact validPrimary_member _ h
  · rw [h]; rfl

theorem validSecondary_idem (x : Option JsVal) :
    validSecondary (some (.arr (validSecondary x) [])) = validSecondary x := by
  simp only [validSecondary, List.filter_filter, Bool.and_self]
  cases x with
  | none => rfl
  | some s => cases s <;> simp [validSecondary, List.filter_filter]

/-- C30: for every input (`undefined` included), `validateThemes` returns an object
with exactly the fields `primary`, `secondary` and `custom`: `primary` is the input
`primary` when that is a member of `PREDEFINED_THEMES` and is `'General'` otherwise;
`secondary` is the input `secondary` filtered, in order, to the members of
`PREDEFINED_THEMES` (a sub-list of it), and empty when the input `secondary` is not
an array; `custom` is the input `custom` when that is an array and `[]` otherwise;
and applying `validateThemes` to the result returns the result. -/
theorem validateThemes_spec (themes : Option JsVal) :
    ∃ (p cus : JsVal) (sec : List JsVal),
      validateThemes themes
        = .obj [("primary", p), ("secondary", .arr sec []), ("custom", cus)] ∧
      ((includesTheme p = true ∧ (themes.bind fun v => field v "primary") = some p) ∨
        p = .str "General") ∧
      (∀ q, (themes.bind fun v => field v "primary") = some q → includesTheme q = true →
        p = q) ∧
      (∀ elems ps, (themes.bind fun v => field v "secondary") = some (.arr elems ps) →
        sec = elems.filter includesTheme ∧ sec.Sublist elems) ∧
      (isArrayOpt (themes.bind fun v => field v "secondary") = false → sec = []) ∧
      (∀ x ∈ sec, includesTheme x = true) ∧
      (∀ elems ps, (themes.bind fun v => field v "custom") = some (.arr elems ps) →
        cus = .arr elems ps) ∧
      (isArrayOpt (themes.bind fun v => field v "custom") = false → cus = emptyArray) ∧
      validateThemes (some (validateThemes themes)) = validateThemes themes := by
  cases hh : themes.bind heapProps with
  | none =>
      have hf : ∀ k, (themes.bind fun v => field v k) = none := by
        intro k
        cases themes with
        | none => rfl
        | some v => cases v <;> first | rfl | simp [heapProps] at hh
      refine ⟨.str "General", emptyArray, [], validateThemes_not_heap themes hh, Or.inr rfl,
        ?_, ?_, ?_, ?_, ?_, ?_, ?_⟩
      · intro q hq; rw [hf] at hq; cases hq
      · intro elems ps hq; rw [hf] at hq; cases hq
      · intro _; rfl
      · intro x hx; cases hx
      · intro elems ps hq; rw [hf] at hq; cases hq
      · intro _; rfl
      · rw [validateThemes_not_heap themes hh]; rfl
  | some ps =>
      obtain ⟨v, rfl, hv⟩ : ∃ v, themes = some v ∧ heapProps v = some ps := by
        cases themes with
        | none => cases hh
        | some v => exact ⟨v, rfl, hh⟩
      have hf : ∀ k, ((some v).bind fun v => field v k) = lookupProp ps k := by
        intro k
        simp only [Option.some_bind, field_eq, hv]
      simp only [hf]
      rw [validateThemes_heap v ps hv]
      refine ⟨_, _, _, rfl, ?_, ?_, ?_, ?_, ?_, ?_, ?_, ?_⟩
      · rcases validPrimary_cases (lookupProp ps "primary") with h | h
        · exact Or.inl h
        · exact Or.inr h
      · intro q hq hinc
        rw [hq]
        exact validPrimary_member q hinc
      · intro elems qs hq
        rw [hq]
        exact ⟨rfl, List.filter_sublist _⟩
      · intro hq
        cases hsv : lookupProp ps "secondary" with
        | none => rfl
        | some s =>
            cases s with
            | arr a b => simp [hsv, isArrayOpt, isArray] at hq
            | null => rfl
            | bool b => rfl
            | num n => rfl
            | str n => rfl
            | obj n => rfl
      · intro x hx
        cases hsv : lookupProp ps "secondary" with
        | none => rw [hsv] at hx; cases hx
        | some s =>
            rw [hsv] at hx
            cases s with
            | arr a b => exact (List.mem_filter.mp hx).2
            | null => cases hx
            | bool b => cases hx
            | num n => cases hx
            | str n => cases hx
            | obj n => cases hx
      · intro elems qs hq
        rw [hq]; rfl
      · intro hq
        cases hc : lookupProp ps "custom" with
        | none => rfl
        | some c =>
            cases c with
            | arr a b => simp [hc, isArrayOpt, isArray] at hq
            | null => rfl
            | bool b => rfl
            | num n => rfl
            | str n => rfl
            | obj n => rfl
      · rw [validateThemes_heap (.obj _) _ rfl]
        simp only [lookupProp, if_true, String.reduceEq, if_false, arrayOrEmpty_idem,
          validPrimary_idem, validSecondary_idem]

theorem validateThemes_spec_witness :
    ∃ (p cus : JsVal) (sec : List JsVal),
      validateThemes (some (.obj [("primary", .str "Science"),
          ("secondary", .arr [.str "Health", .str "Gardening", .str "Crime"] []),
          ("custom", .arr [.str "Gig work"] [])]))
        = .obj [("primary", p), ("secondary", .arr sec []), ("custom", cus)] ∧
      sec = [.str "Health", .str "Crime"] ∧ cus = .arr [.str "Gig work"] [] ∧
      p = .str "Science" := by
  obtain ⟨p, cus, sec, h1, _, h3, h4, _, _, h7, _, _⟩ :=
    validateThemes_spec (some (.obj [("primary", .str "Science"),
      ("secondary", .arr [.str "Health", .str "Gardening", .str "Crime"] []),
      ("custom", .arr [.str "Gig work"] [])]))
  exact ⟨p, cus, sec, h1, (h4 _ [] rfl).1.trans rfl, h7 _ [] rfl,
    h3 _ rfl (by decide)⟩

end Langoflow
